import Mathlib

/-!
# OpenSky_BL: the serial bootloader of `main.c`

A shallow embedding of `bootloader_decode_address` and of the protocol state
machine of `bootloader_main`, followed by theorems about them.

Conventions of the embedding

* `uint8_t` and `uint16_t` values are natural numbers; an assignment that can
  leave the width of its variable carries an explicit `% 256` or `% 65536`.
* The constants of `main.h`, `device.h` and `flash.h` are the fields of `Config`.
* The UART is a list of bytes still to be received and a list of bytes sent.
  `uart_getc` on an empty list never returns (`Result.blocked`).
* The flash driver is a record of functions over an arbitrary driver state; every
  call is also appended to a log.
* The part of `bootloader_main` in front of the loop takes the reading of the bootloader
  pin and the memory it peeks at as inputs and logs the hardware routines it calls.
* Of the locals of `bootloader_main`, `state`, `command` and `buffer` are read
  before they are written in some `case`, so they live in `World`.  The other
  locals (`rx`, `address`, `data_ptr`, `checksum`, `len`, `len16`, `i`) are assigned
  in every `case` before their first use there and are `let`-bound.
-/

namespace OpenSkyBL

/-- Constants of the headers `main.h`, `device.h` and `flash.h`. -/
structure Config where
  FLASH_SIZE : Nat
  PAGECOUNT_BOOTLOADER : Nat
  PAGECOUNT_FLASH : Nat
  BOOTLOADER_SIZE : Nat
  BOOTLOADER_VERSION : Nat
  BOOTLOADER_DEVICE_ID : Nat
  BOOTLOADER_COMMAND_INIT : Nat
  BOOTLOADER_COMMAND_GET : Nat
  BOOTLOADER_COMMAND_GET_VERSION : Nat
  BOOTLOADER_COMMAND_GET_ID : Nat
  BOOTLOADER_COMMAND_READ_MEMORY : Nat
  BOOTLOADER_COMMAND_GO : Nat
  BOOTLOADER_COMMAND_WRITE_MEMORY : Nat
  BOOTLOADER_COMMAND_ERASE : Nat
  BOOTLOADER_RESPONSE_ACK : Nat
  BOOTLOADER_RESPONSE_NACK : Nat

/-- The seven commands of the inner `switch (command)`, in the order of its labels. -/
def Config.commands (cfg : Config) : List Nat :=
  [cfg.BOOTLOADER_COMMAND_GET, cfg.BOOTLOADER_COMMAND_GET_VERSION,
   cfg.BOOTLOADER_COMMAND_GET_ID, cfg.BOOTLOADER_COMMAND_READ_MEMORY,
   cfg.BOOTLOADER_COMMAND_GO, cfg.BOOTLOADER_COMMAND_WRITE_MEMORY,
   cfg.BOOTLOADER_COMMAND_ERASE]

/-- What the program needs of its constants: the `case` labels are pairwise different
(the C compiler demands it), `10 + command` fits the `uint8_t state`, INIT is no command,
ACK and NACK are different bytes, and the page counts fit the `uint8_t` loop counter. -/
structure Config.WF (cfg : Config) : Prop where
  nodup : (cfg.BOOTLOADER_COMMAND_INIT :: cfg.commands).Nodup
  small : ∀ c ∈ cfg.commands, c < 245
  init_lt : cfg.BOOTLOADER_COMMAND_INIT < 256
  ack_ne : cfg.BOOTLOADER_RESPONSE_ACK ≠ cfg.BOOTLOADER_RESPONSE_NACK
  pages_lt : cfg.PAGECOUNT_BOOTLOADER < cfg.PAGECOUNT_FLASH
  pages_le : cfg.PAGECOUNT_FLASH ≤ 255

/-- One call of the flash driver, as logged. -/
inductive FlashCall where
  | read (address : Nat) (count : Nat)
  | write (address : Nat) (data : List Nat)
  | erase (page : Nat)
  deriving DecidableEq, Repr

/-- The flash driver of `flash.h`, over a driver state `F`. -/
structure FlashIface (F : Type) where
  flash_read : F → Nat → Nat → List Nat
  flash_write_data : F → Nat → List Nat → Bool × F
  flash_erase_page : F → Nat → Bool × F

/-- Everything `bootloader_main` can read or change. -/
structure World (F : Type) where
  state : Nat
  command : Nat
  buffer : List Nat
  inp : List Nat
  out : List Nat
  flash : F
  calls : List FlashCall
  EA : Nat
  IEN0 : Nat
  IEN1 : Nat
  IEN2 : Nat

/-- How a piece of code ends. -/
inductive Result (α : Type) where
  | ok (a : α)
  | blocked
  | fault
  | hang
  | jumped (address : Nat)
  deriving DecidableEq, Repr

/-- A piece of code: it ends in some way and leaves a world behind. -/
def Exec (F : Type) (α : Type) : Type := World F → Result α × World F

/-- Code that does nothing but return `a`. -/
def Exec.ret {F α : Type} (a : α) : Exec F α := fun w => (Result.ok a, w)

/-- Sequencing: the second part runs only when the first one returned. -/
def Exec.seq {F α β : Type} (x : Exec F α) (f : α → Exec F β) : Exec F β := fun w =>
  match x w with
  | (Result.ok a, w1) => f a w1
  | (Result.blocked, w1) => (Result.blocked, w1)
  | (Result.fault, w1) => (Result.fault, w1)
  | (Result.hang, w1) => (Result.hang, w1)
  | (Result.jumped a, w1) => (Result.jumped a, w1)

instance {F : Type} : Monad (Exec F) where
  pure := Exec.ret
  bind := Exec.seq

/-- The call `uart_getc()`: the next received byte; it never returns when none arrives. -/
def uart_getc {F : Type} : Exec F Nat := fun w =>
  match w.inp with
  | [] => (Result.blocked, w)
  | b :: rest => (Result.ok b, { w with inp := rest })

/-- The call `uart_putc(b)`: the byte is appended to the bytes sent. -/
def uart_putc {F : Type} (b : Nat) : Exec F Unit := fun w =>
  (Result.ok (), { w with out := w.out ++ [b] })

/-- The assignment `state = s`. -/
def set_state {F : Type} (s : Nat) : Exec F Unit := fun w =>
  (Result.ok (), { w with state := s })

/-- The assignment `command = c`. -/
def set_command {F : Type} (c : Nat) : Exec F Unit := fun w =>
  (Result.ok (), { w with command := c })

/-- The value of `command`. -/
def get_command {F : Type} : Exec F Nat := fun w =>
  (Result.ok w.command, w)

/-- The store `buffer[p] = v`; outside the array it is a fault. -/
def store {F : Type} (p v : Nat) : Exec F Unit := fun w =>
  if p < w.buffer.length then (Result.ok (), { w with buffer := w.buffer.set p v })
  else (Result.fault, w)

/-- The load `buffer[p]`; outside the array it is a fault. -/
def load {F : Type} (p : Nat) : Exec F Nat := fun w =>
  if p < w.buffer.length then (Result.ok (w.buffer.getD p 0), w)
  else (Result.fault, w)

/-- The call `flash_read(address, buffer, n)`: the driver fills the first `n` bytes of
`buffer`. -/
def flash_read {F : Type} (fl : FlashIface F) (address n : Nat) : Exec F Unit := fun w =>
  let data := (fl.flash_read w.flash address n).take n
  if n ≤ w.buffer.length then
    (Result.ok (), { w with buffer := data ++ w.buffer.drop data.length,
                            calls := w.calls ++ [FlashCall.read address n] })
  else (Result.fault, w)

/-- The call `flash_write_data(address, buffer, n)`: the driver gets the first `n` bytes of
`buffer`. -/
def flash_write_data {F : Type} (fl : FlashIface F) (address n : Nat) : Exec F Bool := fun w =>
  if n ≤ w.buffer.length then
    let r := fl.flash_write_data w.flash address (w.buffer.take n)
    (Result.ok r.1, { w with flash := r.2,
                             calls := w.calls ++ [FlashCall.write address (w.buffer.take n)] })
  else (Result.fault, w)

/-- The call `flash_erase_page(page)`. -/
def flash_erase_page {F : Type} (fl : FlashIface F) (page : Nat) : Exec F Bool := fun w =>
  let r := fl.flash_erase_page w.flash page
  (Result.ok r.1, { w with flash := r.2, calls := w.calls ++ [FlashCall.erase page] })

/-- The function `bootloader_decode_address(&address)`: its return value and `*address`. -/
def bootloader_decode_address {F : Type} (cfg : Config) : Exec F (Nat × Nat) := do
  let checksum := 0
  let b0 ← uart_getc
  let checksum := checksum ^^^ b0
  let b1 ← uart_getc
  let checksum := checksum ^^^ b1
  -- high byte of 16bit
  let rx ← uart_getc
  let address := rx
  let checksum := checksum ^^^ rx
  -- low byte of 16bit
  let rx ← uart_getc
  let address := ((address <<< 8) ||| rx) % 65536
  let checksum := checksum ^^^ rx
  -- read address checksum
  let rx ← uart_getc
  if rx ≠ checksum then
    return (0, address)
  else if address > cfg.FLASH_SIZE then
    return (0, address)
  else
    return (1, address)

/-- The loop `for (i = 0; i < len; i++) { rx = uart_getc(); *data_ptr++ = rx; checksum ^= rx; }`
of WRITE_MEMORY and ERASE, by the number `n` of rounds left (`len - i`): it returns
`data_ptr` and `checksum`. -/
def recv_loop {F : Type} : Nat → Nat → Nat → Exec F (Nat × Nat)
  | 0, data_ptr, checksum => pure (data_ptr, checksum)
  | n + 1, data_ptr, checksum => do
    let rx ← uart_getc
    store data_ptr rx
    recv_loop n (data_ptr + 1) (checksum ^^^ rx)

/-- The loop `while (len--) { uart_putc(*data_ptr++); }` of READ_MEMORY, by `len`. -/
def send_loop {F : Type} : Nat → Nat → Exec F Unit
  | 0, _ => pure ()
  | n + 1, data_ptr => do
    let b ← load data_ptr
    uart_putc b
    send_loop n (data_ptr + 1)

/-- The loop `for (i = PAGECOUNT_BOOTLOADER; i < PAGECOUNT_FLASH; i++) { buffer[len] = i; len++; }`
of the full erase, with `uint8_t i` and `uint8_t len`; it returns `len`.  The first argument
bounds the number of rounds: `i` takes at most 256 values before it repeats, so a run that
uses up 257 rounds never leaves the loop (`Result.hang`). -/
def mark_loop {F : Type} (cfg : Config) : Nat → Nat → Nat → Exec F Nat
  | 0, _, _ => fun w => (Result.hang, w)
  | fuel + 1, i, len =>
    if i < cfg.PAGECOUNT_FLASH then do
      store len i
      mark_loop cfg fuel ((i + 1) % 256) ((len + 1) % 256)
    else
      pure len

/-- The loop `while (len--) { if (!flash_erase_page(*data_ptr++)) { state = 0xFF; break; } }`
of ERASE, by `len`.  Its `break` leaves the `while` loop, not the `switch`: the
code after the loop runs next. -/
def erase_loop {F : Type} (fl : FlashIface F) : Nat → Nat → Exec F Unit
  | 0, _ => pure ()
  | n + 1, data_ptr => do
    let page ← load data_ptr
    let r ← flash_erase_page fl page
    if r then erase_loop fl n (data_ptr + 1)
    else set_state 0xFF

/-- The labels `case (0)` and `default`: fetch the command byte. -/
def case_idle {F : Type} (cfg : Config) : Exec F Unit := do
  let command ← uart_getc
  set_command command
  if command = cfg.BOOTLOADER_COMMAND_INIT then
    uart_putc cfg.BOOTLOADER_RESPONSE_ACK
  else
    set_state 1

/-- The label `case (1)`: check the inverted command byte. -/
def case_checksum {F : Type} (cfg : Config) : Exec F Unit := do
  let rx ← uart_getc
  let command ← get_command
  if rx = command ^^^ 0xFF then
    if command ∈ cfg.commands then do
      uart_putc cfg.BOOTLOADER_RESPONSE_ACK
      set_state ((10 + command) % 256)
    else
      set_state 0xFF
  else if rx = cfg.BOOTLOADER_COMMAND_INIT then do
    uart_putc cfg.BOOTLOADER_RESPONSE_ACK
    set_state 0
  else
    set_command rx

/-- The label `case (10 + BOOTLOADER_COMMAND_GET)`. -/
def case_get {F : Type} (cfg : Config) : Exec F Unit := do
  uart_putc 7
  uart_putc cfg.BOOTLOADER_VERSION
  uart_putc cfg.BOOTLOADER_COMMAND_GET
  uart_putc cfg.BOOTLOADER_COMMAND_GET_VERSION
  uart_putc cfg.BOOTLOADER_COMMAND_GET_ID
  uart_putc cfg.BOOTLOADER_COMMAND_READ_MEMORY
  uart_putc cfg.BOOTLOADER_COMMAND_GO
  uart_putc cfg.BOOTLOADER_COMMAND_WRITE_MEMORY
  uart_putc cfg.BOOTLOADER_COMMAND_ERASE
  uart_putc cfg.BOOTLOADER_RESPONSE_ACK
  set_state 0

/-- The label `case (10 + BOOTLOADER_COMMAND_GET_ID)`. -/
def case_get_id {F : Type} (cfg : Config) : Exec F Unit := do
  uart_putc 1
  uart_putc (cfg.BOOTLOADER_DEVICE_ID >>> 8)
  uart_putc (cfg.BOOTLOADER_DEVICE_ID &&& 0xFF)
  uart_putc cfg.BOOTLOADER_RESPONSE_ACK
  set_state 0

/-- The label `case (10 + BOOTLOADER_COMMAND_GET_VERSION)`. -/
def case_get_version {F : Type} (cfg : Config) : Exec F Unit := do
  uart_putc cfg.BOOTLOADER_VERSION
  uart_putc 0x00
  uart_putc 0x00
  uart_putc cfg.BOOTLOADER_RESPONSE_ACK
  set_state 0

/-- The label `case (10 + BOOTLOADER_COMMAND_READ_MEMORY)`. -/
def case_read_memory {F : Type} (cfg : Config) (fl : FlashIface F) : Exec F Unit := do
  let (valid, address) ← bootloader_decode_address cfg
  if valid = 0 then
    set_state 0xFF
  else do
    uart_putc cfg.BOOTLOADER_RESPONSE_ACK
    let len ← uart_getc
    let checksum ← uart_getc
    if len ≠ checksum ^^^ 0xFF then
      set_state 0xFF
    else do
      uart_putc cfg.BOOTLOADER_RESPONSE_ACK
      -- fetch flash content (len+1 bytes!)
      flash_read fl address ((len + 1) % 65536)
      let data_ptr := 0
      let b ← load data_ptr
      uart_putc b
      send_loop len (data_ptr + 1)
      set_state 0

/-- The jump `jump_helper()` of GO: control leaves the bootloader. -/
def jump_to {F : Type} (address : Nat) : Exec F Unit := fun w =>
  (Result.jumped address, w)

/-- The assignments `EA = 0; IEN0 = 0; IEN1 = 0; IEN2 = 0;`. -/
def disable_interrupts {F : Type} : Exec F Unit := fun w =>
  (Result.ok (), { w with EA := 0, IEN0 := 0, IEN1 := 0, IEN2 := 0 })

/-- The label `case (10 + BOOTLOADER_COMMAND_GO)`. -/
def case_go {F : Type} (cfg : Config) : Exec F Unit := do
  let (valid, address) ← bootloader_decode_address cfg
  if valid = 0 then
    set_state 0xFF
  else do
    uart_putc cfg.BOOTLOADER_RESPONSE_ACK
    disable_interrupts
    jump_to address
    set_state 0

/-- The label `case (10 + BOOTLOADER_COMMAND_WRITE_MEMORY)`. -/
def case_write_memory {F : Type} (cfg : Config) (fl : FlashIface F) : Exec F Unit := do
  let (valid, address) ← bootloader_decode_address cfg
  if valid = 0 then
    set_state 0xFF
  else do
    uart_putc cfg.BOOTLOADER_RESPONSE_ACK
    -- fetch len
    let len ← uart_getc
    let checksum := len
    let data_ptr := 0
    -- we will have to write len+1 bytes
    let len16 := (len + 1) % 65536
    -- we can only start the write on even addresses
    let (address, data_ptr, len16) ←
      (if address &&& 1 ≠ 0 then do
        store data_ptr 0xFF
        pure ((address + 65535) % 65536, data_ptr + 1, (len16 + 1) % 65536)
      else
        pure (address, data_ptr, len16) : Exec F (Nat × Nat × Nat))
    -- retrieve N+1 data bytes
    let rx ← uart_getc
    store data_ptr rx
    let (data_ptr, checksum) ← recv_loop len (data_ptr + 1) (checksum ^^^ rx)
    -- verify checksum
    let rx ← uart_getc
    if checksum ≠ rx then
      set_state 0xFF
    else do
      -- we have to write an even number of bytes as well
      let len16 ←
        (if len16 &&& 1 ≠ 0 then do
          store data_ptr 0xFF
          pure ((len16 + 1) % 65536)
        else
          pure len16 : Exec F Nat)
      let r ← flash_write_data fl address len16
      if r then do
        uart_putc cfg.BOOTLOADER_RESPONSE_ACK
        set_state 0
      else
        set_state 0xFF

/-- The end of `case (10 + BOOTLOADER_COMMAND_ERASE)`, from `data_ptr = &buffer[0];` on: both
ways of staging the pages reach it.  The `break` after the first `flash_erase_page` leaves
the `switch`; the one inside the `while` loop does not. -/
def erase_commit {F : Type} (cfg : Config) (fl : FlashIface F) (len : Nat) : Exec F Unit := do
  let data_ptr := 0
  let page ← load data_ptr
  let r ← flash_erase_page fl page
  if r then do
    erase_loop fl len (data_ptr + 1)
    -- execute suceeded!
    uart_putc cfg.BOOTLOADER_RESPONSE_ACK
    set_state 0
  else
    set_state 0xFF

/-- The label `case (10 + BOOTLOADER_COMMAND_ERASE)`. -/
def case_erase {F : Type} (cfg : Config) (fl : FlashIface F) : Exec F Unit := do
  -- get number of pages to be erased
  let len ← uart_getc
  let checksum := len
  if len = 0xFF then do
    -- special case, full flash erase
    let confirm ← uart_getc
    if confirm = 0x00 then do
      let len ← mark_loop cfg 257 (cfg.PAGECOUNT_BOOTLOADER % 256) 0
      erase_commit cfg fl len
    else
      set_state 0xFF
  else do
    -- fetch len+1 pages to be erased
    let data_ptr := 0
    let rx ← uart_getc
    store data_ptr rx
    let (_, checksum) ← recv_loop len (data_ptr + 1) (checksum ^^^ rx)
    -- fetch checksum
    let rx ← uart_getc
    if rx ≠ checksum then
      set_state 0xFF
    else
      erase_commit cfg fl len

/-- The label `case (0xFF)`: send NACK and go to idle. -/
def case_abort {F : Type} (cfg : Config) : Exec F Unit := do
  uart_putc cfg.BOOTLOADER_RESPONSE_NACK
  set_state 0

/-- One round of `while (1) { switch (state) { ... } }`. -/
def step {F : Type} (cfg : Config) (fl : FlashIface F) : Exec F Unit := fun w =>
  if w.state = 0 then case_idle cfg w
  else if w.state = 1 then case_checksum cfg w
  else if w.state = 10 + cfg.BOOTLOADER_COMMAND_GET then case_get cfg w
  else if w.state = 10 + cfg.BOOTLOADER_COMMAND_GET_ID then case_get_id cfg w
  else if w.state = 10 + cfg.BOOTLOADER_COMMAND_GET_VERSION then case_get_version cfg w
  else if w.state = 10 + cfg.BOOTLOADER_COMMAND_READ_MEMORY then case_read_memory cfg fl w
  else if w.state = 10 + cfg.BOOTLOADER_COMMAND_GO then case_go cfg w
  else if w.state = 10 + cfg.BOOTLOADER_COMMAND_WRITE_MEMORY then case_write_memory cfg fl w
  else if w.state = 10 + cfg.BOOTLOADER_COMMAND_ERASE then case_erase cfg fl w
  else if w.state = 0xFF then case_abort cfg w
  else case_idle cfg w

/-- The first `n` rounds of the `while (1)` loop. -/
def run {F : Type} (cfg : Config) (fl : FlashIface F) : Nat → Exec F Unit
  | 0 => pure ()
  | n + 1 => do
    step cfg fl
    run cfg fl n

/-- Sample values of the constants: the command and response bytes of the vendor protocol,
32 flash pages of 1 KiB, the first four of them holding the bootloader. -/
def sampleConfig : Config where
  FLASH_SIZE := 0x8000
  PAGECOUNT_BOOTLOADER := 4
  PAGECOUNT_FLASH := 32
  BOOTLOADER_SIZE := 0x1000
  BOOTLOADER_VERSION := 0x10
  BOOTLOADER_DEVICE_ID := 0x0410
  BOOTLOADER_COMMAND_INIT := 0x7F
  BOOTLOADER_COMMAND_GET := 0x00
  BOOTLOADER_COMMAND_GET_VERSION := 0x01
  BOOTLOADER_COMMAND_GET_ID := 0x02
  BOOTLOADER_COMMAND_READ_MEMORY := 0x11
  BOOTLOADER_COMMAND_GO := 0x21
  BOOTLOADER_COMMAND_WRITE_MEMORY := 0x31
  BOOTLOADER_COMMAND_ERASE := 0x43
  BOOTLOADER_RESPONSE_ACK := 0x79
  BOOTLOADER_RESPONSE_NACK := 0x1F

/-- A flash driver without memory: every write and erase succeeds, every read gives 0xFF. -/
def blankFlash : FlashIface Unit where
  flash_read := fun _ _ n => List.replicate n 0xFF
  flash_write_data := fun _ _ _ => (true, ())
  flash_erase_page := fun _ _ => (true, ())

/-- A flash driver whose `flash_erase_page` fails on page `bad` and on no other page. -/
def failingFlash (bad : Nat) : FlashIface Unit where
  flash_read := fun _ _ n => List.replicate n 0xFF
  flash_write_data := fun _ _ _ => (true, ())
  flash_erase_page := fun _ page => (page != bad, ())

/-- An ideal byte store: the driver state is the content of the memory. -/
def idealFlash : FlashIface (Nat → Nat) where
  flash_read := fun mem address n => (List.range n).map (fun i => mem (address + i))
  flash_write_data := fun mem address data =>
    (true, fun a => if address ≤ a ∧ a < address + data.length then data.getD (a - address) 0
                    else mem a)
  flash_erase_page := fun mem _ => (true, mem)

/-- The world at the start of the `while (1)` loop (`state = 0`, `command = 0`), with the
given buffer content, bytes to receive and driver state. -/
def World.start {F : Type} (buffer inp : List Nat) (flash : F) : World F where
  state := 0
  command := 0
  buffer := buffer
  inp := inp
  out := []
  flash := flash
  calls := []
  EA := 1
  IEN0 := 0
  IEN1 := 0
  IEN2 := 0

/-- The content of `buf` after `data` was stored at the indices `p`, `p + 1`, ... -/
def blit (buf : List Nat) (p : Nat) (data : List Nat) : List Nat :=
  buf.take p ++ data ++ buf.drop (p + data.length)

/-- The running XOR `checksum ^= rx` over the bytes of `data`, started at `seed`. -/
def xor_fold (seed : Nat) (data : List Nat) : Nat :=
  data.foldl (fun checksum rx => checksum ^^^ rx) seed

/-- The bytes WRITE_MEMORY has staged at the start of `buffer` when it calls the driver:
0xFF before the payload for an odd address, 0xFF after it when the count is odd then. -/
def staged_write (address : Nat) (payload : List Nat) : List Nat :=
  (if address % 2 = 1 then [0xFF] else []) ++ payload ++
    (if (payload.length + address % 2) % 2 = 1 then [0xFF] else [])

/-- The calls of `flash_erase_page` for the pages `ps` in order, up to and including the first
one that fails: whether all succeeded, the driver state afterwards, the pages passed. -/
def erase_pages {F : Type} (fl : FlashIface F) : F → List Nat → Bool × F × List Nat
  | f, [] => (true, f, [])
  | f, p :: ps =>
    if (fl.flash_erase_page f p).1 = true then
      ((erase_pages fl (fl.flash_erase_page f p).2 ps).1,
       (erase_pages fl (fl.flash_erase_page f p).2 ps).2.1,
       p :: (erase_pages fl (fl.flash_erase_page f p).2 ps).2.2)
    else
      (false, (fl.flash_erase_page f p).2, [p])

/-- The outcome "Abort, then NACK" of a command: the round in the command's state returns
with state 0xFF and without any call of the flash driver, and the next round sends NACK and
sets state 0. -/
def AbortsWithNack {F : Type} (cfg : Config) (fl : FlashIface F) (w : World F) : Prop :=
  ∃ w1 : World F, step cfg fl w = (Result.ok (), w1) ∧ w1.state = 0xFF ∧
    w1.calls = w.calls ∧ w1.flash = w.flash ∧
    step cfg fl w1 =
      (Result.ok (), { w1 with out := w1.out ++ [cfg.BOOTLOADER_RESPONSE_NACK], state := 0 })

/-- One call of a hardware routine that `bootloader_main` makes outside the protocol loop
(`io.h`, `led.h`, `delay.h`, `uart.h`, `flash.h` and `bootloader_init`), as logged. -/
inductive HwCall where
  | io_init
  | led_init
  | delay_ms (ms : Nat)
  | bootloader_init
  | uart_init
  | flash_init
  | led_green_on
  | led_red_off
  deriving DecidableEq, Repr

/-- The world of `bootloader_main` together with the log of the hardware routines called. -/
structure Board (F : Type) where
  world : World F
  hw : List HwCall

/-- The function `bootloader_jump_to_app()`: all interrupt enables are cleared, then
`ljmp #(BOOTLOADER_SIZE)` leaves the bootloader. -/
def bootloader_jump_to_app {F : Type} (cfg : Config) : Exec F Unit := do
  disable_interrupts
  jump_to cfg.BOOTLOADER_SIZE

/-- The part of `bootloader_main` in front of `while (1)`: the initial values of `state` and
`command`, the entry decision and the start of the hardware.  The reading of
`io_bootloader_enabled()` and the memory `xdata` read at `BOOTLOADER_SIZE` are inputs. -/
def bootloader_entry {F : Type} (cfg : Config) (io_bootloader_enabled : Bool)
    (xdata : Nat → Nat) (b : Board F) : Result Unit × Board F :=
  -- io_init(); led_init(); delay_ms(25);
  let b1 : Board F :=
    { world := { b.world with state := 0, command := 0 },
      hw := b.hw ++ [HwCall.io_init, HwCall.led_init, HwCall.delay_ms 25] }
  -- bootloader_init(); uart_init(); flash_init(); led_green_on(); led_red_off();
  let b2 : Board F :=
    { b1 with hw := b1.hw ++ [HwCall.bootloader_init, HwCall.uart_init, HwCall.flash_init,
                              HwCall.led_green_on, HwCall.led_red_off] }
  if io_bootloader_enabled = false then
    -- bootloader enable pin pulled low
    if xdata cfg.BOOTLOADER_SIZE ≠ 0xFF then
      -- there is valid flash content on this address
      ((bootloader_jump_to_app cfg b1.world).1,
        { b1 with world := (bootloader_jump_to_app cfg b1.world).2 })
    else
      (Result.ok (), b2)
  else
    (Result.ok (), b2)

/-- The function `bootloader_main()` with the first `n` rounds of its `while (1)` loop. -/
def bootloader_main {F : Type} (cfg : Config) (fl : FlashIface F)
    (io_bootloader_enabled : Bool) (xdata : Nat → Nat) (n : Nat) (b : Board F) :
    Result Unit × Board F :=
  match bootloader_entry cfg io_bootloader_enabled xdata b with
  | (Result.ok _, b1) =>
    ((run cfg fl n b1.world).1, { b1 with world := (run cfg fl n b1.world).2 })
  | (Result.blocked, b1) => (Result.blocked, b1)
  | (Result.fault, b1) => (Result.fault, b1)
  | (Result.hang, b1) => (Result.hang, b1)
  | (Result.jumped a, b1) => (Result.jumped a, b1)

/-- The driver state after `flash_erase_page` was called for the pages `ps` in order. -/
def flash_after {F : Type} (fl : FlashIface F) (f : F) (ps : List Nat) : F :=
  ps.foldl (fun g page => (fl.flash_erase_page g page).2) f

/-- The bounds of a logged driver call: a start address of `flash_read` or
`flash_write_data` at most `FLASH_SIZE`, at most 256 bytes read, at most 258 bytes written. -/
def FlashCall.Bounded (cfg : Config) : FlashCall → Prop
  | FlashCall.read address count => address ≤ cfg.FLASH_SIZE ∧ count ≤ 256
  | FlashCall.write address data => address ≤ cfg.FLASH_SIZE ∧ data.length ≤ 258
  | FlashCall.erase _ => True

/-- What the types of the program guarantee at the start of every round of the loop, and
what the rounds keep: `buffer` has 258 bytes, `uart_getc` delivers bytes, and the driver
calls made so far are within their bounds. -/
def Base {F : Type} (cfg : Config) (w : World F) : Prop :=
  w.buffer.length = 258 ∧ (∀ b ∈ w.inp, b < 256) ∧ (∀ c ∈ w.calls, c.Bounded cfg)

/-- The values of `state` that the dispatcher reaches: 0 (Idle), 1 (AwaitChecksum) with a
pending command that is not INIT, 0xFF (Abort) and `10 + c` for the seven commands. -/
def StateInv {F : Type} (cfg : Config) (w : World F) : Prop :=
  w.state = 0 ∨ (w.state = 1 ∧ w.command ≠ cfg.BOOTLOADER_COMMAND_INIT) ∨ w.state = 0xFF ∨
    ∃ c ∈ cfg.commands, w.state = 10 + c

/-- What a command handler entered with `state = s0` and `command = c0` keeps at every point:
the facts of `Base`, the value of `command`, and a `state` that is `s0`, 0 or 0xFF. -/
def HandlerInv {F : Type} (cfg : Config) (s0 c0 : Nat) (w : World F) : Prop :=
  Base cfg w ∧ w.command = c0 ∧ (w.state = s0 ∨ w.state = 0 ∨ w.state = 0xFF)

/-- A piece of code keeps the invariant `I` when, started in a world with `I`, it leaves a
world with `I` however it ends, it does not end in a fault, it jumps only to addresses up to
`FLASH_SIZE`, and a value it returns satisfies `Q`. -/
def Keeps {F α : Type} (cfg : Config) (I : World F → Prop) (x : Exec F α) (Q : α → Prop) :
    Prop :=
  ∀ w, I w →
    I (x w).2 ∧ (x w).1 ≠ Result.fault ∧
    (∀ a, (x w).1 = Result.jumped a → a ≤ cfg.FLASH_SIZE) ∧
    (∀ v, (x w).1 = Result.ok v → Q v)

/-! ## Evaluation lemmas -/

section Eval

variable {F : Type}

@[simp] theorem bind_apply {α β : Type} (x : Exec F α) (f : α → Exec F β) (w : World F) :
    (x >>= f) w = Exec.seq x f w := rfl

@[simp] theorem pure_apply {α : Type} (a : α) (w : World F) :
    (pure a : Exec F α) w = (Result.ok a, w) := rfl

theorem seq_ok {α β : Type} {x : Exec F α} {f : α → Exec F β} {w w1 : World F} {a : α}
    (h : x w = (Result.ok a, w1)) : Exec.seq x f w = f a w1 := by
  unfold Exec.seq
  rw [h]

theorem bind_ok {α β : Type} {x : Exec F α} {f : α → Exec F β} {w w1 : World F} {a : α}
    (h : x w = (Result.ok a, w1)) : (x >>= f) w = f a w1 :=
  seq_ok h

theorem uart_getc_cons {w : World F} {b : Nat} {rest : List Nat} (h : w.inp = b :: rest) :
    uart_getc w = (Result.ok b, { w with inp := rest }) := by
  unfold uart_getc
  rw [h]

theorem shl8_or (hi lo : Nat) (hhi : hi < 256) (hlo : lo < 256) :
    ((hi <<< 8) ||| lo) % 65536 = hi * 256 + lo := by
  have h := Nat.mul_add_lt_is_or (i := 8) (b := lo) (by simpa using hlo) hi
  rw [Nat.shiftLeft_eq, Nat.mul_comm, ← h]
  norm_num
  omega

/-- What `bootloader_decode_address` does with five bytes on the line. -/
theorem decode_address_eval (cfg : Config) (w : World F) (b0 b1 hi lo ck : Nat)
    (rest : List Nat) (hhi : hi < 256) (hlo : lo < 256)
    (hin : w.inp = b0 :: b1 :: hi :: lo :: ck :: rest) :
    bootloader_decode_address cfg w =
      (Result.ok (if ck = b0 ^^^ b1 ^^^ hi ^^^ lo ∧ hi * 256 + lo ≤ cfg.FLASH_SIZE then 1 else 0,
        hi * 256 + lo), { w with inp := rest }) := by
  simp only [bootloader_decode_address]
  rw [bind_ok (uart_getc_cons hin)]
  rw [bind_ok (uart_getc_cons rfl)]
  rw [bind_ok (uart_getc_cons rfl)]
  rw [bind_ok (uart_getc_cons rfl)]
  rw [bind_ok (uart_getc_cons rfl)]
  simp only [shl8_or hi lo hhi hlo, Nat.zero_xor]
  by_cases h1 : ck = b0 ^^^ b1 ^^^ hi ^^^ lo
  · by_cases h2 : hi * 256 + lo ≤ cfg.FLASH_SIZE
    · have h3 : ¬ cfg.FLASH_SIZE < hi * 256 + lo := by omega
      simp [h1, h2, h3]
    · have h3 : cfg.FLASH_SIZE < hi * 256 + lo := by omega
      simp [h1, h2, h3]
  · simp [h1]

theorem blit_nil (buf : List Nat) (p : Nat) : blit buf p [] = buf := by
  simp [blit]

theorem blit_set (buf : List Nat) (p b : Nat) (data : List Nat) (hp : p < buf.length) :
    blit (buf.set p b) (p + 1) data = blit buf p (b :: data) := by
  unfold blit
  rw [List.set_eq_take_append_cons_drop, if_pos hp]
  have h1 : (List.take p buf ++ [b]).length = p + 1 := by simp; omega
  have h2 : List.take p buf ++ b :: List.drop (p + 1) buf
      = (List.take p buf ++ [b]) ++ List.drop (p + 1) buf := by simp
  rw [h2, List.take_left' h1, ← List.drop_drop, List.drop_left' h1, List.drop_drop]
  have h3 : p + 1 + data.length = p + (b :: data).length := by simp; omega
  rw [h3]
  simp

theorem length_blit (buf : List Nat) (p : Nat) (data : List Nat)
    (h : p + data.length ≤ buf.length) : (blit buf p data).length = buf.length := by
  simp [blit]
  omega

theorem blit_zero (buf data : List Nat) : blit buf 0 data = data ++ buf.drop data.length := by
  simp [blit]

theorem blit_zero_set (buf data : List Nat) (v : Nat) (h : data.length < buf.length) :
    (blit buf 0 data).set data.length v = blit buf 0 (data ++ [v]) := by
  rw [blit_zero, blit_zero, List.set_append_right _ _ (le_refl _)]
  simp only [Nat.sub_self, List.length_append, List.length_singleton, List.append_assoc]
  congr 1
  rw [List.set_eq_take_append_cons_drop, if_pos (by simp; omega)]
  simp [List.drop_drop]

theorem take_blit_zero (buf data : List Nat) : (blit buf 0 data).take data.length = data := by
  rw [blit_zero, List.take_left]

theorem xor_fold_cons (seed b : Nat) (data : List Nat) :
    xor_fold seed (b :: data) = xor_fold (seed ^^^ b) data := rfl

theorem store_ok {w : World F} {p : Nat} (v : Nat) (h : p < w.buffer.length) :
    store p v w = (Result.ok (), { w with buffer := w.buffer.set p v }) := by
  unfold store
  rw [if_pos h]

theorem load_ok {w : World F} {p : Nat} (h : p < w.buffer.length) :
    load p w = (Result.ok (w.buffer.getD p 0), w) := by
  unfold load
  rw [if_pos h]

/-- The receive loop with all its bytes on the line: they are stored from `data_ptr` on and
folded into the checksum. -/
theorem recv_loop_eval (payload : List Nat) :
    ∀ (n p c : Nat) (w : World F) (rest : List Nat), w.inp = payload ++ rest →
      payload.length = n → p + n ≤ w.buffer.length →
      recv_loop n p c w =
        (Result.ok (p + n, xor_fold c payload),
          { w with inp := rest, buffer := blit w.buffer p payload }) := by
  induction payload with
  | nil =>
    intro n p c w rest hin hn _
    subst hn
    cases w
    simp_all [recv_loop, blit_nil, xor_fold, Exec.ret, pure]
  | cons b tail ih =>
    intro n p c w rest hin hn hp
    subst hn
    simp only [List.length_cons, recv_loop]
    rw [bind_ok (uart_getc_cons hin)]
    rw [bind_ok (store_ok b (by simp only [List.length_cons] at hp; show p < w.buffer.length; omega))]
    rw [ih tail.length (p + 1) (c ^^^ b) _ rest rfl rfl
      (by simp only [List.length_cons, List.length_set] at hp ⊢; omega)]
    simp only [xor_fold_cons]
    rw [blit_set _ _ _ _ (by simp only [List.length_cons] at hp; omega)]
    have h : p + 1 + tail.length = p + (tail.length + 1) := by omega
    rw [h]

theorem uart_putc_eval (b : Nat) (w : World F) :
    uart_putc b w = (Result.ok (), { w with out := w.out ++ [b] }) := rfl

theorem set_state_eval (s : Nat) (w : World F) :
    set_state s w = (Result.ok (), { w with state := s }) := rfl

/-- The end of WRITE_MEMORY: the driver gets the staged bytes, and its answer decides between
ACK and the abort state. -/
theorem write_finish (cfg : Config) (fl : FlashIface F) (w1 : World F) (B D : List Nat)
    (addr n : Nat) (hw : w1.buffer = blit B 0 D) (hn : D.length = n) (hB : n ≤ B.length) :
    (flash_write_data fl addr n >>= fun r =>
        if r = true then do
          uart_putc cfg.BOOTLOADER_RESPONSE_ACK
          set_state 0
        else set_state 255) w1 =
      (Result.ok (),
        { w1 with state := if (fl.flash_write_data w1.flash addr D).1 = true then 0 else 255,
                  out := if (fl.flash_write_data w1.flash addr D).1 = true
                         then w1.out ++ [cfg.BOOTLOADER_RESPONSE_ACK] else w1.out,
                  flash := (fl.flash_write_data w1.flash addr D).2,
                  calls := w1.calls ++ [FlashCall.write addr D] }) := by
  have hlen : n ≤ w1.buffer.length := by
    rw [hw, length_blit _ _ _ (by omega)]
    exact hB
  have htake : w1.buffer.take n = D := by
    rw [hw, ← hn, take_blit_zero]
  have e : flash_write_data fl addr n w1 =
      (Result.ok (fl.flash_write_data w1.flash addr D).1,
        { w1 with flash := (fl.flash_write_data w1.flash addr D).2,
                  calls := w1.calls ++ [FlashCall.write addr D] }) := by
    unfold flash_write_data
    rw [if_pos hlen, htake]
  rw [bind_ok e]
  by_cases hr : (fl.flash_write_data w1.flash addr D).1 = true
  · simp only [hr, if_true]
    rw [bind_ok (uart_putc_eval _ _)]
    rfl
  · simp only [hr, if_false]
    rfl

/-- WRITE_MEMORY with a valid address frame and a whole data frame on the line. -/
theorem case_write_memory_eval (cfg : Config) (fl : FlashIface F) (w : World F)
    (b0 b1 hi lo ack len ck : Nat) (payload rest : List Nat)
    (hhi : hi < 256) (hlo : lo < 256) (hack : ack = b0 ^^^ b1 ^^^ hi ^^^ lo)
    (haddr : hi * 256 + lo ≤ cfg.FLASH_SIZE) (hlen : len < 256)
    (hpl : payload.length = len + 1) (hbuf : w.buffer.length = 258)
    (hin : w.inp = b0 :: b1 :: hi :: lo :: ack :: len :: (payload ++ ck :: rest)) :
    case_write_memory cfg fl w =
      if ck = xor_fold len payload then
        let address := hi * 256 + lo - (hi * 256 + lo) % 2
        let data := staged_write (hi * 256 + lo) payload
        let r := fl.flash_write_data w.flash address data
        (Result.ok (),
          { w with inp := rest, buffer := blit w.buffer 0 data, flash := r.2,
                   calls := w.calls ++ [FlashCall.write address data],
                   out := if r.1 then w.out ++ [cfg.BOOTLOADER_RESPONSE_ACK,
                            cfg.BOOTLOADER_RESPONSE_ACK]
                          else w.out ++ [cfg.BOOTLOADER_RESPONSE_ACK],
                   state := if r.1 then 0 else 0xFF })
      else
        (Result.ok (),
          { w with inp := rest,
                   buffer := blit w.buffer 0
                     ((if (hi * 256 + lo) % 2 = 1 then [0xFF] else []) ++ payload),
                   out := w.out ++ [cfg.BOOTLOADER_RESPONSE_ACK], state := 0xFF }) := by
  obtain ⟨d0, tail, rfl⟩ : ∃ d0 tail, payload = d0 :: tail := by
    cases payload with
    | nil => simp at hpl
    | cons d0 tail => exact ⟨d0, tail, rfl⟩
  have htl : tail.length = len := by simpa using hpl
  obtain ⟨state, command, buffer, inp, out, flash, calls, ea, i0, i1, i2⟩ := w
  dsimp only at hin hbuf
  subst hin
  simp only [case_write_memory]
  rw [bind_ok (decode_address_eval cfg _ b0 b1 hi lo ack _ hhi hlo rfl)]
  simp only [hack, haddr, and_self, if_true, one_ne_zero, if_false]
  rw [bind_ok (uart_putc_eval _ _), bind_ok (uart_getc_cons rfl)]
  dsimp only
  have hA : hi * 256 + lo < 65536 := by omega
  generalize hi * 256 + lo = A at hA haddr ⊢
  simp only [Nat.and_one_is_mod]
  have hl16 : (len + 1) % 65536 = len + 1 := by omega
  rw [hl16]
  by_cases hodd : A % 2 = 1
  · -- odd address: a leading 0xFF, one byte more
    have h1 : A % 2 ≠ 0 := by omega
    have h2 : (A + 65535) % 65536 = A - 1 := by omega
    have h3 : (len + 1 + 1) % 65536 = len + 2 := by omega
    simp only [h1, ne_eq, not_false_eq_true, if_true, h2, h3]
    have e1 : ∀ w1 : World F, w1.buffer.length = 258 →
        (store 0 255 >>= fun _ => (pure (A - 1, 0 + 1, len + 2) : Exec F (Nat × Nat × Nat))) w1
          = (Result.ok (A - 1, 1, len + 2), { w1 with buffer := w1.buffer.set 0 255 }) := by
      intro w1 hw1
      rw [bind_ok (store_ok 255 (by omega))]
      rfl
    rw [bind_ok (e1 _ hbuf)]
    dsimp only
    rw [bind_ok (uart_getc_cons rfl)]
    rw [bind_ok (store_ok d0 (by simp [hbuf]))]
    dsimp only
    rw [bind_ok (recv_loop_eval tail len (1 + 1) (len ^^^ d0) _ (ck :: rest) (by simp) htl
      (by simp [hbuf]; omega))]
    dsimp only
    rw [bind_ok (uart_getc_cons rfl)]
    dsimp only
    rw [blit_set _ 1 d0 tail (by simp [hbuf]), blit_set _ 0 255 _ (by omega),
      ← xor_fold_cons]
    by_cases hck : ck = xor_fold len (d0 :: tail)
    · subst hck
      simp only [not_true_eq_false, if_false, if_true]
      by_cases hlo2 : len % 2 = 1
      · -- len16 = len + 2 is odd: a trailing 0xFF
        have h4 : ¬ (len + 2) % 2 = 0 := by omega
        have h5 : (len + 2 + 1) % 65536 = len + 3 := by omega
        have h6 : staged_write A (d0 :: tail) = (255 :: d0 :: tail) ++ [255] := by
          simp [staged_write, hodd, htl]
          omega
        have h7 : (255 :: d0 :: tail).length = 1 + 1 + len := by simp [htl]; omega
        have h8 : ((255 :: d0 :: tail) ++ [255]).length = len + 3 := by simp [htl]
        simp only [h4, not_false_eq_true, if_true, h5]
        have e2 : ∀ w1 : World F, w1.buffer = blit buffer 0 (255 :: d0 :: tail) →
            (store (1 + 1 + len) 255 >>= fun _ => (pure (len + 3) : Exec F Nat)) w1
              = (Result.ok (len + 3),
                  { w1 with buffer := blit buffer 0 ((255 :: d0 :: tail) ++ [255]) }) := by
          intro w1 hw1
          rw [bind_ok (store_ok 255 (by rw [hw1, length_blit _ _ _ (by omega)]; omega))]
          rw [hw1, ← h7, blit_zero_set _ _ _ (by omega)]
          rfl
        rw [bind_ok (e2 _ rfl)]
        dsimp only
        rw [write_finish cfg fl _ buffer _ (A - 1) (len + 3) rfl h8 (by omega)]
        have h9 : A - A % 2 = A - 1 := by omega
        simp only [h6, h9]
        by_cases hr : (fl.flash_write_data flash (A - 1) (255 :: d0 :: tail ++ [255])).1 = true
        · simp [hr]
        · simp [hr]
      · -- len16 = len + 2 is even
        have h4 : (len + 2) % 2 = 0 := by omega
        have h6 : staged_write A (d0 :: tail) = 255 :: d0 :: tail := by
          simp [staged_write, hodd, htl]
          omega
        have h8 : (255 :: d0 :: tail).length = len + 2 := by simp [htl]
        simp only [h4, not_true_eq_false, if_false]
        rw [bind_ok (pure_apply _ _)]
        rw [write_finish cfg fl _ buffer _ (A - 1) (len + 2) rfl h8 (by omega)]
        have h9 : A - A % 2 = A - 1 := by omega
        simp only [h6, h9]
        by_cases hr : (fl.flash_write_data flash (A - 1) (255 :: d0 :: tail)).1 = true
        · simp [hr]
        · simp [hr]
    · have hck2 : ¬ xor_fold len (d0 :: tail) = ck := fun h => hck h.symm
      simp only [hck, hck2, not_false_eq_true, if_true, if_false, hodd]
      rfl
  · -- even address: the payload starts the buffer
    have h1 : A % 2 = 0 := by omega
    simp only [h1, ne_eq, not_true_eq_false, if_false]
    rw [bind_ok (pure_apply _ _)]
    dsimp only
    rw [bind_ok (uart_getc_cons rfl)]
    rw [bind_ok (store_ok d0 (by simp [hbuf]))]
    dsimp only
    rw [bind_ok (recv_loop_eval tail len (0 + 1) (len ^^^ d0) _ (ck :: rest) (by simp) htl
      (by simp [hbuf]; omega))]
    dsimp only
    rw [bind_ok (uart_getc_cons rfl)]
    dsimp only
    rw [blit_set _ 0 d0 tail (by omega), ← xor_fold_cons]
    by_cases hck : ck = xor_fold len (d0 :: tail)
    · subst hck
      simp only [not_true_eq_false, if_false, if_true]
      by_cases hlo2 : len % 2 = 0
      · -- len16 = len + 1 is odd: a trailing 0xFF
        have h4 : ¬ (len + 1) % 2 = 0 := by omega
        have h5 : (len + 1 + 1) % 65536 = len + 2 := by omega
        have h6 : staged_write A (d0 :: tail) = (d0 :: tail) ++ [255] := by
          simp [staged_write, h1, htl]
          omega
        have h7 : (d0 :: tail).length = 0 + 1 + len := by simp [htl]; omega
        have h8 : ((d0 :: tail) ++ [255]).length = len + 2 := by simp [htl]
        simp only [h4, not_false_eq_true, if_true, h5]
        have e2 : ∀ w1 : World F, w1.buffer = blit buffer 0 (d0 :: tail) →
            (store (0 + 1 + len) 255 >>= fun _ => (pure (len + 2) : Exec F Nat)) w1
              = (Result.ok (len + 2),
                  { w1 with buffer := blit buffer 0 ((d0 :: tail) ++ [255]) }) := by
          intro w1 hw1
          rw [bind_ok (store_ok 255 (by rw [hw1, length_blit _ _ _ (by omega)]; omega))]
          rw [hw1, ← h7, blit_zero_set _ _ _ (by omega)]
          rfl
        rw [bind_ok (e2 _ rfl)]
        dsimp only
        rw [write_finish cfg fl _ buffer _ A (len + 2) rfl h8 (by omega)]
        have h9 : A - A % 2 = A := by omega
        simp only [h6, h9]
        by_cases hr : (fl.flash_write_data flash A (d0 :: tail ++ [255])).1 = true
        · simp [hr]
        · simp [hr]
      · -- len16 = len + 1 is even
        have h4 : (len + 1) % 2 = 0 := by omega
        have h6 : staged_write A (d0 :: tail) = d0 :: tail := by
          simp [staged_write, h1, htl]
          omega
        have h8 : (d0 :: tail).length = len + 1 := by simp [htl]
        simp only [h4, not_true_eq_false, if_false]
        rw [bind_ok (pure_apply _ _)]
        rw [write_finish cfg fl _ buffer _ A (len + 1) rfl h8 (by omega)]
        have h9 : A - A % 2 = A := by omega
        simp only [h6, h9]
        by_cases hr : (fl.flash_write_data flash A (d0 :: tail)).1 = true
        · simp [hr]
        · simp [hr]
    · have hck2 : ¬ xor_fold len (d0 :: tail) = ck := fun h => hck h.symm
      have h10 : ¬ A % 2 = 1 := hodd
      simp only [hck, hck2, not_false_eq_true, if_true, if_false, h10, List.nil_append]
      rfl

/-- The labels of the outer `switch` are pairwise different and fit a byte. -/
theorem Config.WF.labels {cfg : Config} (h : cfg.WF) :
    cfg.BOOTLOADER_COMMAND_GET < 245 ∧ cfg.BOOTLOADER_COMMAND_GET_VERSION < 245 ∧
    cfg.BOOTLOADER_COMMAND_GET_ID < 245 ∧ cfg.BOOTLOADER_COMMAND_READ_MEMORY < 245 ∧
    cfg.BOOTLOADER_COMMAND_GO < 245 ∧ cfg.BOOTLOADER_COMMAND_WRITE_MEMORY < 245 ∧
    cfg.BOOTLOADER_COMMAND_ERASE < 245 ∧
    cfg.BOOTLOADER_COMMAND_GET ≠ cfg.BOOTLOADER_COMMAND_GET_VERSION ∧
    cfg.BOOTLOADER_COMMAND_GET ≠ cfg.BOOTLOADER_COMMAND_GET_ID ∧
    cfg.BOOTLOADER_COMMAND_GET ≠ cfg.BOOTLOADER_COMMAND_READ_MEMORY ∧
    cfg.BOOTLOADER_COMMAND_GET ≠ cfg.BOOTLOADER_COMMAND_GO ∧
    cfg.BOOTLOADER_COMMAND_GET ≠ cfg.BOOTLOADER_COMMAND_WRITE_MEMORY ∧
    cfg.BOOTLOADER_COMMAND_GET ≠ cfg.BOOTLOADER_COMMAND_ERASE ∧
    cfg.BOOTLOADER_COMMAND_GET_VERSION ≠ cfg.BOOTLOADER_COMMAND_GET_ID ∧
    cfg.BOOTLOADER_COMMAND_GET_VERSION ≠ cfg.BOOTLOADER_COMMAND_READ_MEMORY ∧
    cfg.BOOTLOADER_COMMAND_GET_VERSION ≠ cfg.BOOTLOADER_COMMAND_GO ∧
    cfg.BOOTLOADER_COMMAND_GET_VERSION ≠ cfg.BOOTLOADER_COMMAND_WRITE_MEMORY ∧
    cfg.BOOTLOADER_COMMAND_GET_VERSION ≠ cfg.BOOTLOADER_COMMAND_ERASE ∧
    cfg.BOOTLOADER_COMMAND_GET_ID ≠ cfg.BOOTLOADER_COMMAND_READ_MEMORY ∧
    cfg.BOOTLOADER_COMMAND_GET_ID ≠ cfg.BOOTLOADER_COMMAND_GO ∧
    cfg.BOOTLOADER_COMMAND_GET_ID ≠ cfg.BOOTLOADER_COMMAND_WRITE_MEMORY ∧
    cfg.BOOTLOADER_COMMAND_GET_ID ≠ cfg.BOOTLOADER_COMMAND_ERASE ∧
    cfg.BOOTLOADER_COMMAND_READ_MEMORY ≠ cfg.BOOTLOADER_COMMAND_GO ∧
    cfg.BOOTLOADER_COMMAND_READ_MEMORY ≠ cfg.BOOTLOADER_COMMAND_WRITE_MEMORY ∧
    cfg.BOOTLOADER_COMMAND_READ_MEMORY ≠ cfg.BOOTLOADER_COMMAND_ERASE ∧
    cfg.BOOTLOADER_COMMAND_GO ≠ cfg.BOOTLOADER_COMMAND_WRITE_MEMORY ∧
    cfg.BOOTLOADER_COMMAND_GO ≠ cfg.BOOTLOADER_COMMAND_ERASE ∧
    cfg.BOOTLOADER_COMMAND_WRITE_MEMORY ≠ cfg.BOOTLOADER_COMMAND_ERASE := by
  have h1 := h.nodup
  have h2 := h.small
  simp only [Config.commands, List.nodup_cons, List.mem_cons, List.mem_singleton, not_or,
    List.not_mem_nil, not_false_eq_true, List.nodup_nil, and_true, forall_eq_or_imp,
    forall_eq, List.mem_nil_iff, false_implies, implies_true] at h1 h2
  refine ⟨?_, ?_, ?_, ?_, ?_, ?_, ?_, ?_, ?_, ?_, ?_, ?_, ?_, ?_, ?_, ?_, ?_, ?_, ?_, ?_, ?_,
    ?_, ?_, ?_, ?_, ?_, ?_, ?_⟩ <;> tauto

/-- INIT is none of the seven commands. -/
theorem Config.WF.init_not_mem {cfg : Config} (h : cfg.WF) :
    cfg.BOOTLOADER_COMMAND_INIT ∉ cfg.commands :=
  (List.nodup_cons.mp h.nodup).1

theorem step_idle (cfg : Config) (fl : FlashIface F) (w : World F) (h : w.state = 0) :
    step cfg fl w = case_idle cfg w := by
  unfold step
  rw [if_pos h]

theorem step_checksum (cfg : Config) (fl : FlashIface F) (w : World F) (h : w.state = 1) :
    step cfg fl w = case_checksum cfg w := by
  unfold step
  rw [if_neg (by omega), if_pos h]

theorem state_ne_zero {s x : Nat} (h : s = 10 + x) : ¬ s = 0 := by omega

theorem state_ne_one {s x : Nat} (h : s = 10 + x) : ¬ s = 1 := by omega

theorem state_ne {s x y : Nat} (h : s = 10 + x) (hxy : x ≠ y) : ¬ s = 10 + y :=
  fun e => hxy (Nat.add_left_cancel (h.symm.trans e))

theorem abort_ne {s x : Nat} (h : s = 0xFF) (hx : x < 245) : ¬ s = 10 + x := by omega

theorem step_abort (cfg : Config) (fl : FlashIface F) (w : World F) (hwf : cfg.WF)
    (h : w.state = 0xFF) : step cfg fl w = case_abort cfg w := by
  obtain ⟨g, gv, gi, rm, go, wm, er, -⟩ := hwf.labels
  unfold step
  rw [if_neg (by omega), if_neg (by omega), if_neg (abort_ne h g), if_neg (abort_ne h gi),
    if_neg (abort_ne h gv), if_neg (abort_ne h rm), if_neg (abort_ne h go),
    if_neg (abort_ne h wm), if_neg (abort_ne h er), if_pos h]

theorem step_read_memory (cfg : Config) (fl : FlashIface F) (w : World F) (hwf : cfg.WF)
    (h : w.state = 10 + cfg.BOOTLOADER_COMMAND_READ_MEMORY) :
    step cfg fl w = case_read_memory cfg fl w := by
  obtain ⟨-, -, -, -, -, -, -, -, -, g_rm, -, -, -, -, gv_rm, -, -, -, gi_rm, -⟩ := hwf.labels
  unfold step
  rw [if_neg (state_ne_zero h), if_neg (state_ne_one h), if_neg (state_ne h g_rm.symm),
    if_neg (state_ne h gi_rm.symm), if_neg (state_ne h gv_rm.symm), if_pos h]

theorem step_go (cfg : Config) (fl : FlashIface F) (w : World F) (hwf : cfg.WF)
    (h : w.state = 10 + cfg.BOOTLOADER_COMMAND_GO) :
    step cfg fl w = case_go cfg w := by
  obtain ⟨-, -, -, -, -, -, -, -, -, -, g_go, -, -, -, -, gv_go, -, -, -, gi_go, -, -, rm_go, -⟩ :=
    hwf.labels
  unfold step
  rw [if_neg (state_ne_zero h), if_neg (state_ne_one h), if_neg (state_ne h g_go.symm),
    if_neg (state_ne h gi_go.symm), if_neg (state_ne h gv_go.symm),
    if_neg (state_ne h rm_go.symm), if_pos h]

theorem step_write_memory (cfg : Config) (fl : FlashIface F) (w : World F) (hwf : cfg.WF)
    (h : w.state = 10 + cfg.BOOTLOADER_COMMAND_WRITE_MEMORY) :
    step cfg fl w = case_write_memory cfg fl w := by
  obtain ⟨-, -, -, -, -, -, -, -, -, -, -, g_wm, -, -, -, -, gv_wm, -, -, -, gi_wm, -, -, rm_wm,
    -, go_wm, -⟩ := hwf.labels
  unfold step
  rw [if_neg (state_ne_zero h), if_neg (state_ne_one h), if_neg (state_ne h g_wm.symm),
    if_neg (state_ne h gi_wm.symm), if_neg (state_ne h gv_wm.symm),
    if_neg (state_ne h rm_wm.symm), if_neg (state_ne h go_wm.symm), if_pos h]

theorem step_erase (cfg : Config) (fl : FlashIface F) (w : World F) (hwf : cfg.WF)
    (h : w.state = 10 + cfg.BOOTLOADER_COMMAND_ERASE) :
    step cfg fl w = case_erase cfg fl w := by
  obtain ⟨-, -, -, -, -, -, -, -, -, -, -, -, g_er, -, -, -, -, gv_er, -, -, -, gi_er, -, -,
    rm_er, -, go_er, wm_er⟩ := hwf.labels
  unfold step
  rw [if_neg (state_ne_zero h), if_neg (state_ne_one h), if_neg (state_ne h g_er.symm),
    if_neg (state_ne h gi_er.symm), if_neg (state_ne h gv_er.symm),
    if_neg (state_ne h rm_er.symm), if_neg (state_ne h go_er.symm),
    if_neg (state_ne h wm_er.symm), if_pos h]

theorem case_abort_eval (cfg : Config) (w : World F) :
    case_abort cfg w =
      (Result.ok (), { w with out := w.out ++ [cfg.BOOTLOADER_RESPONSE_NACK], state := 0 }) :=
  rfl

theorem case_idle_eval (cfg : Config) (w : World F) (c : Nat) (rest : List Nat)
    (hin : w.inp = c :: rest) :
    case_idle cfg w =
      if c = cfg.BOOTLOADER_COMMAND_INIT then
        (Result.ok (), { w with inp := rest, command := c,
                                out := w.out ++ [cfg.BOOTLOADER_RESPONSE_ACK] })
      else
        (Result.ok (), { w with inp := rest, command := c, state := 1 }) := by
  simp only [case_idle]
  rw [bind_ok (uart_getc_cons hin)]
  split_ifs <;> rfl

theorem case_checksum_eval (cfg : Config) (w : World F) (rx : Nat) (rest : List Nat)
    (hin : w.inp = rx :: rest) :
    case_checksum cfg w =
      if rx = w.command ^^^ 0xFF then
        if w.command ∈ cfg.commands then
          (Result.ok (), { w with inp := rest, out := w.out ++ [cfg.BOOTLOADER_RESPONSE_ACK],
                                  state := (10 + w.command) % 256 })
        else
          (Result.ok (), { w with inp := rest, state := 0xFF })
      else if rx = cfg.BOOTLOADER_COMMAND_INIT then
        (Result.ok (), { w with inp := rest, out := w.out ++ [cfg.BOOTLOADER_RESPONSE_ACK],
                                state := 0 })
      else
        (Result.ok (), { w with inp := rest, command := rx }) := by
  simp only [case_checksum]
  rw [bind_ok (uart_getc_cons hin)]
  have e : get_command ({ w with inp := rest } : World F)
      = (Result.ok w.command, { w with inp := rest }) := rfl
  rw [bind_ok e]
  split_ifs <;> rfl

theorem run_succ_ok {cfg : Config} {fl : FlashIface F} {n : Nat} {w w1 : World F}
    (h : step cfg fl w = (Result.ok (), w1)) : run cfg fl (n + 1) w = run cfg fl n w1 := by
  simp only [run]
  rw [bind_ok h]

theorem run_zero (cfg : Config) (fl : FlashIface F) (w : World F) :
    run cfg fl 0 w = (Result.ok (), w) := rfl

theorem flash_erase_page_eval (fl : FlashIface F) (page : Nat) (w : World F) :
    flash_erase_page fl page w =
      (Result.ok (fl.flash_erase_page w.flash page).1,
        { w with flash := (fl.flash_erase_page w.flash page).2,
                 calls := w.calls ++ [FlashCall.erase page] }) := rfl

/-- The `while (len--)` loop of ERASE over the pages found in the buffer from `data_ptr` on:
it stops at the first failure and sets `state = 0xFF` then. -/
theorem erase_loop_eval (fl : FlashIface F) (pages : List Nat) :
    ∀ (n p : Nat) (w : World F) (pre post : List Nat), w.buffer = pre ++ pages ++ post →
      pre.length = p → pages.length = n →
      erase_loop fl n p w =
        (Result.ok (),
          { w with flash := (erase_pages fl w.flash pages).2.1,
                   calls := w.calls ++ (erase_pages fl w.flash pages).2.2.map FlashCall.erase,
                   state := if (erase_pages fl w.flash pages).1 = true then w.state
                            else 0xFF }) := by
  induction pages with
  | nil =>
    intro n p w pre post _ _ hn
    subst hn
    cases w
    simp [erase_loop, erase_pages]
  | cons q ps ih =>
    intro n p w pre post hb hp hn
    subst hn
    simp only [List.length_cons, erase_loop]
    have hlt : p < w.buffer.length := by
      rw [hb]
      simp only [List.length_append, List.length_cons]
      omega
    have hq : w.buffer.getD p 0 = q := by
      rw [hb, List.append_assoc, List.getD_append_right _ _ _ _ (by omega), hp]
      simp
    rw [bind_ok (load_ok hlt), hq, bind_ok (flash_erase_page_eval fl q w)]
    by_cases hr : (fl.flash_erase_page w.flash q).1 = true
    · rw [if_pos hr]
      rw [ih ps.length (p + 1) _ (pre ++ [q]) post (by simp [hb]) (by simp [hp]) rfl]
      simp only [erase_pages, hr, if_true, List.map_cons, List.append_assoc,
        List.singleton_append]
    · rw [if_neg hr]
      simp only [erase_pages, hr, if_false, List.map_cons, List.map_nil, Bool.false_eq_true]
      rfl

/-- The commit of ERASE for the pages `q :: ps` at the start of the buffer, with `len` the
length of `ps`.  When the first call fails the state is 0xFF and nothing is sent.  When it
succeeds the loop runs, and then ACK is sent and the state is 0, also when the loop has
stopped at a failure. -/
theorem erase_commit_eval (cfg : Config) (fl : FlashIface F) (w : World F) (q : Nat)
    (ps post : List Nat) (hb : w.buffer = q :: ps ++ post) :
    erase_commit cfg fl ps.length w =
      if (fl.flash_erase_page w.flash q).1 = true then
        (Result.ok (),
          { w with flash := (erase_pages fl w.flash (q :: ps)).2.1,
                   calls := w.calls ++ (erase_pages fl w.flash (q :: ps)).2.2.map FlashCall.erase,
                   out := w.out ++ [cfg.BOOTLOADER_RESPONSE_ACK],
                   state := 0 })
      else
        (Result.ok (),
          { w with flash := (fl.flash_erase_page w.flash q).2,
                   calls := w.calls ++ [FlashCall.erase q],
                   state := 0xFF }) := by
  simp only [erase_commit]
  have hlt : 0 < w.buffer.length := by rw [hb]; simp
  have hq : w.buffer.getD 0 0 = q := by rw [hb]; rfl
  rw [bind_ok (load_ok hlt), hq, bind_ok (flash_erase_page_eval fl q w)]
  by_cases hr : (fl.flash_erase_page w.flash q).1 = true
  · rw [if_pos hr, if_pos hr]
    rw [bind_ok (erase_loop_eval fl ps ps.length (0 + 1) _ [q] post (by simp [hb]) rfl rfl)]
    rw [bind_ok (uart_putc_eval _ _)]
    simp only [erase_pages, hr, if_true, List.map_cons, List.append_assoc,
      List.singleton_append]
    rfl
  · rw [if_neg hr, if_neg hr]
    rfl

/-- ERASE with an explicit page list on the line, up to the commit. -/
theorem case_erase_list_eval (cfg : Config) (fl : FlashIface F) (w : World F)
    (len ck : Nat) (payload rest : List Nat) (hne : len ≠ 0xFF) (hlen : len < 256)
    (hpl : payload.length = len + 1) (hbuf : w.buffer.length = 258)
    (hin : w.inp = len :: (payload ++ ck :: rest)) :
    case_erase cfg fl w =
      if ck = xor_fold len payload then
        erase_commit cfg fl len { w with inp := rest, buffer := blit w.buffer 0 payload }
      else
        (Result.ok (),
          { w with inp := rest, buffer := blit w.buffer 0 payload, state := 0xFF }) := by
  obtain ⟨d0, tail, rfl⟩ : ∃ d0 tail, payload = d0 :: tail := by
    cases payload with
    | nil => simp at hpl
    | cons d0 tail => exact ⟨d0, tail, rfl⟩
  have htl : tail.length = len := by simpa using hpl
  obtain ⟨state, command, buffer, inp, out, flash, calls, ea, i0, i1, i2⟩ := w
  dsimp only at hin hbuf
  subst hin
  simp only [case_erase]
  rw [bind_ok (uart_getc_cons rfl)]
  dsimp only
  rw [if_neg hne, bind_ok (uart_getc_cons rfl), bind_ok (store_ok d0 (by simp [hbuf]))]
  dsimp only
  rw [bind_ok (recv_loop_eval tail len (0 + 1) (len ^^^ d0) _ (ck :: rest) (by simp) htl
    (by simp [hbuf]; omega))]
  dsimp only
  rw [bind_ok (uart_getc_cons rfl)]
  dsimp only
  rw [blit_set _ 0 d0 tail (by omega), ← xor_fold_cons]
  by_cases hck : ck = xor_fold len (d0 :: tail)
  · simp only [hck, ne_eq, not_true_eq_false, if_false, if_true]
  · simp only [hck, ne_eq, not_false_eq_true, if_true, if_false]
    rfl

/-- The marking loop of the full erase for `k` pages to go: the page numbers `i`, `i + 1`, ...
are stored from index `len` on. -/
theorem mark_loop_eval (cfg : Config) :
    ∀ (k fuel i len : Nat) (w : World F), i + k = cfg.PAGECOUNT_FLASH →
      cfg.PAGECOUNT_FLASH ≤ 255 → k < fuel → len + k ≤ 255 → len + k ≤ w.buffer.length →
      mark_loop cfg fuel i len w =
        (Result.ok (len + k), { w with buffer := blit w.buffer len (List.range' i k) }) := by
  intro k
  induction k with
  | zero =>
    intro fuel i len w hi _ hf _ _
    obtain ⟨fuel, rfl⟩ : ∃ m, fuel = m + 1 := ⟨fuel - 1, by omega⟩
    cases w
    simp only [mark_loop]
    rw [if_neg (by omega)]
    simp [blit_nil]
  | succ k ih =>
    intro fuel i len w hi hpf hf hl hb
    obtain ⟨fuel, rfl⟩ : ∃ m, fuel = m + 1 := ⟨fuel - 1, by omega⟩
    simp only [mark_loop]
    rw [if_pos (by omega)]
    rw [bind_ok (store_ok i (by omega))]
    have h1 : (i + 1) % 256 = i + 1 := by omega
    have h2 : (len + 1) % 256 = len + 1 := by omega
    rw [h1, h2, ih fuel (i + 1) (len + 1) _ (by omega) hpf (by omega) (by omega)
      (by simp only [List.length_set]; omega)]
    dsimp only
    rw [blit_set _ _ _ _ (by omega), List.range'_succ]
    have h3 : len + 1 + k = len + (k + 1) := by omega
    rw [h3]

/-- The full erase (0xFF, 0x00 on the line) up to the commit: the pages from
`PAGECOUNT_BOOTLOADER` to `PAGECOUNT_FLASH - 1` start the buffer, and `len` is their number. -/
theorem case_erase_all_eval (cfg : Config) (fl : FlashIface F) (w : World F)
    (rest : List Nat) (hwf : cfg.WF) (hbuf : w.buffer.length = 258)
    (hin : w.inp = 0xFF :: 0x00 :: rest) :
    case_erase cfg fl w =
      erase_commit cfg fl (cfg.PAGECOUNT_FLASH - cfg.PAGECOUNT_BOOTLOADER)
        { w with inp := rest,
                 buffer := blit w.buffer 0
                   (List.range' cfg.PAGECOUNT_BOOTLOADER
                     (cfg.PAGECOUNT_FLASH - cfg.PAGECOUNT_BOOTLOADER)) } := by
  have h1 := hwf.pages_lt
  have h2 := hwf.pages_le
  obtain ⟨state, command, buffer, inp, out, flash, calls, ea, i0, i1, i2⟩ := w
  dsimp only at hin hbuf
  subst hin
  simp only [case_erase]
  rw [bind_ok (uart_getc_cons rfl)]
  dsimp only
  rw [if_pos rfl, bind_ok (uart_getc_cons rfl)]
  dsimp only
  rw [if_pos rfl]
  have h3 : cfg.PAGECOUNT_BOOTLOADER % 256 = cfg.PAGECOUNT_BOOTLOADER := by omega
  rw [h3, bind_ok (mark_loop_eval cfg (cfg.PAGECOUNT_FLASH - cfg.PAGECOUNT_BOOTLOADER) 257
    cfg.PAGECOUNT_BOOTLOADER 0 _ (by omega) h2 (by omega) (by omega)
    (by show _ ≤ buffer.length; omega))]
  dsimp only
  rw [Nat.zero_add]

/-- A driver whose `flash_erase_page` never fails is called for every page of the list. -/
theorem erase_pages_of_ok (fl : FlashIface F)
    (hok : ∀ f page, (fl.flash_erase_page f page).1 = true) (pages : List Nat) :
    ∀ f : F, (erase_pages fl f pages).1 = true ∧ (erase_pages fl f pages).2.2 = pages := by
  induction pages with
  | nil => intro f; exact ⟨rfl, rfl⟩
  | cons q ps ih =>
    intro f
    simp only [erase_pages, hok, if_true]
    exact ⟨(ih _).1, by rw [(ih _).2]⟩

/-- A command byte of the seven and its complement, received in Idle, take two rounds. -/
theorem run_confirm (cfg : Config) (fl : FlashIface F) (w : World F) (c n : Nat)
    (rest : List Nat) (hwf : cfg.WF) (hs : w.state = 0) (hc : c ∈ cfg.commands)
    (hin : w.inp = c :: (c ^^^ 0xFF) :: rest) :
    run cfg fl (n + 2) w =
      run cfg fl n { w with inp := rest, command := c,
                            out := w.out ++ [cfg.BOOTLOADER_RESPONSE_ACK],
                            state := 10 + c } := by
  have hne : c ≠ cfg.BOOTLOADER_COMMAND_INIT := fun e => hwf.init_not_mem (e ▸ hc)
  have hlt : c < 245 := hwf.small c hc
  have h1 : step cfg fl w
      = (Result.ok (), { w with inp := (c ^^^ 0xFF) :: rest, command := c, state := 1 }) := by
    rw [step_idle cfg fl w hs, case_idle_eval cfg w c _ hin, if_neg hne]
  rw [run_succ_ok h1]
  have h2 : step cfg fl { w with inp := (c ^^^ 0xFF) :: rest, command := c, state := 1 }
      = (Result.ok (), { w with inp := rest, command := c,
                                out := w.out ++ [cfg.BOOTLOADER_RESPONSE_ACK],
                                state := 10 + c }) := by
    rw [step_checksum cfg fl _ rfl, case_checksum_eval cfg _ (c ^^^ 0xFF) rest rfl]
    have h3 : (10 + c) % 256 = 10 + c := by omega
    simp only [if_true, hc, h3]
  rw [run_succ_ok h2]

/-- The `while (len--)` loop of READ_MEMORY over the bytes found in the buffer from
`data_ptr` on. -/
theorem send_loop_eval (bytes : List Nat) :
    ∀ (n p : Nat) (w : World F) (pre post : List Nat), w.buffer = pre ++ bytes ++ post →
      pre.length = p → bytes.length = n →
      send_loop n p w = (Result.ok (), { w with out := w.out ++ bytes }) := by
  induction bytes with
  | nil =>
    intro n p w pre post _ _ hn
    subst hn
    cases w
    simp [send_loop]
  | cons b bs ih =>
    intro n p w pre post hb hp hn
    subst hn
    simp only [List.length_cons, send_loop]
    have hlt : p < w.buffer.length := by
      rw [hb]
      simp only [List.length_append, List.length_cons]
      omega
    have hq : w.buffer.getD p 0 = b := by
      rw [hb, List.append_assoc, List.getD_append_right _ _ _ _ (by omega), hp]
      simp
    rw [bind_ok (load_ok hlt), hq, bind_ok (uart_putc_eval _ _)]
    rw [ih bs.length (p + 1) _ (pre ++ [b]) post (by simp [hb]) (by simp [hp]) rfl]
    simp

/-- READ_MEMORY with a valid address frame and a matching length pair on the line: the bytes
sent after the two ACKs are the first `len + 1` bytes of the buffer as `flash_read` left it. -/
theorem case_read_memory_eval (cfg : Config) (fl : FlashIface F) (w : World F)
    (b0 b1 hi lo ack len cks : Nat) (rest : List Nat)
    (hhi : hi < 256) (hlo : lo < 256) (hack : ack = b0 ^^^ b1 ^^^ hi ^^^ lo)
    (haddr : hi * 256 + lo ≤ cfg.FLASH_SIZE) (hlen : len < 256)
    (hcks : len = cks ^^^ 0xFF) (hbuf : w.buffer.length = 258)
    (hin : w.inp = b0 :: b1 :: hi :: lo :: ack :: len :: cks :: rest) :
    case_read_memory cfg fl w =
      (Result.ok (),
        { w with
            inp := rest,
            buffer := (fl.flash_read w.flash (hi * 256 + lo) (len + 1)).take (len + 1) ++
              w.buffer.drop ((fl.flash_read w.flash (hi * 256 + lo) (len + 1)).take
                (len + 1)).length,
            calls := w.calls ++ [FlashCall.read (hi * 256 + lo) (len + 1)],
            out := w.out ++ [cfg.BOOTLOADER_RESPONSE_ACK, cfg.BOOTLOADER_RESPONSE_ACK] ++
              ((fl.flash_read w.flash (hi * 256 + lo) (len + 1)).take (len + 1) ++
                w.buffer.drop ((fl.flash_read w.flash (hi * 256 + lo) (len + 1)).take
                  (len + 1)).length).take (len + 1),
            state := 0 }) := by
  obtain ⟨state, command, buffer, inp, out, flash, calls, ea, i0, i1, i2⟩ := w
  dsimp only at hin hbuf
  subst hin
  simp only [case_read_memory]
  rw [bind_ok (decode_address_eval cfg _ b0 b1 hi lo ack _ hhi hlo rfl)]
  simp only [hack, haddr, and_self, if_true, one_ne_zero, if_false]
  rw [bind_ok (uart_putc_eval _ _), bind_ok (uart_getc_cons rfl), bind_ok (uart_getc_cons rfl)]
  dsimp only
  simp only [hcks, ne_eq, not_true_eq_false, if_false]
  rw [bind_ok (uart_putc_eval _ _)]
  dsimp only
  rw [← hcks]
  have h16 : (len + 1) % 65536 = len + 1 := by omega
  rw [h16]
  generalize hi * 256 + lo = A
  generalize hd : (fl.flash_read flash A (len + 1)).take (len + 1) = data
  have hdl : data.length ≤ len + 1 := by
    rw [← hd, List.length_take]
    omega
  have hnl : (data ++ buffer.drop data.length).length = 258 := by
    rw [List.length_append, List.length_drop]
    omega
  have e : ∀ w1 : World F, w1.buffer = buffer → w1.flash = flash →
      flash_read fl A (len + 1) w1 =
        (Result.ok (), { w1 with buffer := data ++ buffer.drop data.length,
                                 calls := w1.calls ++ [FlashCall.read A (len + 1)] }) := by
    intro w1 hb hf
    unfold flash_read
    simp only [hb, hf, hd]
    rw [if_pos (by omega)]
  rw [bind_ok (e _ rfl rfl)]
  dsimp only
  generalize hnb : data ++ buffer.drop data.length = newbuf at hnl
  obtain ⟨x, xs, hx⟩ : ∃ x xs, newbuf.take (len + 1) = x :: xs := by
    cases h : newbuf.take (len + 1) with
    | nil =>
      have := congrArg List.length h
      simp only [List.length_take, List.length_nil] at this
      omega
    | cons x xs => exact ⟨x, xs, rfl⟩
  have hxs : xs.length = len := by
    have := congrArg List.length hx
    simp only [List.length_take, List.length_cons] at this
    omega
  have hsplit : newbuf = x :: xs ++ newbuf.drop (len + 1) := by
    rw [← hx, List.take_append_drop]
  have e2 : ∀ w1 : World F, w1.buffer = newbuf → load 0 w1 = (Result.ok x, w1) := by
    intro w1 hb
    rw [load_ok (by rw [hb]; omega)]
    rw [hb, hsplit]
    rfl
  rw [bind_ok (e2 _ rfl), bind_ok (uart_putc_eval _ _)]
  dsimp only
  rw [bind_ok (send_loop_eval xs len (0 + 1) _ [x] (newbuf.drop (len + 1)) hsplit rfl hxs)]
  dsimp only
  rw [hx]
  simp [set_state]

/-- Reading back from the ideal byte store what was just written at the same address. -/
theorem ideal_read_back (mem : Nat → Nat) (A n : Nat) (payload pad : List Nat)
    (hn : payload.length = n) :
    idealFlash.flash_read (idealFlash.flash_write_data mem A (payload ++ pad)).2 A n
      = payload := by
  subst hn
  apply List.ext_getElem
  · simp [idealFlash]
  · intro i h1 h2
    have h3 : A + i < A + (payload.length + pad.length) := by omega
    simp only [idealFlash, List.getElem_map, List.getElem_range, List.length_append,
      Nat.le_add_right, h3, and_self, if_true, Nat.add_sub_cancel_left]
    rw [List.getD_append _ _ _ _ h2, List.getD_eq_getElem _ _ h2]

/-- An address frame whose trailing byte is not the XOR of the four bytes before it. -/
theorem decode_address_reject (cfg : Config) (w : World F) (c0 c1 c2 c3 c4 : Nat)
    (rest : List Nat) (h2 : c2 < 256) (h3 : c3 < 256) (hne : c4 ≠ c0 ^^^ c1 ^^^ c2 ^^^ c3)
    (hin : w.inp = c0 :: c1 :: c2 :: c3 :: c4 :: rest) :
    bootloader_decode_address cfg w =
      (Result.ok (0, c2 * 256 + c3), { w with inp := rest }) := by
  rw [decode_address_eval cfg w c0 c1 c2 c3 c4 rest h2 h3 hin, if_neg (fun h => hne h.1)]

theorem case_read_memory_reject (cfg : Config) (fl : FlashIface F) (w w1 : World F) (a : Nat)
    (h : bootloader_decode_address cfg w = (Result.ok (0, a), w1)) :
    case_read_memory cfg fl w = (Result.ok (), { w1 with state := 0xFF }) := by
  simp only [case_read_memory]
  rw [bind_ok h]
  rfl

theorem case_go_reject (cfg : Config) (w w1 : World F) (a : Nat)
    (h : bootloader_decode_address cfg w = (Result.ok (0, a), w1)) :
    case_go cfg w = (Result.ok (), { w1 with state := 0xFF }) := by
  simp only [case_go]
  rw [bind_ok h]
  rfl

theorem case_write_memory_reject (cfg : Config) (fl : FlashIface F) (w w1 : World F) (a : Nat)
    (h : bootloader_decode_address cfg w = (Result.ok (0, a), w1)) :
    case_write_memory cfg fl w = (Result.ok (), { w1 with state := 0xFF }) := by
  simp only [case_write_memory]
  rw [bind_ok h]
  rfl

/-- READ_MEMORY with a valid address frame and a length pair that does not match. -/
theorem case_read_memory_mismatch (cfg : Config) (fl : FlashIface F) (w : World F)
    (b0 b1 hi lo ack len cks : Nat) (rest : List Nat)
    (hhi : hi < 256) (hlo : lo < 256) (hack : ack = b0 ^^^ b1 ^^^ hi ^^^ lo)
    (haddr : hi * 256 + lo ≤ cfg.FLASH_SIZE) (hcks : len ≠ cks ^^^ 0xFF)
    (hin : w.inp = b0 :: b1 :: hi :: lo :: ack :: len :: cks :: rest) :
    case_read_memory cfg fl w =
      (Result.ok (), { w with inp := rest, out := w.out ++ [cfg.BOOTLOADER_RESPONSE_ACK],
                              state := 0xFF }) := by
  simp only [case_read_memory]
  rw [bind_ok (decode_address_eval cfg _ b0 b1 hi lo ack _ hhi hlo hin)]
  simp only [hack, haddr, and_self, if_true, one_ne_zero, if_false]
  rw [bind_ok (uart_putc_eval _ _), bind_ok (uart_getc_cons rfl), bind_ok (uart_getc_cons rfl)]
  simp only [hcks, ne_eq, not_false_eq_true, if_true]
  rfl

/-- The running XOR determines its start value. -/
theorem xor_fold_seed_inj (data : List Nat) :
    ∀ s1 s2 : Nat, xor_fold s1 data = xor_fold s2 data → s1 = s2 := by
  induction data with
  | nil => intro s1 s2 h; exact h
  | cons b t ih =>
    intro s1 s2 h
    rw [xor_fold_cons, xor_fold_cons] at h
    exact Nat.xor_left_inj.mp (ih _ _ h)

/-- The running XOR changes when one byte of the data changes. -/
theorem xor_fold_set_ne (data : List Nat) :
    ∀ (s j b : Nat), j < data.length → b ≠ data.getD j 0 →
      xor_fold s (data.set j b) ≠ xor_fold s data := by
  induction data with
  | nil => intro s j b hj; simp at hj
  | cons x t ih =>
    intro s j b hj hb
    cases j with
    | zero =>
      simp only [List.set_cons_zero, xor_fold_cons]
      intro h
      exact hb (Nat.xor_right_inj.mp (xor_fold_seed_inj t _ _ h))
    | succ j =>
      simp only [List.set_cons_succ, xor_fold_cons]
      exact ih _ j b (by simpa using hj) (by simpa using hb)

/-- A data frame `len`, payload, checksum with one byte other than `len` replaced by a
different byte is again a frame with a payload of the same length, and its checksum does not
match any more. -/
theorem corrupt_frame (len ck i b : Nat) (payload : List Nat) (hck : ck = xor_fold len payload)
    (hi1 : 1 ≤ i) (hi2 : i < payload.length + 2)
    (hb : b ≠ (len :: payload ++ [ck]).getD i 0) :
    ∃ (payload2 : List Nat) (ck2 : Nat),
      (len :: payload ++ [ck]).set i b = len :: payload2 ++ [ck2] ∧
      payload2.length = payload.length ∧ ck2 ≠ xor_fold len payload2 := by
  obtain ⟨j, rfl⟩ : ∃ j, i = j + 1 := ⟨i - 1, by omega⟩
  simp only [List.cons_append, List.set_cons_succ, List.getD_cons_succ] at hb ⊢
  by_cases hj : j < payload.length
  · refine ⟨payload.set j b, ck, ?_, by simp, ?_⟩
    · rw [List.set_append_left _ _ hj]
    · rw [List.getD_append _ _ _ _ hj] at hb
      rw [hck]
      exact fun h => xor_fold_set_ne payload len j b hj hb h.symm
  · have hj2 : j = payload.length := by omega
    subst hj2
    refine ⟨payload, b, ?_, rfl, ?_⟩
    · rw [List.set_append_right _ _ (le_refl _)]
      simp
    · rw [List.getD_append_right _ _ _ _ (le_refl _)] at hb
      simp only [Nat.sub_self, List.getD_cons_zero] at hb
      rw [← hck]
      exact hb

/-- An accepted address frame with one byte replaced by a different byte is rejected by
its checksum. -/
theorem corrupt_address (b0 b1 hi lo ck i b : Nat) (hck : ck = b0 ^^^ b1 ^^^ hi ^^^ lo)
    (hhi : hi < 256) (hlo : lo < 256) (hb256 : b < 256) (hi5 : i < 5)
    (hb : b ≠ [b0, b1, hi, lo, ck].getD i 0) :
    ∃ c0 c1 c2 c3 c4 : Nat, [b0, b1, hi, lo, ck].set i b = [c0, c1, c2, c3, c4] ∧
      c2 < 256 ∧ c3 < 256 ∧ c4 ≠ c0 ^^^ c1 ^^^ c2 ^^^ c3 := by
  subst hck
  interval_cases i
  · refine ⟨b, b1, hi, lo, _, rfl, hhi, hlo, fun h => hb ?_⟩
    simpa [Nat.xor_left_inj] using h.symm
  · refine ⟨b0, b, hi, lo, _, rfl, hhi, hlo, fun h => hb ?_⟩
    simpa [Nat.xor_left_inj, Nat.xor_right_inj] using h.symm
  · refine ⟨b0, b1, b, lo, _, rfl, hb256, hlo, fun h => hb ?_⟩
    simpa [Nat.xor_left_inj, Nat.xor_right_inj] using h.symm
  · refine ⟨b0, b1, hi, b, _, rfl, hhi, hb256, fun h => hb ?_⟩
    simpa [Nat.xor_left_inj, Nat.xor_right_inj] using h.symm
  · exact ⟨b0, b1, hi, lo, b, rfl, hhi, hlo, by simpa using hb⟩

/-- A round that returns in state 0xFF without a call of the driver is followed by NACK. -/
theorem aborts_of_step (cfg : Config) (fl : FlashIface F) (w w1 : World F) (hwf : cfg.WF)
    (h : step cfg fl w = (Result.ok (), w1)) (hs : w1.state = 0xFF)
    (hc : w1.calls = w.calls) (hf : w1.flash = w.flash) : AbortsWithNack cfg fl w :=
  ⟨w1, h, hs, hc, hf, by rw [step_abort cfg fl w1 hwf hs, case_abort_eval]⟩

/-- INIT and its complement, received in Idle, whatever the constants are: the first round
answers INIT, the second one takes the complement as the pending command. -/
theorem run_init_pair (cfg : Config) (fl : FlashIface F) (w : World F) (rest : List Nat)
    (hs : w.state = 0)
    (hin : w.inp = cfg.BOOTLOADER_COMMAND_INIT :: (cfg.BOOTLOADER_COMMAND_INIT ^^^ 0xFF) :: rest) :
    run cfg fl 2 w =
      (Result.ok (),
        { w with inp := rest, command := cfg.BOOTLOADER_COMMAND_INIT ^^^ 0xFF,
                 out := w.out ++ [cfg.BOOTLOADER_RESPONSE_ACK], state := 1 }) := by
  have hne : cfg.BOOTLOADER_COMMAND_INIT ^^^ 0xFF ≠ cfg.BOOTLOADER_COMMAND_INIT := by
    intro h
    have h2 : cfg.BOOTLOADER_COMMAND_INIT ^^^ 0xFF = cfg.BOOTLOADER_COMMAND_INIT ^^^ 0 := by
      rw [h, Nat.xor_zero]
    exact absurd (Nat.xor_right_inj.mp h2) (by decide)
  obtain ⟨state, command, buffer, inp, out, flash, calls, ea, i0, i1, i2⟩ := w
  dsimp only at hs hin
  subst hs hin
  have h1 : step cfg fl
      { state := 0, command := command, buffer := buffer,
        inp := cfg.BOOTLOADER_COMMAND_INIT :: (cfg.BOOTLOADER_COMMAND_INIT ^^^ 0xFF) :: rest,
        out := out, flash := flash, calls := calls, EA := ea, IEN0 := i0, IEN1 := i1,
        IEN2 := i2 }
      = (Result.ok (),
          { state := 0, command := cfg.BOOTLOADER_COMMAND_INIT, buffer := buffer,
            inp := (cfg.BOOTLOADER_COMMAND_INIT ^^^ 0xFF) :: rest,
            out := out ++ [cfg.BOOTLOADER_RESPONSE_ACK], flash := flash, calls := calls,
            EA := ea, IEN0 := i0, IEN1 := i1, IEN2 := i2 }) := by
    rw [step_idle cfg fl _ rfl, case_idle_eval cfg _ _ _ rfl, if_pos rfl]
  rw [run_succ_ok h1]
  have h2 : step cfg fl
      { state := 0, command := cfg.BOOTLOADER_COMMAND_INIT, buffer := buffer,
        inp := (cfg.BOOTLOADER_COMMAND_INIT ^^^ 0xFF) :: rest,
        out := out ++ [cfg.BOOTLOADER_RESPONSE_ACK], flash := flash, calls := calls,
        EA := ea, IEN0 := i0, IEN1 := i1, IEN2 := i2 }
      = (Result.ok (),
          { state := 1, command := cfg.BOOTLOADER_COMMAND_INIT ^^^ 0xFF, buffer := buffer,
            inp := rest, out := out ++ [cfg.BOOTLOADER_RESPONSE_ACK], flash := flash,
            calls := calls, EA := ea, IEN0 := i0, IEN1 := i1, IEN2 := i2 }) := by
    rw [step_idle cfg fl _ rfl, case_idle_eval cfg _ _ rest rfl, if_neg hne]
  rw [run_succ_ok h2, run_zero]

theorem sampleConfig_wf : sampleConfig.WF where
  nodup := by decide
  small := by decide
  init_lt := by decide
  ack_ne := by decide
  pages_lt := by decide
  pages_le := by decide

theorem step_get (cfg : Config) (fl : FlashIface F) (w : World F)
    (h : w.state = 10 + cfg.BOOTLOADER_COMMAND_GET) : step cfg fl w = case_get cfg w := by
  unfold step
  rw [if_neg (state_ne_zero h), if_neg (state_ne_one h), if_pos h]

theorem case_get_eval (cfg : Config) (w : World F) :
    case_get cfg w =
      (Result.ok (),
        { w with out := w.out ++ [7, cfg.BOOTLOADER_VERSION, cfg.BOOTLOADER_COMMAND_GET,
                   cfg.BOOTLOADER_COMMAND_GET_VERSION, cfg.BOOTLOADER_COMMAND_GET_ID,
                   cfg.BOOTLOADER_COMMAND_READ_MEMORY, cfg.BOOTLOADER_COMMAND_GO,
                   cfg.BOOTLOADER_COMMAND_WRITE_MEMORY, cfg.BOOTLOADER_COMMAND_ERASE,
                   cfg.BOOTLOADER_RESPONSE_ACK],
                 state := 0 }) := by
  simp only [case_get]
  rw [bind_ok (uart_putc_eval _ _), bind_ok (uart_putc_eval _ _), bind_ok (uart_putc_eval _ _),
    bind_ok (uart_putc_eval _ _), bind_ok (uart_putc_eval _ _), bind_ok (uart_putc_eval _ _),
    bind_ok (uart_putc_eval _ _), bind_ok (uart_putc_eval _ _), bind_ok (uart_putc_eval _ _),
    bind_ok (uart_putc_eval _ _), set_state_eval]
  simp

/-- An address frame that is rejected: its trailing byte is not the XOR of the four bytes
before it, or the address is above `FLASH_SIZE`. -/
theorem decode_address_rejected (cfg : Config) (w : World F) (b0 b1 hi lo ck : Nat)
    (rest : List Nat) (hhi : hi < 256) (hlo : lo < 256)
    (hrej : ck ≠ b0 ^^^ b1 ^^^ hi ^^^ lo ∨ cfg.FLASH_SIZE < hi * 256 + lo)
    (hin : w.inp = b0 :: b1 :: hi :: lo :: ck :: rest) :
    bootloader_decode_address cfg w =
      (Result.ok (0, hi * 256 + lo), { w with inp := rest }) := by
  rw [decode_address_eval cfg w b0 b1 hi lo ck rest hhi hlo hin, if_neg]
  rintro ⟨h1, h2⟩
  rcases hrej with h | h
  · exact h h1
  · omega

/-- GO with an accepted address frame: ACK, the interrupt enables cleared, the jump. -/
theorem case_go_eval (cfg : Config) (w : World F) (b0 b1 hi lo ck : Nat) (rest : List Nat)
    (hhi : hi < 256) (hlo : lo < 256) (hck : ck = b0 ^^^ b1 ^^^ hi ^^^ lo)
    (haddr : hi * 256 + lo ≤ cfg.FLASH_SIZE)
    (hin : w.inp = b0 :: b1 :: hi :: lo :: ck :: rest) :
    case_go cfg w =
      (Result.jumped (hi * 256 + lo),
        { w with inp := rest, out := w.out ++ [cfg.BOOTLOADER_RESPONSE_ACK],
                 EA := 0, IEN0 := 0, IEN1 := 0, IEN2 := 0 }) := by
  simp only [case_go]
  rw [bind_ok (decode_address_eval cfg _ b0 b1 hi lo ck _ hhi hlo hin)]
  simp only [hck, haddr, and_self, if_true, one_ne_zero, if_false]
  rw [bind_ok (uart_putc_eval _ _)]
  rfl

/-- ERASE with the count byte 0xFF and a confirmation byte that is not 0x00. -/
theorem case_erase_all_reject (cfg : Config) (fl : FlashIface F) (w : World F)
    (confirm : Nat) (rest : List Nat) (hc : confirm ≠ 0x00)
    (hin : w.inp = 0xFF :: confirm :: rest) :
    case_erase cfg fl w = (Result.ok (), { w with inp := rest, state := 0xFF }) := by
  simp only [case_erase]
  rw [bind_ok (uart_getc_cons hin), if_pos rfl, bind_ok (uart_getc_cons rfl), if_neg hc]
  rfl

theorem flash_after_cons (fl : FlashIface F) (f : F) (q : Nat) (ps : List Nat) :
    flash_after fl f (q :: ps) = flash_after fl (fl.flash_erase_page f q).2 ps := rfl

/-- When every call in the row succeeds, `flash_erase_page` is called for every page. -/
theorem erase_pages_of_row (fl : FlashIface F) (pages : List Nat) :
    ∀ f : F,
      (∀ k, k < pages.length →
        (fl.flash_erase_page (flash_after fl f (pages.take k)) (pages.getD k 0)).1 = true) →
      erase_pages fl f pages = (true, flash_after fl f pages, pages) := by
  induction pages with
  | nil => intro f _; rfl
  | cons q ps ih =>
    intro f h
    have h0 : (fl.flash_erase_page f q).1 = true := h 0 (by simp)
    have hs := ih (fl.flash_erase_page f q).2 (fun k hk => by
      have := h (k + 1) (by simpa using hk)
      simpa [flash_after_cons] using this)
    simp only [erase_pages, h0, if_true, hs, flash_after_cons]

theorem bootloader_jump_to_app_eval (cfg : Config) (w : World F) :
    bootloader_jump_to_app cfg w =
      (Result.jumped cfg.BOOTLOADER_SIZE,
        { w with EA := 0, IEN0 := 0, IEN1 := 0, IEN2 := 0 }) := rfl

/-- The command WRITE_MEMORY with a matching checksum, received in Idle, when the driver
reports success: three rounds, three ACKs, one call of `flash_write_data`. -/
theorem run_write_command (cfg : Config) (fl : FlashIface F) (w : World F)
    (b0 b1 hi lo len n : Nat) (payload rest : List Nat) (hwf : cfg.WF) (hs : w.state = 0)
    (hbuf : w.buffer.length = 258) (hhi : hi < 256) (hlo : lo < 256)
    (haddr : hi * 256 + lo ≤ cfg.FLASH_SIZE) (hlen : len < 256)
    (hpl : payload.length = len + 1)
    (hok : (fl.flash_write_data w.flash (hi * 256 + lo - (hi * 256 + lo) % 2)
      (staged_write (hi * 256 + lo) payload)).1 = true)
    (hin : w.inp =
      cfg.BOOTLOADER_COMMAND_WRITE_MEMORY :: (cfg.BOOTLOADER_COMMAND_WRITE_MEMORY ^^^ 0xFF) ::
        b0 :: b1 :: hi :: lo :: (b0 ^^^ b1 ^^^ hi ^^^ lo) :: len ::
          (payload ++ xor_fold len payload :: rest)) :
    run cfg fl (n + 3) w =
      run cfg fl n
        { w with
            state := 0, command := cfg.BOOTLOADER_COMMAND_WRITE_MEMORY,
            buffer := blit w.buffer 0 (staged_write (hi * 256 + lo) payload),
            inp := rest,
            out := w.out ++ [cfg.BOOTLOADER_RESPONSE_ACK, cfg.BOOTLOADER_RESPONSE_ACK,
              cfg.BOOTLOADER_RESPONSE_ACK],
            flash := (fl.flash_write_data w.flash (hi * 256 + lo - (hi * 256 + lo) % 2)
              (staged_write (hi * 256 + lo) payload)).2,
            calls := w.calls ++ [FlashCall.write (hi * 256 + lo - (hi * 256 + lo) % 2)
              (staged_write (hi * 256 + lo) payload)] } := by
  have hW : cfg.BOOTLOADER_COMMAND_WRITE_MEMORY ∈ cfg.commands := by simp [Config.commands]
  show run cfg fl (n + 1 + 2) w = _
  rw [run_confirm cfg fl w _ (n + 1) _ hwf hs hW hin]
  have h3 := case_write_memory_eval cfg fl
    { w with
        inp := b0 :: b1 :: hi :: lo :: (b0 ^^^ b1 ^^^ hi ^^^ lo) :: len ::
          (payload ++ xor_fold len payload :: rest),
        command := cfg.BOOTLOADER_COMMAND_WRITE_MEMORY,
        out := w.out ++ [cfg.BOOTLOADER_RESPONSE_ACK],
        state := 10 + cfg.BOOTLOADER_COMMAND_WRITE_MEMORY }
    b0 b1 hi lo _ len _ payload rest hhi hlo rfl haddr hlen hpl hbuf rfl
  rw [if_pos rfl] at h3
  dsimp only at h3
  simp only [hok, if_true] at h3
  rw [← step_write_memory cfg fl _ hwf rfl] at h3
  rw [run_succ_ok h3]
  simp only [List.append_assoc, List.singleton_append]

/-- The command READ_MEMORY with a matching length pair, received in Idle, when the driver
delivers `len + 1` bytes: three rounds, three ACKs, one call of `flash_read`, and the bytes
delivered are sent, whatever the buffer held before. -/
theorem run_read_command (cfg : Config) (fl : FlashIface F) (w : World F)
    (c0 c1 hi lo len n : Nat) (rest : List Nat) (hwf : cfg.WF) (hs : w.state = 0)
    (hbuf : w.buffer.length = 258) (hhi : hi < 256) (hlo : lo < 256)
    (haddr : hi * 256 + lo ≤ cfg.FLASH_SIZE) (hlen : len < 256)
    (hread : (fl.flash_read w.flash (hi * 256 + lo) (len + 1)).length = len + 1)
    (hin : w.inp =
      cfg.BOOTLOADER_COMMAND_READ_MEMORY :: (cfg.BOOTLOADER_COMMAND_READ_MEMORY ^^^ 0xFF) ::
        c0 :: c1 :: hi :: lo :: (c0 ^^^ c1 ^^^ hi ^^^ lo) :: len :: (len ^^^ 0xFF) :: rest) :
    run cfg fl (n + 3) w =
      run cfg fl n
        { w with
            state := 0, command := cfg.BOOTLOADER_COMMAND_READ_MEMORY,
            buffer := fl.flash_read w.flash (hi * 256 + lo) (len + 1) ++
              w.buffer.drop (len + 1),
            inp := rest,
            out := w.out ++ [cfg.BOOTLOADER_RESPONSE_ACK, cfg.BOOTLOADER_RESPONSE_ACK,
              cfg.BOOTLOADER_RESPONSE_ACK] ++ fl.flash_read w.flash (hi * 256 + lo) (len + 1),
            calls := w.calls ++ [FlashCall.read (hi * 256 + lo) (len + 1)] } := by
  have hR : cfg.BOOTLOADER_COMMAND_READ_MEMORY ∈ cfg.commands := by simp [Config.commands]
  show run cfg fl (n + 1 + 2) w = _
  rw [run_confirm cfg fl w _ (n + 1) _ hwf hs hR hin]
  have h6 := case_read_memory_eval cfg fl
    { w with
        inp := c0 :: c1 :: hi :: lo :: (c0 ^^^ c1 ^^^ hi ^^^ lo) :: len :: (len ^^^ 0xFF) ::
          rest,
        command := cfg.BOOTLOADER_COMMAND_READ_MEMORY,
        out := w.out ++ [cfg.BOOTLOADER_RESPONSE_ACK],
        state := 10 + cfg.BOOTLOADER_COMMAND_READ_MEMORY }
    c0 c1 hi lo _ len (len ^^^ 0xFF) rest hhi hlo rfl haddr hlen
    (Nat.xor_cancel_right 0xFF len).symm hbuf rfl
  dsimp only at h6
  have h1 : List.take (len + 1) (fl.flash_read w.flash (hi * 256 + lo) (len + 1))
      = fl.flash_read w.flash (hi * 256 + lo) (len + 1) :=
    List.take_of_length_le (by omega)
  have h2 : ∀ l : List Nat,
      List.take (len + 1) (fl.flash_read w.flash (hi * 256 + lo) (len + 1) ++ l)
        = fl.flash_read w.flash (hi * 256 + lo) (len + 1) := by
    intro l
    rw [List.take_append_of_le_length (by omega), h1]
  rw [h1, h2, hread] at h6
  rw [← step_read_memory cfg fl _ hwf rfl] at h6
  rw [run_succ_ok h6]
  simp only [List.append_assoc, List.singleton_append, List.cons_append, List.nil_append]

/-- The ideal byte store holds the bytes written, at the address they were written to. -/
theorem ideal_write_at (mem : Nat → Nat) (A i : Nat) (payload pad : List Nat)
    (hi : i < payload.length) :
    (idealFlash.flash_write_data mem A (payload ++ pad)).2 (A + i) = payload.getD i 0 := by
  have h3 : A + i < A + (payload.length + pad.length) := by omega
  simp only [idealFlash, List.length_append, Nat.le_add_right, h3, and_self, if_true,
    Nat.add_sub_cancel_left]
  rw [List.getD_append _ _ _ _ hi]

end Eval

/-! ## Invariants of the command handlers -/

section Invariants

variable {F : Type}

theorem keeps_pure {α : Type} (cfg : Config) (I : World F → Prop) (a : α) (Q : α → Prop)
    (h : Q a) : Keeps cfg I (pure a : Exec F α) Q := by
  intro w hw
  refine ⟨hw, ?_, ?_, ?_⟩
  · intro h1; cases h1
  · intro b h1; cases h1
  · intro v h1
    cases h1
    exact h

theorem keeps_bind {α β : Type} {cfg : Config} {I : World F → Prop} {x : Exec F α}
    {f : α → Exec F β} {Q1 : α → Prop} {Q2 : β → Prop} (h1 : Keeps cfg I x Q1)
    (h2 : ∀ a, Q1 a → Keeps cfg I (f a) Q2) : Keeps cfg I (x >>= f) Q2 := by
  intro w hw
  have hx := h1 w hw
  have e : (x >>= f) w = Exec.seq x f w := rfl
  rw [e]
  unfold Exec.seq
  rcases hxw : x w with ⟨r, w1⟩
  rw [hxw] at hx
  cases r with
  | ok a => exact h2 a (hx.2.2.2 a rfl) w1 hx.1
  | blocked =>
    refine ⟨hx.1, ?_, ?_, ?_⟩
    · intro h; cases h
    · intro a h; cases h
    · intro v h; cases h
  | fault => exact absurd rfl hx.2.1
  | hang =>
    refine ⟨hx.1, ?_, ?_, ?_⟩
    · intro h; cases h
    · intro a h; cases h
    · intro v h; cases h
  | jumped a =>
    refine ⟨hx.1, ?_, ?_, ?_⟩
    · intro h; cases h
    · intro a2 h
      cases h
      exact hx.2.2.1 a rfl
    · intro v h; cases h

theorem keeps_weaken {α : Type} {cfg : Config} {I : World F → Prop} {x : Exec F α}
    {Q1 Q2 : α → Prop} (h1 : Keeps cfg I x Q1) (h2 : ∀ a, Q1 a → Q2 a) : Keeps cfg I x Q2 := by
  intro w hw
  obtain ⟨a1, a2, a3, a4⟩ := h1 w hw
  exact ⟨a1, a2, a3, fun v hv => h2 v (a4 v hv)⟩

/-- A step that returns a value and changes the world in a way that keeps `I`. -/
theorem keeps_of_ok {α : Type} {cfg : Config} {I : World F → Prop} {x : Exec F α}
    {Q : α → Prop} (g : World F → α × World F) (hx : ∀ w, x w = (Result.ok (g w).1, (g w).2))
    (hI : ∀ w, I w → I (g w).2 ∧ Q (g w).1) : Keeps cfg I x Q := by
  intro w hw
  rw [hx w]
  refine ⟨(hI w hw).1, ?_, ?_, ?_⟩
  · intro h; cases h
  · intro a h; cases h
  · intro v h
    cases h
    exact (hI w hw).2

theorem keeps_uart_getc (cfg : Config) (s0 c0 : Nat) :
    Keeps cfg (HandlerInv cfg s0 c0) (uart_getc : Exec F Nat) (fun b => b < 256) := by
  intro w hw
  obtain ⟨⟨hb, hi, hc⟩, hcmd, hst⟩ := hw
  unfold uart_getc
  cases hinp : w.inp with
  | nil =>
    refine ⟨⟨⟨hb, hi, hc⟩, hcmd, hst⟩, ?_, ?_, ?_⟩
    · intro h; cases h
    · intro a h; cases h
    · intro v h; cases h
  | cons b rest =>
    rw [hinp] at hi
    refine ⟨⟨⟨hb, fun x hx => hi x (List.mem_cons_of_mem _ hx), hc⟩, hcmd, hst⟩, ?_, ?_, ?_⟩
    · intro h; cases h
    · intro a h; cases h
    · intro v h
      cases h
      exact hi b (List.mem_cons_self _ _)

theorem keeps_uart_putc (cfg : Config) (s0 c0 b : Nat) :
    Keeps cfg (HandlerInv cfg s0 c0) (uart_putc b : Exec F Unit) (fun _ => True) :=
  keeps_of_ok (fun w => ((), { w with out := w.out ++ [b] })) (fun _ => rfl)
    (fun _ hw => ⟨hw, trivial⟩)

theorem keeps_set_state (cfg : Config) (s0 c0 s : Nat) (hs : s = 0 ∨ s = 0xFF) :
    Keeps cfg (HandlerInv cfg s0 c0) (set_state s : Exec F Unit) (fun _ => True) :=
  keeps_of_ok (fun w => ((), { w with state := s })) (fun _ => rfl)
    (fun _ hw => ⟨⟨hw.1, hw.2.1, Or.inr hs⟩, trivial⟩)

theorem keeps_disable_interrupts (cfg : Config) (s0 c0 : Nat) :
    Keeps cfg (HandlerInv cfg s0 c0) (disable_interrupts : Exec F Unit) (fun _ => True) :=
  keeps_of_ok (fun w => ((), { w with EA := 0, IEN0 := 0, IEN1 := 0, IEN2 := 0 }))
    (fun _ => rfl) (fun _ hw => ⟨hw, trivial⟩)

theorem keeps_store (cfg : Config) (s0 c0 p v : Nat) (hp : p < 258) :
    Keeps cfg (HandlerInv cfg s0 c0) (store p v : Exec F Unit) (fun _ => True) := by
  intro w hw
  obtain ⟨⟨hb, hi, hc⟩, hcmd, hst⟩ := hw
  rw [store_ok v (by omega)]
  refine ⟨⟨⟨by simpa using hb, hi, hc⟩, hcmd, hst⟩, ?_, ?_, ?_⟩
  · intro h; cases h
  · intro a h; cases h
  · intro _ _; trivial

theorem keeps_load (cfg : Config) (s0 c0 p : Nat) (hp : p < 258) :
    Keeps cfg (HandlerInv cfg s0 c0) (load p : Exec F Nat) (fun _ => True) := by
  intro w hw
  rw [load_ok (by rw [hw.1.1]; exact hp)]
  refine ⟨hw, ?_, ?_, ?_⟩
  · intro h; cases h
  · intro a h; cases h
  · intro _ _; trivial

theorem keeps_jump_to (cfg : Config) (s0 c0 a : Nat) (ha : a ≤ cfg.FLASH_SIZE) :
    Keeps cfg (HandlerInv cfg s0 c0) (jump_to a : Exec F Unit) (fun _ => True) := by
  intro w hw
  refine ⟨hw, ?_, ?_, ?_⟩
  · intro h; cases h
  · intro a2 h
    cases h
    exact ha
  · intro v h; cases h

theorem keeps_flash_erase_page (cfg : Config) (fl : FlashIface F) (s0 c0 page : Nat) :
    Keeps cfg (HandlerInv cfg s0 c0) (flash_erase_page fl page) (fun _ => True) := by
  intro w hw
  obtain ⟨⟨hb, hi, hc⟩, hcmd, hst⟩ := hw
  rw [flash_erase_page_eval]
  refine ⟨⟨⟨hb, hi, ?_⟩, hcmd, hst⟩, ?_, ?_, ?_⟩
  · intro c hcm
    rcases List.mem_append.mp hcm with h | h
    · exact hc c h
    · rw [List.mem_singleton.mp h]
      trivial
  · intro h; cases h
  · intro a h; cases h
  · intro _ _; trivial

theorem keeps_flash_read (cfg : Config) (fl : FlashIface F) (s0 c0 address n : Nat)
    (ha : address ≤ cfg.FLASH_SIZE) (hn : n ≤ 256) :
    Keeps cfg (HandlerInv cfg s0 c0) (flash_read fl address n) (fun _ => True) := by
  intro w hw
  obtain ⟨⟨hb, hi, hc⟩, hcmd, hst⟩ := hw
  unfold flash_read
  rw [if_pos (by omega)]
  refine ⟨⟨⟨?_, hi, ?_⟩, hcmd, hst⟩, ?_, ?_, ?_⟩
  · simp only [List.length_append, List.length_take, List.length_drop]
    omega
  · intro c hcm
    rcases List.mem_append.mp hcm with h | h
    · exact hc c h
    · rw [List.mem_singleton.mp h]
      exact ⟨ha, hn⟩
  · intro h; cases h
  · intro a h; cases h
  · intro _ _; trivial

theorem keeps_flash_write_data (cfg : Config) (fl : FlashIface F) (s0 c0 address n : Nat)
    (ha : address ≤ cfg.FLASH_SIZE) (hn : n ≤ 258) :
    Keeps cfg (HandlerInv cfg s0 c0) (flash_write_data fl address n) (fun _ => True) := by
  intro w hw
  obtain ⟨⟨hb, hi, hc⟩, hcmd, hst⟩ := hw
  unfold flash_write_data
  rw [if_pos (by omega)]
  refine ⟨⟨⟨hb, hi, ?_⟩, hcmd, hst⟩, ?_, ?_, ?_⟩
  · intro c hcm
    rcases List.mem_append.mp hcm with h | h
    · exact hc c h
    · rw [List.mem_singleton.mp h]
      refine ⟨ha, ?_⟩
      simp only [List.length_take]
      omega
  · intro h; cases h
  · intro a h; cases h
  · intro _ _; trivial

theorem keeps_decode_address (cfg : Config) (s0 c0 : Nat) :
    Keeps cfg (HandlerInv cfg s0 c0) (bootloader_decode_address cfg : Exec F (Nat × Nat))
      (fun r => r.1 = 0 ∨ (r.2 ≤ cfg.FLASH_SIZE ∧ r.2 < 65536)) := by
  unfold bootloader_decode_address
  refine keeps_bind (keeps_uart_getc cfg s0 c0) (fun b0 _ => ?_)
  refine keeps_bind (keeps_uart_getc cfg s0 c0) (fun b1 _ => ?_)
  refine keeps_bind (keeps_uart_getc cfg s0 c0) (fun hi _ => ?_)
  refine keeps_bind (keeps_uart_getc cfg s0 c0) (fun lo _ => ?_)
  refine keeps_bind (keeps_uart_getc cfg s0 c0) (fun ck _ => ?_)
  split_ifs with h1 h2
  · exact keeps_pure _ _ _ _ (Or.inl rfl)
  · exact keeps_pure _ _ _ _ (Or.inl rfl)
  · exact keeps_pure _ _ _ _ (Or.inr ⟨by omega, Nat.mod_lt _ (by decide)⟩)

theorem keeps_recv_loop (cfg : Config) (s0 c0 : Nat) :
    ∀ n p c : Nat, p + n ≤ 258 →
      Keeps cfg (HandlerInv cfg s0 c0) (recv_loop n p c : Exec F (Nat × Nat))
        (fun r => r.1 = p + n) := by
  intro n
  induction n with
  | zero =>
    intro p c _
    exact keeps_pure _ _ _ _ rfl
  | succ n ih =>
    intro p c hp
    simp only [recv_loop]
    refine keeps_bind (keeps_uart_getc cfg s0 c0) (fun rx _ => ?_)
    refine keeps_bind (keeps_store cfg s0 c0 p rx (by omega)) (fun _ _ => ?_)
    exact keeps_weaken (ih (p + 1) (c ^^^ rx) (by omega)) (fun r hr => by rw [hr]; omega)

theorem keeps_send_loop (cfg : Config) (s0 c0 : Nat) :
    ∀ n p : Nat, p + n ≤ 258 →
      Keeps cfg (HandlerInv cfg s0 c0) (send_loop n p : Exec F Unit) (fun _ => True) := by
  intro n
  induction n with
  | zero =>
    intro p _
    exact keeps_pure _ _ _ _ trivial
  | succ n ih =>
    intro p hp
    simp only [send_loop]
    refine keeps_bind (keeps_load cfg s0 c0 p (by omega)) (fun b _ => ?_)
    refine keeps_bind (keeps_uart_putc cfg s0 c0 b) (fun _ _ => ?_)
    exact ih (p + 1) (by omega)

theorem keeps_erase_loop (cfg : Config) (fl : FlashIface F) (s0 c0 : Nat) :
    ∀ n p : Nat, p + n ≤ 258 →
      Keeps cfg (HandlerInv cfg s0 c0) (erase_loop fl n p) (fun _ => True) := by
  intro n
  induction n with
  | zero =>
    intro p _
    exact keeps_pure _ _ _ _ trivial
  | succ n ih =>
    intro p hp
    simp only [erase_loop]
    refine keeps_bind (keeps_load cfg s0 c0 p (by omega)) (fun page _ => ?_)
    refine keeps_bind (keeps_flash_erase_page cfg fl s0 c0 page) (fun r _ => ?_)
    split_ifs
    · exact ih (p + 1) (by omega)
    · exact keeps_set_state cfg s0 c0 _ (Or.inr rfl)

theorem keeps_mark_loop (cfg : Config) (s0 c0 : Nat) :
    ∀ fuel i len : Nat, len < 256 →
      Keeps cfg (HandlerInv cfg s0 c0) (mark_loop cfg fuel i len : Exec F Nat)
        (fun r => r < 256) := by
  intro fuel
  induction fuel with
  | zero =>
    intro i len _ w hw
    refine ⟨hw, ?_, ?_, ?_⟩
    · intro h; cases h
    · intro a h; cases h
    · intro v h; cases h
  | succ fuel ih =>
    intro i len hl
    simp only [mark_loop]
    split_ifs
    · refine keeps_bind (keeps_store cfg s0 c0 len i (by omega)) (fun _ _ => ?_)
      exact ih _ _ (Nat.mod_lt _ (by decide))
    · exact keeps_pure _ _ _ _ hl

theorem keeps_case_abort (cfg : Config) (s0 c0 : Nat) :
    Keeps cfg (HandlerInv cfg s0 c0) (case_abort cfg : Exec F Unit) (fun _ => True) := by
  unfold case_abort
  refine keeps_bind (keeps_uart_putc cfg s0 c0 _) (fun _ _ => ?_)
  exact keeps_set_state cfg s0 c0 _ (Or.inl rfl)

theorem keeps_case_get (cfg : Config) (s0 c0 : Nat) :
    Keeps cfg (HandlerInv cfg s0 c0) (case_get cfg : Exec F Unit) (fun _ => True) := by
  unfold case_get
  refine keeps_bind (keeps_uart_putc cfg s0 c0 _) (fun _ _ => ?_)
  refine keeps_bind (keeps_uart_putc cfg s0 c0 _) (fun _ _ => ?_)
  refine keeps_bind (keeps_uart_putc cfg s0 c0 _) (fun _ _ => ?_)
  refine keeps_bind (keeps_uart_putc cfg s0 c0 _) (fun _ _ => ?_)
  refine keeps_bind (keeps_uart_putc cfg s0 c0 _) (fun _ _ => ?_)
  refine keeps_bind (keeps_uart_putc cfg s0 c0 _) (fun _ _ => ?_)
  refine keeps_bind (keeps_uart_putc cfg s0 c0 _) (fun _ _ => ?_)
  refine keeps_bind (keeps_uart_putc cfg s0 c0 _) (fun _ _ => ?_)
  refine keeps_bind (keeps_uart_putc cfg s0 c0 _) (fun _ _ => ?_)
  refine keeps_bind (keeps_uart_putc cfg s0 c0 _) (fun _ _ => ?_)
  exact keeps_set_state cfg s0 c0 _ (Or.inl rfl)

theorem keeps_case_get_id (cfg : Config) (s0 c0 : Nat) :
    Keeps cfg (HandlerInv cfg s0 c0) (case_get_id cfg : Exec F Unit) (fun _ => True) := by
  unfold case_get_id
  refine keeps_bind (keeps_uart_putc cfg s0 c0 _) (fun _ _ => ?_)
  refine keeps_bind (keeps_uart_putc cfg s0 c0 _) (fun _ _ => ?_)
  refine keeps_bind (keeps_uart_putc cfg s0 c0 _) (fun _ _ => ?_)
  refine keeps_bind (keeps_uart_putc cfg s0 c0 _) (fun _ _ => ?_)
  exact keeps_set_state cfg s0 c0 _ (Or.inl rfl)

theorem keeps_case_get_version (cfg : Config) (s0 c0 : Nat) :
    Keeps cfg (HandlerInv cfg s0 c0) (case_get_version cfg : Exec F Unit) (fun _ => True) := by
  unfold case_get_version
  refine keeps_bind (keeps_uart_putc cfg s0 c0 _) (fun _ _ => ?_)
  refine keeps_bind (keeps_uart_putc cfg s0 c0 _) (fun _ _ => ?_)
  refine keeps_bind (keeps_uart_putc cfg s0 c0 _) (fun _ _ => ?_)
  refine keeps_bind (keeps_uart_putc cfg s0 c0 _) (fun _ _ => ?_)
  exact keeps_set_state cfg s0 c0 _ (Or.inl rfl)

theorem keeps_case_go (cfg : Config) (s0 c0 : Nat) :
    Keeps cfg (HandlerInv cfg s0 c0) (case_go cfg : Exec F Unit) (fun _ => True) := by
  unfold case_go
  refine keeps_bind (keeps_decode_address cfg s0 c0) (fun r hr => ?_)
  obtain ⟨valid, address⟩ := r
  dsimp only at hr ⊢
  split_ifs with hv
  · exact keeps_set_state cfg s0 c0 _ (Or.inr rfl)
  · have ha : address ≤ cfg.FLASH_SIZE := (hr.resolve_left hv).1
    refine keeps_bind (keeps_uart_putc cfg s0 c0 _) (fun _ _ => ?_)
    refine keeps_bind (keeps_disable_interrupts cfg s0 c0) (fun _ _ => ?_)
    refine keeps_bind (keeps_jump_to cfg s0 c0 address ha) (fun _ _ => ?_)
    exact keeps_set_state cfg s0 c0 _ (Or.inl rfl)

theorem keeps_case_read_memory (cfg : Config) (fl : FlashIface F) (s0 c0 : Nat) :
    Keeps cfg (HandlerInv cfg s0 c0) (case_read_memory cfg fl) (fun _ => True) := by
  unfold case_read_memory
  refine keeps_bind (keeps_decode_address cfg s0 c0) (fun r hr => ?_)
  obtain ⟨valid, address⟩ := r
  dsimp only at hr ⊢
  split_ifs with hv
  · exact keeps_set_state cfg s0 c0 _ (Or.inr rfl)
  · have ha : address ≤ cfg.FLASH_SIZE := (hr.resolve_left hv).1
    refine keeps_bind (keeps_uart_putc cfg s0 c0 _) (fun _ _ => ?_)
    refine keeps_bind (keeps_uart_getc cfg s0 c0) (fun len hlen => ?_)
    refine keeps_bind (keeps_uart_getc cfg s0 c0) (fun checksum _ => ?_)
    split_ifs
    · exact keeps_set_state cfg s0 c0 _ (Or.inr rfl)
    · refine keeps_bind (keeps_uart_putc cfg s0 c0 _) (fun _ _ => ?_)
      refine keeps_bind (keeps_flash_read cfg fl s0 c0 address _ ha (by omega)) (fun _ _ => ?_)
      refine keeps_bind (keeps_load cfg s0 c0 0 (by omega)) (fun b _ => ?_)
      refine keeps_bind (keeps_uart_putc cfg s0 c0 _) (fun _ _ => ?_)
      refine keeps_bind (keeps_send_loop cfg s0 c0 len (0 + 1) (by omega)) (fun _ _ => ?_)
      exact keeps_set_state cfg s0 c0 _ (Or.inl rfl)

theorem keeps_erase_commit (cfg : Config) (fl : FlashIface F) (s0 c0 len : Nat)
    (hlen : len < 256) :
    Keeps cfg (HandlerInv cfg s0 c0) (erase_commit cfg fl len) (fun _ => True) := by
  unfold erase_commit
  refine keeps_bind (keeps_load cfg s0 c0 0 (by omega)) (fun page _ => ?_)
  refine keeps_bind (keeps_flash_erase_page cfg fl s0 c0 page) (fun r _ => ?_)
  split_ifs
  · refine keeps_bind (keeps_erase_loop cfg fl s0 c0 len (0 + 1) (by omega)) (fun _ _ => ?_)
    refine keeps_bind (keeps_uart_putc cfg s0 c0 _) (fun _ _ => ?_)
    exact keeps_set_state cfg s0 c0 _ (Or.inl rfl)
  · exact keeps_set_state cfg s0 c0 _ (Or.inr rfl)

theorem keeps_case_erase (cfg : Config) (fl : FlashIface F) (s0 c0 : Nat) :
    Keeps cfg (HandlerInv cfg s0 c0) (case_erase cfg fl) (fun _ => True) := by
  unfold case_erase
  refine keeps_bind (keeps_uart_getc cfg s0 c0) (fun len hlen => ?_)
  split_ifs
  · refine keeps_bind (keeps_uart_getc cfg s0 c0) (fun confirm _ => ?_)
    split_ifs
    · refine keeps_bind (keeps_mark_loop cfg s0 c0 257 _ 0 (by omega)) (fun len2 hlen2 => ?_)
      exact keeps_erase_commit cfg fl s0 c0 len2 hlen2
    · exact keeps_set_state cfg s0 c0 _ (Or.inr rfl)
  · refine keeps_bind (keeps_uart_getc cfg s0 c0) (fun rx _ => ?_)
    refine keeps_bind (keeps_store cfg s0 c0 0 rx (by omega)) (fun _ _ => ?_)
    refine keeps_bind (keeps_recv_loop cfg s0 c0 len (0 + 1) _ (by omega)) (fun r _ => ?_)
    obtain ⟨dp, checksum⟩ := r
    dsimp only
    refine keeps_bind (keeps_uart_getc cfg s0 c0) (fun rx2 _ => ?_)
    split_ifs
    · exact keeps_set_state cfg s0 c0 _ (Or.inr rfl)
    · exact keeps_erase_commit cfg fl s0 c0 len hlen

theorem keeps_case_write_memory (cfg : Config) (fl : FlashIface F) (s0 c0 : Nat) :
    Keeps cfg (HandlerInv cfg s0 c0) (case_write_memory cfg fl) (fun _ => True) := by
  unfold case_write_memory
  refine keeps_bind (keeps_decode_address cfg s0 c0) (fun r hr => ?_)
  obtain ⟨valid, address⟩ := r
  dsimp only at hr ⊢
  by_cases hv : valid = 0
  · rw [if_pos hv]
    exact keeps_set_state cfg s0 c0 _ (Or.inr rfl)
  · rw [if_neg hv]
    obtain ⟨ha, ha2⟩ := hr.resolve_left hv
    refine keeps_bind (keeps_uart_putc cfg s0 c0 _) (fun _ _ => ?_)
    refine keeps_bind (keeps_uart_getc cfg s0 c0) (fun len hlen => ?_)
    have hfix : Keeps cfg (HandlerInv cfg s0 c0)
        (if address &&& 1 ≠ 0 then do
            store 0 0xFF
            pure ((address + 65535) % 65536, 0 + 1, ((len + 1) % 65536 + 1) % 65536)
          else
            pure (address, 0, (len + 1) % 65536) : Exec F (Nat × Nat × Nat))
        (fun t => t.1 ≤ cfg.FLASH_SIZE ∧ t.2.1 ≤ 1 ∧ t.2.2 = len + 1 + t.2.1) := by
      by_cases hodd : address &&& 1 ≠ 0
      · rw [if_pos hodd]
        refine keeps_bind (keeps_store cfg s0 c0 0 0xFF (by omega)) (fun _ _ => ?_)
        rw [Nat.and_one_is_mod] at hodd
        refine keeps_pure _ _ _ _ ⟨?_, ?_, ?_⟩
        · show (address + 65535) % 65536 ≤ cfg.FLASH_SIZE
          omega
        · show 0 + 1 ≤ 1
          omega
        · show ((len + 1) % 65536 + 1) % 65536 = len + 1 + (0 + 1)
          omega
      · rw [if_neg hodd]
        refine keeps_pure _ _ _ _ ⟨ha, ?_, ?_⟩
        · show 0 ≤ 1
          omega
        · show (len + 1) % 65536 = len + 1 + 0
          omega
    refine keeps_bind hfix (fun t ht => ?_)
    obtain ⟨address2, data_ptr, len16⟩ := t
    dsimp only at ht ⊢
    obtain ⟨ha3, hdp, hl16⟩ := ht
    refine keeps_bind (keeps_uart_getc cfg s0 c0) (fun rx _ => ?_)
    refine keeps_bind (keeps_store cfg s0 c0 data_ptr rx (by omega)) (fun _ _ => ?_)
    refine keeps_bind (keeps_recv_loop cfg s0 c0 len (data_ptr + 1) _ (by omega))
      (fun r hr2 => ?_)
    obtain ⟨data_ptr2, checksum⟩ := r
    dsimp only at hr2 ⊢
    refine keeps_bind (keeps_uart_getc cfg s0 c0) (fun rx2 _ => ?_)
    by_cases hck : checksum ≠ rx2
    · rw [if_pos hck]
      exact keeps_set_state cfg s0 c0 _ (Or.inr rfl)
    · rw [if_neg hck]
      have hpad : Keeps cfg (HandlerInv cfg s0 c0)
          (if len16 &&& 1 ≠ 0 then do
              store data_ptr2 0xFF
              pure ((len16 + 1) % 65536)
            else
              pure len16 : Exec F Nat)
          (fun n => n ≤ 258) := by
        by_cases hodd : len16 &&& 1 ≠ 0
        · rw [if_pos hodd]
          refine keeps_bind (keeps_store cfg s0 c0 data_ptr2 0xFF (by omega)) (fun _ _ => ?_)
          rw [Nat.and_one_is_mod] at hodd
          refine keeps_pure _ _ _ _ ?_
          show (len16 + 1) % 65536 ≤ 258
          omega
        · rw [if_neg hodd]
          refine keeps_pure _ _ _ _ ?_
          show len16 ≤ 258
          omega
      refine keeps_bind hpad (fun len16b hlen16b => ?_)
      refine keeps_bind (keeps_flash_write_data cfg fl s0 c0 address2 len16b ha3 hlen16b)
        (fun r _ => ?_)
      split_ifs
      · refine keeps_bind (keeps_uart_putc cfg s0 c0 _) (fun _ _ => ?_)
        exact keeps_set_state cfg s0 c0 _ (Or.inl rfl)
      · exact keeps_set_state cfg s0 c0 _ (Or.inr rfl)

theorem case_idle_blocked (cfg : Config) (w : World F) (hin : w.inp = []) :
    case_idle cfg w = (Result.blocked, w) := by
  simp only [case_idle, bind_apply, Exec.seq, uart_getc, hin]

theorem case_checksum_blocked (cfg : Config) (w : World F) (hin : w.inp = []) :
    case_checksum cfg w = (Result.blocked, w) := by
  simp only [case_checksum, bind_apply, Exec.seq, uart_getc, hin]

/-- The two rounds that read the command keep the facts of `Base` and end without a fault
and without a jump. -/
theorem case_idle_base (cfg : Config) (w : World F) (hb : Base cfg w) :
    Base cfg (case_idle cfg w).2 ∧ (case_idle cfg w).1 ≠ Result.fault ∧
      ∀ a, (case_idle cfg w).1 ≠ Result.jumped a := by
  obtain ⟨h1, h2, h3⟩ := hb
  cases hin : w.inp with
  | nil =>
    rw [case_idle_blocked cfg w hin]
    exact ⟨⟨h1, h2, h3⟩, (by intro h; cases h), (by intro a h; cases h)⟩
  | cons c rest =>
    rw [hin] at h2
    have h4 : ∀ b ∈ rest, b < 256 := fun b hb => h2 b (List.mem_cons_of_mem _ hb)
    rw [case_idle_eval cfg w c rest hin]
    split_ifs
    · exact ⟨⟨h1, h4, h3⟩, (by intro h; cases h), (by intro a h; cases h)⟩
    · exact ⟨⟨h1, h4, h3⟩, (by intro h; cases h), (by intro a h; cases h)⟩

theorem case_checksum_base (cfg : Config) (w : World F) (hb : Base cfg w) :
    Base cfg (case_checksum cfg w).2 ∧ (case_checksum cfg w).1 ≠ Result.fault ∧
      ∀ a, (case_checksum cfg w).1 ≠ Result.jumped a := by
  obtain ⟨h1, h2, h3⟩ := hb
  cases hin : w.inp with
  | nil =>
    rw [case_checksum_blocked cfg w hin]
    exact ⟨⟨h1, h2, h3⟩, (by intro h; cases h), (by intro a h; cases h)⟩
  | cons c rest =>
    rw [hin] at h2
    have h4 : ∀ b ∈ rest, b < 256 := fun b hb => h2 b (List.mem_cons_of_mem _ hb)
    rw [case_checksum_eval cfg w c rest hin]
    split_ifs
    · exact ⟨⟨h1, h4, h3⟩, (by intro h; cases h), (by intro a h; cases h)⟩
    · exact ⟨⟨h1, h4, h3⟩, (by intro h; cases h), (by intro a h; cases h)⟩
    · exact ⟨⟨h1, h4, h3⟩, (by intro h; cases h), (by intro a h; cases h)⟩
    · exact ⟨⟨h1, h4, h3⟩, (by intro h; cases h), (by intro a h; cases h)⟩

/-- Fetching the command byte in state 0 leads to state 0 or to state 1 with a pending
command that is not INIT. -/
theorem case_idle_state (cfg : Config) (w : World F) (hs : w.state = 0) :
    StateInv cfg (case_idle cfg w).2 := by
  cases hin : w.inp with
  | nil =>
    rw [case_idle_blocked cfg w hin]
    exact Or.inl hs
  | cons c rest =>
    rw [case_idle_eval cfg w c rest hin]
    split_ifs with h
    · exact Or.inl hs
    · exact Or.inr (Or.inl ⟨rfl, h⟩)

/-- Checking the inverted command byte in state 1 with a pending command that is not INIT. -/
theorem case_checksum_state (cfg : Config) (w : World F) (hwf : cfg.WF) (hs : w.state = 1)
    (hc : w.command ≠ cfg.BOOTLOADER_COMMAND_INIT) : StateInv cfg (case_checksum cfg w).2 := by
  cases hin : w.inp with
  | nil =>
    rw [case_checksum_blocked cfg w hin]
    exact Or.inr (Or.inl ⟨hs, hc⟩)
  | cons rx rest =>
    rw [case_checksum_eval cfg w rx rest hin]
    split_ifs with h1 h2 h3
    · have hlt := hwf.small _ h2
      refine Or.inr (Or.inr (Or.inr ⟨w.command, h2, ?_⟩))
      show (10 + w.command) % 256 = 10 + w.command
      omega
    · exact Or.inr (Or.inr (Or.inl rfl))
    · exact Or.inl rfl
    · exact Or.inr (Or.inl ⟨hs, h3⟩)

/-- A handler that keeps `command` and leaves `state` as it was, 0 or 0xFF keeps the states of
the dispatcher. -/
theorem stateInv_of_handler (cfg : Config) (w w1 : World F) (hi : StateInv cfg w)
    (hne : w.state ≠ 1) (h : HandlerInv cfg w.state w.command w1) : StateInv cfg w1 := by
  obtain ⟨_, hc, hs | hs | hs⟩ := h
  · rcases hi with h0 | h1 | hf | ⟨c, hc1, hc2⟩
    · exact Or.inl (hs.trans h0)
    · exact absurd h1.1 hne
    · exact Or.inr (Or.inr (Or.inl (hs.trans hf)))
    · exact Or.inr (Or.inr (Or.inr ⟨c, hc1, hs.trans hc2⟩))
  · exact Or.inl hs
  · exact Or.inr (Or.inr (Or.inl hs))

/-- The `switch (state)`: which `case` a round of the loop runs. -/
theorem step_cases (cfg : Config) (fl : FlashIface F) (w : World F) :
    (w.state = 0 ∧ step cfg fl w = case_idle cfg w) ∨
    (w.state = 1 ∧ step cfg fl w = case_checksum cfg w) ∨
    (w.state ≠ 1 ∧
      (step cfg fl w = case_get cfg w ∨ step cfg fl w = case_get_id cfg w ∨
       step cfg fl w = case_get_version cfg w ∨ step cfg fl w = case_read_memory cfg fl w ∨
       step cfg fl w = case_go cfg w ∨ step cfg fl w = case_write_memory cfg fl w ∨
       step cfg fl w = case_erase cfg fl w ∨ step cfg fl w = case_abort cfg w)) ∨
    (w.state ≠ 0 ∧ w.state ≠ 1 ∧ w.state ≠ 0xFF ∧ (∀ c ∈ cfg.commands, w.state ≠ 10 + c) ∧
      step cfg fl w = case_idle cfg w) := by
  by_cases h0 : w.state = 0
  · exact Or.inl ⟨h0, by unfold step; rw [if_pos h0]⟩
  by_cases h1 : w.state = 1
  · exact Or.inr (Or.inl ⟨h1, by unfold step; rw [if_neg h0, if_pos h1]⟩)
  by_cases h2 : w.state = 10 + cfg.BOOTLOADER_COMMAND_GET
  · exact Or.inr (Or.inr (Or.inl ⟨h1, Or.inl
      (by unfold step; rw [if_neg h0, if_neg h1, if_pos h2])⟩))
  by_cases h3 : w.state = 10 + cfg.BOOTLOADER_COMMAND_GET_ID
  · exact Or.inr (Or.inr (Or.inl ⟨h1, Or.inr (Or.inl
      (by unfold step; rw [if_neg h0, if_neg h1, if_neg h2, if_pos h3]))⟩))
  by_cases h4 : w.state = 10 + cfg.BOOTLOADER_COMMAND_GET_VERSION
  · exact Or.inr (Or.inr (Or.inl ⟨h1, Or.inr (Or.inr (Or.inl
      (by unfold step; rw [if_neg h0, if_neg h1, if_neg h2, if_neg h3, if_pos h4])))⟩))
  by_cases h5 : w.state = 10 + cfg.BOOTLOADER_COMMAND_READ_MEMORY
  · exact Or.inr (Or.inr (Or.inl ⟨h1, Or.inr (Or.inr (Or.inr (Or.inl
      (by unfold step
          rw [if_neg h0, if_neg h1, if_neg h2, if_neg h3, if_neg h4, if_pos h5]))))⟩))
  by_cases h6 : w.state = 10 + cfg.BOOTLOADER_COMMAND_GO
  · exact Or.inr (Or.inr (Or.inl ⟨h1, Or.inr (Or.inr (Or.inr (Or.inr (Or.inl
      (by unfold step
          rw [if_neg h0, if_neg h1, if_neg h2, if_neg h3, if_neg h4, if_neg h5,
            if_pos h6])))))⟩))
  by_cases h7 : w.state = 10 + cfg.BOOTLOADER_COMMAND_WRITE_MEMORY
  · exact Or.inr (Or.inr (Or.inl ⟨h1, Or.inr (Or.inr (Or.inr (Or.inr (Or.inr (Or.inl
      (by unfold step
          rw [if_neg h0, if_neg h1, if_neg h2, if_neg h3, if_neg h4, if_neg h5, if_neg h6,
            if_pos h7]))))))⟩))
  by_cases h8 : w.state = 10 + cfg.BOOTLOADER_COMMAND_ERASE
  · exact Or.inr (Or.inr (Or.inl ⟨h1, Or.inr (Or.inr (Or.inr (Or.inr (Or.inr (Or.inr (Or.inl
      (by unfold step
          rw [if_neg h0, if_neg h1, if_neg h2, if_neg h3, if_neg h4, if_neg h5, if_neg h6,
            if_neg h7, if_pos h8])))))))⟩))
  by_cases h9 : w.state = 0xFF
  · exact Or.inr (Or.inr (Or.inl ⟨h1, Or.inr (Or.inr (Or.inr (Or.inr (Or.inr (Or.inr (Or.inr
      (by unfold step
          rw [if_neg h0, if_neg h1, if_neg h2, if_neg h3, if_neg h4, if_neg h5, if_neg h6,
            if_neg h7, if_neg h8, if_pos h9])))))))⟩))
  refine Or.inr (Or.inr (Or.inr ⟨h0, h1, h9, ?_, ?_⟩))
  · intro c hc
    simp only [Config.commands, List.mem_cons, List.mem_singleton, List.mem_nil_iff,
      or_false] at hc
    rcases hc with rfl | rfl | rfl | rfl | rfl | rfl | rfl <;> assumption
  · unfold step
    rw [if_neg h0, if_neg h1, if_neg h2, if_neg h3, if_neg h4, if_neg h5, if_neg h6,
      if_neg h7, if_neg h8, if_neg h9]

/-- One round of the loop keeps the facts of `Base`, does not end in a fault and jumps only
to an address up to `FLASH_SIZE`. -/
theorem step_base (cfg : Config) (fl : FlashIface F) (w : World F) (hb : Base cfg w) :
    Base cfg (step cfg fl w).2 ∧ (step cfg fl w).1 ≠ Result.fault ∧
      ∀ a, (step cfg fl w).1 = Result.jumped a → a ≤ cfg.FLASH_SIZE := by
  have hI : HandlerInv cfg w.state w.command w := ⟨hb, rfl, Or.inl rfl⟩
  have hidle : Base cfg (case_idle cfg w).2 ∧ (case_idle cfg w).1 ≠ Result.fault ∧
      ∀ a, (case_idle cfg w).1 = Result.jumped a → a ≤ cfg.FLASH_SIZE :=
    ⟨(case_idle_base cfg w hb).1, (case_idle_base cfg w hb).2.1,
      fun a h => absurd h ((case_idle_base cfg w hb).2.2 a)⟩
  have hk : ∀ x : Exec F Unit, Keeps cfg (HandlerInv cfg w.state w.command) x (fun _ => True) →
      Base cfg (x w).2 ∧ (x w).1 ≠ Result.fault ∧
        ∀ a, (x w).1 = Result.jumped a → a ≤ cfg.FLASH_SIZE :=
    fun x hx => ⟨(hx w hI).1.1, (hx w hI).2.1, (hx w hI).2.2.1⟩
  rcases step_cases cfg fl w with ⟨_, h⟩ | ⟨_, h⟩ | ⟨_, h | h | h | h | h | h | h | h⟩ |
    ⟨_, _, _, _, h⟩
  · rw [h]; exact hidle
  · rw [h]
    exact ⟨(case_checksum_base cfg w hb).1, (case_checksum_base cfg w hb).2.1,
      fun a h => absurd h ((case_checksum_base cfg w hb).2.2 a)⟩
  · rw [h]; exact hk _ (keeps_case_get cfg _ _)
  · rw [h]; exact hk _ (keeps_case_get_id cfg _ _)
  · rw [h]; exact hk _ (keeps_case_get_version cfg _ _)
  · rw [h]; exact hk _ (keeps_case_read_memory cfg fl _ _)
  · rw [h]; exact hk _ (keeps_case_go cfg _ _)
  · rw [h]; exact hk _ (keeps_case_write_memory cfg fl _ _)
  · rw [h]; exact hk _ (keeps_case_erase cfg fl _ _)
  · rw [h]; exact hk _ (keeps_case_abort cfg _ _)
  · rw [h]; exact hidle

/-- One round of the loop keeps the states of the dispatcher. -/
theorem step_state (cfg : Config) (fl : FlashIface F) (w : World F) (hwf : cfg.WF)
    (hb : Base cfg w) (hi : StateInv cfg w) : StateInv cfg (step cfg fl w).2 := by
  have hI : HandlerInv cfg w.state w.command w := ⟨hb, rfl, Or.inl rfl⟩
  have hk : ∀ x : Exec F Unit, w.state ≠ 1 →
      Keeps cfg (HandlerInv cfg w.state w.command) x (fun _ => True) →
      StateInv cfg (x w).2 :=
    fun x h1 hx => stateInv_of_handler cfg w _ hi h1 (hx w hI).1
  rcases step_cases cfg fl w with ⟨h0, h⟩ | ⟨h1, h⟩ | ⟨h1, h | h | h | h | h | h | h | h⟩ |
    ⟨h0, h1, hf, hc, h⟩
  · rw [h]; exact case_idle_state cfg w h0
  · rw [h]
    rcases hi with hi | hi | hi | ⟨c, _, hc⟩
    · omega
    · exact case_checksum_state cfg w hwf h1 hi.2
    · omega
    · omega
  · rw [h]; exact hk _ h1 (keeps_case_get cfg _ _)
  · rw [h]; exact hk _ h1 (keeps_case_get_id cfg _ _)
  · rw [h]; exact hk _ h1 (keeps_case_get_version cfg _ _)
  · rw [h]; exact hk _ h1 (keeps_case_read_memory cfg fl _ _)
  · rw [h]; exact hk _ h1 (keeps_case_go cfg _ _)
  · rw [h]; exact hk _ h1 (keeps_case_write_memory cfg fl _ _)
  · rw [h]; exact hk _ h1 (keeps_case_erase cfg fl _ _)
  · rw [h]; exact hk _ h1 (keeps_case_abort cfg _ _)
  · rcases hi with hi | hi | hi | ⟨c, hc1, hc2⟩
    · exact absurd hi h0
    · exact absurd hi.1 h1
    · exact absurd hi hf
    · exact absurd hc2 (hc c hc1)

theorem run_succ (cfg : Config) (fl : FlashIface F) (n : Nat) (w : World F) :
    run cfg fl (n + 1) w = Exec.seq (step cfg fl) (fun _ => run cfg fl n) w := rfl

/-- Every number of rounds keeps the facts of `Base`, does not end in a fault and jumps only
to an address up to `FLASH_SIZE`. -/
theorem run_base (cfg : Config) (fl : FlashIface F) :
    ∀ (n : Nat) (w : World F), Base cfg w →
      Base cfg (run cfg fl n w).2 ∧ (run cfg fl n w).1 ≠ Result.fault ∧
        ∀ a, (run cfg fl n w).1 = Result.jumped a → a ≤ cfg.FLASH_SIZE := by
  intro n
  induction n with
  | zero =>
    intro w hb
    exact ⟨hb, (by intro h; cases h), (by intro a h; cases h)⟩
  | succ n ih =>
    intro w hb
    have hs := step_base cfg fl w hb
    rw [run_succ]
    unfold Exec.seq
    rcases hsw : step cfg fl w with ⟨r, w1⟩
    rw [hsw] at hs
    cases r with
    | ok a => exact ih w1 hs.1
    | blocked => exact ⟨hs.1, (by intro h; cases h), (by intro a h; cases h)⟩
    | fault => exact absurd rfl hs.2.1
    | hang => exact ⟨hs.1, (by intro h; cases h), (by intro a h; cases h)⟩
    | jumped a =>
      refine ⟨hs.1, (by intro h; cases h), ?_⟩
      intro a2 h
      cases h
      exact hs.2.2 a rfl

/-- Every number of rounds keeps the states of the dispatcher. -/
theorem run_state (cfg : Config) (fl : FlashIface F) (hwf : cfg.WF) :
    ∀ (n : Nat) (w : World F), Base cfg w → StateInv cfg w →
      StateInv cfg (run cfg fl n w).2 := by
  intro n
  induction n with
  | zero =>
    intro w _ hi
    exact hi
  | succ n ih =>
    intro w hb hi
    have hs := step_base cfg fl w hb
    have ht := step_state cfg fl w hwf hb hi
    rw [run_succ]
    unfold Exec.seq
    rcases hsw : step cfg fl w with ⟨r, w1⟩
    rw [hsw] at hs ht
    cases r with
    | ok a => exact ih w1 hs.1 ht
    | blocked => exact ht
    | fault => exact ht
    | hang => exact ht
    | jumped a => exact ht

theorem base_of_start (cfg : Config) (w : World F) (hbuf : w.buffer.length = 258)
    (hinp : ∀ b ∈ w.inp, b < 256) (hcalls : w.calls = []) : Base cfg w :=
  ⟨hbuf, hinp, by rw [hcalls]; intro c hc; cases hc⟩

end Invariants

/-! ## C1: the address frame -/

/-- C1: with five bytes `b0 b1 a_hi a_lo ck` on the line, `bootloader_decode_address` returns,
consumes exactly these five bytes whatever it returns, returns 1 exactly when
`ck = b0 ^ b1 ^ a_hi ^ a_lo` and `a_hi * 256 + a_lo <= FLASH_SIZE` (and 0 otherwise), and the
address it decodes is `a_hi * 256 + a_lo`, where `b0` and `b1` play no part. -/
theorem decode_address_contract {F : Type} (cfg : Config) (w : World F)
    (b0 b1 a_hi a_lo ck : Nat) (rest : List Nat) (hhi : a_hi < 256) (hlo : a_lo < 256)
    (hin : w.inp = b0 :: b1 :: a_hi :: a_lo :: ck :: rest) :
    ∃ r : Nat,
      bootloader_decode_address cfg w =
        (Result.ok (r, a_hi * 256 + a_lo), { w with inp := rest }) ∧
      (r = 1 ↔ ck = b0 ^^^ b1 ^^^ a_hi ^^^ a_lo ∧ a_hi * 256 + a_lo ≤ cfg.FLASH_SIZE) ∧
      (r = 1 ∨ r = 0) := by
  refine ⟨_, decode_address_eval cfg w b0 b1 a_hi a_lo ck rest hhi hlo hin, ?_, ?_⟩
  · split_ifs with h
    · simp [h]
    · simp [h]
  · split_ifs <;> simp

/-- A run of C1: an accepted frame for address 0x1234 in front of two more bytes. -/
theorem decode_address_contract_witness :
    ∃ r : Nat,
      bootloader_decode_address sampleConfig
          (World.start [] [0x08, 0x00, 0x12, 0x34, 0x2E, 7, 9] ()) =
        (Result.ok (r, 0x12 * 256 + 0x34),
          { World.start [] [0x08, 0x00, 0x12, 0x34, 0x2E, 7, 9] () with inp := [7, 9] }) ∧
      (r = 1 ↔ 0x2E = 0x08 ^^^ 0x00 ^^^ 0x12 ^^^ 0x34 ∧
        0x12 * 256 + 0x34 ≤ sampleConfig.FLASH_SIZE) ∧
      (r = 1 ∨ r = 0) :=
  decode_address_contract sampleConfig (World.start [] [0x08, 0x00, 0x12, 0x34, 0x2E, 7, 9] ())
    0x08 0x00 0x12 0x34 0x2E [7, 9] (by decide) (by decide) rfl

/-! ## C2 and C3: the commit of ERASE -/

/-- C2, what the code does: in state `10 + ERASE`, an explicit page list `q :: ps` with a
matching checksum whose first page `q` is erased successfully always ends with one ACK and in
state 0 (Idle), also when `flash_erase_page` fails for a later page: the calls stop at the
first failure (`erase_pages`), but the `break` only leaves the `while` loop.  The claim asks
for the abort state and NACK after such a failure. -/
theorem erase_later_failure_acks {F : Type} (cfg : Config) (fl : FlashIface F) (w : World F)
    (len ck q : Nat) (ps rest : List Nat) (hwf : cfg.WF)
    (hs : w.state = 10 + cfg.BOOTLOADER_COMMAND_ERASE) (hne : len ≠ 0xFF) (hlen : len < 256)
    (hpl : (q :: ps).length = len + 1) (hbuf : w.buffer.length = 258)
    (hin : w.inp = len :: (q :: ps ++ ck :: rest)) (hck : ck = xor_fold len (q :: ps))
    (hfirst : (fl.flash_erase_page w.flash q).1 = true) :
    step cfg fl w =
      (Result.ok (),
        { w with inp := rest, buffer := blit w.buffer 0 (q :: ps),
                 flash := (erase_pages fl w.flash (q :: ps)).2.1,
                 calls := w.calls ++ (erase_pages fl w.flash (q :: ps)).2.2.map FlashCall.erase,
                 out := w.out ++ [cfg.BOOTLOADER_RESPONSE_ACK],
                 state := 0 }) := by
  have hps : ps.length = len := by simpa using hpl
  rw [step_erase cfg fl w hwf hs, case_erase_list_eval cfg fl w len ck (q :: ps) rest hne hlen
    hpl hbuf hin, if_pos hck, ← hps]
  rw [erase_commit_eval cfg fl _ q ps (w.buffer.drop (q :: ps).length)
    (by simp [blit_zero])]
  rw [if_pos hfirst]

/-- C2 at the failing input: pages 5 and 6 are staged (frame 0x01 0x05 0x06 0x02), the
driver erases page 5 and fails on page 6; the answer is ACK and the state is 0. -/
theorem erase_later_failure_acks_witness :
    step sampleConfig (failingFlash 6)
        { World.start (List.replicate 258 0) [1, 5, 6, 2] () with state := 10 + 0x43 } =
      (Result.ok (),
        { ({ World.start (List.replicate 258 0) [1, 5, 6, 2] () with
              state := 10 + 0x43 } : World Unit) with
            inp := [], buffer := blit (List.replicate 258 0) 0 [5, 6],
            flash := (erase_pages (failingFlash 6) () [5, 6]).2.1,
            calls := [] ++ (erase_pages (failingFlash 6) () [5, 6]).2.2.map FlashCall.erase,
            out := [] ++ [sampleConfig.BOOTLOADER_RESPONSE_ACK],
            state := 0 }) ∧
    erase_pages (failingFlash 6) () [5, 6] = (false, (), [5, 6]) :=
  ⟨erase_later_failure_acks sampleConfig (failingFlash 6)
      { World.start (List.replicate 258 0) [1, 5, 6, 2] () with state := 10 + 0x43 }
      1 2 5 [6] [] sampleConfig_wf rfl (by decide) (by decide) rfl (List.length_replicate 258 0)
      rfl (by decide) (by decide),
    by decide⟩

/-- C3, what the code does: the full erase (0xFF, 0x00) with a driver that never fails calls
`flash_erase_page` for the pages `PAGECOUNT_BOOTLOADER`, ..., `PAGECOUNT_FLASH - 1` and then
once more, for the byte that an earlier command has left in the buffer at index
`PAGECOUNT_FLASH - PAGECOUNT_BOOTLOADER`: the commit erases `len + 1` pages, and here `len`
is the number of pages, not one less.  The claim asks for exactly the pages of the range. -/
theorem erase_all_one_page_more {F : Type} (cfg : Config) (fl : FlashIface F) (w : World F)
    (rest : List Nat) (hwf : cfg.WF) (hs : w.state = 10 + cfg.BOOTLOADER_COMMAND_ERASE)
    (hbuf : w.buffer.length = 258) (hin : w.inp = 0xFF :: 0x00 :: rest)
    (hok : ∀ f page, (fl.flash_erase_page f page).1 = true) :
    (step cfg fl w).1 = Result.ok () ∧
    (step cfg fl w).2.calls =
      w.calls ++
        (List.range' cfg.PAGECOUNT_BOOTLOADER
            (cfg.PAGECOUNT_FLASH - cfg.PAGECOUNT_BOOTLOADER) ++
          [w.buffer.getD (cfg.PAGECOUNT_FLASH - cfg.PAGECOUNT_BOOTLOADER) 0]).map
          FlashCall.erase ∧
    (step cfg fl w).2.out = w.out ++ [cfg.BOOTLOADER_RESPONSE_ACK] ∧
    (step cfg fl w).2.state = 0 := by
  have h1 := hwf.pages_lt
  have h2 := hwf.pages_le
  obtain ⟨k, hk⟩ : ∃ k, cfg.PAGECOUNT_FLASH - cfg.PAGECOUNT_BOOTLOADER = k + 1 :=
    ⟨cfg.PAGECOUNT_FLASH - cfg.PAGECOUNT_BOOTLOADER - 1, by omega⟩
  rw [step_erase cfg fl w hwf hs, case_erase_all_eval cfg fl w rest hwf hbuf hin, hk]
  have hsplit : blit w.buffer 0 (List.range' cfg.PAGECOUNT_BOOTLOADER (k + 1)) =
      cfg.PAGECOUNT_BOOTLOADER ::
        (List.range' (cfg.PAGECOUNT_BOOTLOADER + 1) k ++ [w.buffer.getD (k + 1) 0]) ++
        w.buffer.drop (k + 2) := by
    rw [blit_zero, List.range'_succ, List.length_cons, List.length_range']
    have h3 : List.drop (k + 1) w.buffer = w.buffer.getD (k + 1) 0 :: List.drop (k + 2) w.buffer := by
      rw [List.getD_eq_getElem _ _ (by omega : k + 1 < w.buffer.length)]
      exact List.drop_eq_getElem_cons (by omega)
    rw [h3]
    simp
  have hlen : (List.range' (cfg.PAGECOUNT_BOOTLOADER + 1) k ++ [w.buffer.getD (k + 1) 0]).length
      = k + 1 := by simp
  rw [← hlen, erase_commit_eval cfg fl _ cfg.PAGECOUNT_BOOTLOADER _ (w.buffer.drop (k + 2))
    (by rw [hlen]; exact hsplit), if_pos (hok _ _)]
  refine ⟨rfl, ?_, rfl, rfl⟩
  dsimp only
  rw [(erase_pages_of_ok fl hok _ _).2, hlen, List.range'_succ]
  simp

/-- C3 at the failing input: the buffer holds 0 at index 28 (a payload byte of an earlier
WRITE_MEMORY, say); after the pages 4 to 31 the driver is asked to erase page 0, a page
of the bootloader, so that 29 calls are made. -/
theorem erase_all_one_page_more_witness :
    (step sampleConfig blankFlash
        { World.start (List.replicate 258 0) [0xFF, 0x00] () with state := 10 + 0x43 }).1
      = Result.ok () ∧
    (step sampleConfig blankFlash
        { World.start (List.replicate 258 0) [0xFF, 0x00] () with state := 10 + 0x43 }).2.calls
      = [] ++ (List.range' 4 (32 - 4) ++ [(List.replicate 258 0).getD (32 - 4) 0]).map
          FlashCall.erase ∧
    (step sampleConfig blankFlash
        { World.start (List.replicate 258 0) [0xFF, 0x00] () with state := 10 + 0x43 }).2.out
      = [] ++ [sampleConfig.BOOTLOADER_RESPONSE_ACK] ∧
    (step sampleConfig blankFlash
        { World.start (List.replicate 258 0) [0xFF, 0x00] () with state := 10 + 0x43 }).2.state
      = 0 :=
  erase_all_one_page_more sampleConfig blankFlash
    { World.start (List.replicate 258 0) [0xFF, 0x00] () with state := 10 + 0x43 }
    [] sampleConfig_wf rfl (List.length_replicate 258 0) rfl (fun _ _ => rfl)

/-! ## C4, C6 and C7: the data frame of WRITE_MEMORY and the page list of ERASE -/

/-- C4: a data frame `len`, `len + 1` payload bytes, `ck` whose trailing byte `ck` differs from
`len ^ payload[0] ^ ... ^ payload[len]` makes WRITE_MEMORY (after a valid address frame) and
ERASE with an explicit list (`len != 0xFF`) return with state 0xFF (Abort) and with no call of
the flash driver at all; the next round of the loop sends NACK as the next byte and sets
state 0 (Idle). -/
theorem checksum_before_commit {F : Type} (cfg : Config) (fl : FlashIface F) (w : World F)
    (len ck : Nat) (payload rest : List Nat) (hwf : cfg.WF) (hlen : len < 256)
    (hpl : payload.length = len + 1) (hbuf : w.buffer.length = 258)
    (hck : ck ≠ xor_fold len payload) :
    (∀ b0 b1 hi lo ack : Nat, w.state = 10 + cfg.BOOTLOADER_COMMAND_WRITE_MEMORY →
      hi < 256 → lo < 256 → ack = b0 ^^^ b1 ^^^ hi ^^^ lo → hi * 256 + lo ≤ cfg.FLASH_SIZE →
      w.inp = b0 :: b1 :: hi :: lo :: ack :: len :: (payload ++ ck :: rest) →
      ∃ w1 : World F, step cfg fl w = (Result.ok (), w1) ∧
        w1.calls = w.calls ∧ w1.flash = w.flash ∧ w1.state = 0xFF ∧ w1.inp = rest ∧
        w1.out = w.out ++ [cfg.BOOTLOADER_RESPONSE_ACK] ∧
        step cfg fl w1 =
          (Result.ok (), { w1 with out := w1.out ++ [cfg.BOOTLOADER_RESPONSE_NACK],
                                   state := 0 })) ∧
    (w.state = 10 + cfg.BOOTLOADER_COMMAND_ERASE → len ≠ 0xFF →
      w.inp = len :: (payload ++ ck :: rest) →
      ∃ w1 : World F, step cfg fl w = (Result.ok (), w1) ∧
        w1.calls = w.calls ∧ w1.flash = w.flash ∧ w1.state = 0xFF ∧ w1.inp = rest ∧
        w1.out = w.out ∧
        step cfg fl w1 =
          (Result.ok (), { w1 with out := w1.out ++ [cfg.BOOTLOADER_RESPONSE_NACK],
                                   state := 0 })) := by
  constructor
  · intro b0 b1 hi lo ack hs hhi hlo hack haddr hin
    rw [step_write_memory cfg fl w hwf hs, case_write_memory_eval cfg fl w b0 b1 hi lo ack len
      ck payload rest hhi hlo hack haddr hlen hpl hbuf hin, if_neg hck]
    refine ⟨_, rfl, rfl, rfl, rfl, rfl, rfl, ?_⟩
    rw [step_abort cfg fl _ hwf rfl, case_abort_eval]
  · intro hs hne hin
    rw [step_erase cfg fl w hwf hs, case_erase_list_eval cfg fl w len ck payload rest hne hlen
      hpl hbuf hin, if_neg hck]
    refine ⟨_, rfl, rfl, rfl, rfl, rfl, rfl, ?_⟩
    rw [step_abort cfg fl _ hwf rfl, case_abort_eval]

/-- A run of C4: the data frame 0x01 0x05 0x06 0x77 (the checksum would be 0x02), for a write
to address 0x1000 and for an erase. -/
theorem checksum_before_commit_witness :
    (∃ w1 : World Unit,
      step sampleConfig blankFlash
          { World.start (List.replicate 258 0) [0, 0, 0x10, 0, 0x10, 1, 5, 6, 0x77, 9] () with
              state := 10 + 0x31 } = (Result.ok (), w1) ∧
        w1.calls = [] ∧ w1.flash = () ∧ w1.state = 0xFF ∧ w1.inp = [9] ∧
        w1.out = [] ++ [sampleConfig.BOOTLOADER_RESPONSE_ACK] ∧
        step sampleConfig blankFlash w1 =
          (Result.ok (), { w1 with out := w1.out ++ [sampleConfig.BOOTLOADER_RESPONSE_NACK],
                                   state := 0 })) ∧
    (∃ w1 : World Unit,
      step sampleConfig blankFlash
          { World.start (List.replicate 258 0) [1, 5, 6, 0x77, 9] () with
              state := 10 + 0x43 } = (Result.ok (), w1) ∧
        w1.calls = [] ∧ w1.flash = () ∧ w1.state = 0xFF ∧ w1.inp = [9] ∧
        w1.out = [] ∧
        step sampleConfig blankFlash w1 =
          (Result.ok (), { w1 with out := w1.out ++ [sampleConfig.BOOTLOADER_RESPONSE_NACK],
                                   state := 0 })) :=
  ⟨(checksum_before_commit sampleConfig blankFlash
      { World.start (List.replicate 258 0) [0, 0, 0x10, 0, 0x10, 1, 5, 6, 0x77, 9] () with
          state := 10 + 0x31 }
      1 0x77 [5, 6] [9] sampleConfig_wf (by decide) rfl (List.length_replicate 258 0)
      (by decide)).1 0 0 0x10 0 0x10 rfl (by decide) (by decide) (by decide) (by decide) rfl,
   (checksum_before_commit sampleConfig blankFlash
      { World.start (List.replicate 258 0) [1, 5, 6, 0x77, 9] () with state := 10 + 0x43 }
      1 0x77 [5, 6] [9] sampleConfig_wf (by decide) rfl (List.length_replicate 258 0)
      (by decide)).2 rfl (by decide) rfl⟩

/-- C6: WRITE_MEMORY to an odd validated address `A` accepts the data frame exactly when its
trailing byte is `len ^ payload[0] ^ ... ^ payload[len]` (the pad byte and the changed
address and count take no part).  When it accepts, it calls the flash write once, with start
address `A - 1` and with the bytes 0xFF, then the payload in wire order, then one more 0xFF
exactly when `len` is odd.  When it does not, the driver is not called and the state is 0xFF. -/
theorem odd_address_write {F : Type} (cfg : Config) (fl : FlashIface F) (w : World F)
    (b0 b1 hi lo ack len ck : Nat) (payload rest : List Nat) (hwf : cfg.WF)
    (hs : w.state = 10 + cfg.BOOTLOADER_COMMAND_WRITE_MEMORY)
    (hhi : hi < 256) (hlo : lo < 256) (hack : ack = b0 ^^^ b1 ^^^ hi ^^^ lo)
    (haddr : hi * 256 + lo ≤ cfg.FLASH_SIZE) (hodd : (hi * 256 + lo) % 2 = 1)
    (hlen : len < 256) (hpl : payload.length = len + 1) (hbuf : w.buffer.length = 258)
    (hin : w.inp = b0 :: b1 :: hi :: lo :: ack :: len :: (payload ++ ck :: rest)) :
    (step cfg fl w).1 = Result.ok () ∧
    (ck = xor_fold len payload →
      (step cfg fl w).2.calls =
        w.calls ++ [FlashCall.write (hi * 256 + lo - 1)
          (0xFF :: payload ++ (if len % 2 = 1 then [0xFF] else []))]) ∧
    (ck ≠ xor_fold len payload →
      (step cfg fl w).2.calls = w.calls ∧ (step cfg fl w).2.state = 0xFF) := by
  rw [step_write_memory cfg fl w hwf hs, case_write_memory_eval cfg fl w b0 b1 hi lo ack len
    ck payload rest hhi hlo hack haddr hlen hpl hbuf hin]
  by_cases hck : ck = xor_fold len payload
  · rw [if_pos hck]
    refine ⟨rfl, fun _ => ?_, fun h => absurd hck h⟩
    have h1 : (len + 1 + 1) % 2 = len % 2 := by omega
    simp only [staged_write, hodd, if_true, hpl, h1, List.singleton_append,
      List.cons_append, List.nil_append]
  · rw [if_neg hck]
    exact ⟨rfl, fun h => absurd h hck, fun _ => ⟨rfl, rfl⟩⟩

/-- A run of C6: three bytes 1, 2, 3 (`len = 2`, checksum 0x02) for the odd address 0x1001. -/
theorem odd_address_write_witness :
    (step sampleConfig blankFlash
        { World.start (List.replicate 258 0) [0, 0, 0x10, 1, 0x11, 2, 1, 2, 3, 2] () with
            state := 10 + 0x31 }).1 = Result.ok () ∧
    (2 = xor_fold 2 [1, 2, 3] →
      (step sampleConfig blankFlash
        { World.start (List.replicate 258 0) [0, 0, 0x10, 1, 0x11, 2, 1, 2, 3, 2] () with
            state := 10 + 0x31 }).2.calls =
        [] ++ [FlashCall.write (0x10 * 256 + 1 - 1)
          (0xFF :: [1, 2, 3] ++ (if 2 % 2 = 1 then [0xFF] else []))]) ∧
    (2 ≠ xor_fold 2 [1, 2, 3] →
      (step sampleConfig blankFlash
        { World.start (List.replicate 258 0) [0, 0, 0x10, 1, 0x11, 2, 1, 2, 3, 2] () with
            state := 10 + 0x31 }).2.calls = [] ∧
      (step sampleConfig blankFlash
        { World.start (List.replicate 258 0) [0, 0, 0x10, 1, 0x11, 2, 1, 2, 3, 2] () with
            state := 10 + 0x31 }).2.state = 0xFF) :=
  odd_address_write sampleConfig blankFlash
    { World.start (List.replicate 258 0) [0, 0, 0x10, 1, 0x11, 2, 1, 2, 3, 2] () with
        state := 10 + 0x31 }
    0 0 0x10 1 0x11 2 2 [1, 2, 3] [] sampleConfig_wf rfl (by decide) (by decide) (by decide)
    (by decide) (by decide) (by decide) rfl (List.length_replicate 258 0) rfl

/-- C7: WRITE_MEMORY with a validated address `A` (odd or even), `len` in 0..255 and a matching
checksum calls the flash write once, with an even start address and an even number of bytes.
That number is `n + n % 2` for `n = len + 1 + A % 2`; when `n` is odd the bytes end with one
0xFF right after the last payload byte; when `A` and `len + 1` are even the bytes are the
payload and the address is `A`. -/
theorem committed_write_even {F : Type} (cfg : Config) (fl : FlashIface F) (w : World F)
    (b0 b1 hi lo ack len ck : Nat) (payload rest : List Nat) (hwf : cfg.WF)
    (hs : w.state = 10 + cfg.BOOTLOADER_COMMAND_WRITE_MEMORY)
    (hhi : hi < 256) (hlo : lo < 256) (hack : ack = b0 ^^^ b1 ^^^ hi ^^^ lo)
    (haddr : hi * 256 + lo ≤ cfg.FLASH_SIZE)
    (hlen : len < 256) (hpl : payload.length = len + 1) (hbuf : w.buffer.length = 258)
    (hin : w.inp = b0 :: b1 :: hi :: lo :: ack :: len :: (payload ++ ck :: rest))
    (hck : ck = xor_fold len payload) :
    ∃ (address : Nat) (data : List Nat),
      (step cfg fl w).1 = Result.ok () ∧
      (step cfg fl w).2.calls = w.calls ++ [FlashCall.write address data] ∧
      address % 2 = 0 ∧ data.length % 2 = 0 ∧
      data.length = len + 1 + (hi * 256 + lo) % 2 + (len + 1 + (hi * 256 + lo) % 2) % 2 ∧
      ((len + 1 + (hi * 256 + lo) % 2) % 2 = 1 →
        data = (if (hi * 256 + lo) % 2 = 1 then [0xFF] else []) ++ payload ++ [0xFF]) ∧
      ((hi * 256 + lo) % 2 = 0 → (len + 1) % 2 = 0 →
        address = hi * 256 + lo ∧ data = payload) := by
  refine ⟨hi * 256 + lo - (hi * 256 + lo) % 2, staged_write (hi * 256 + lo) payload, ?_⟩
  rw [step_write_memory cfg fl w hwf hs, case_write_memory_eval cfg fl w b0 b1 hi lo ack len
    ck payload rest hhi hlo hack haddr hlen hpl hbuf hin, if_pos hck]
  generalize hi * 256 + lo = A
  refine ⟨rfl, rfl, by omega, ?_, ?_, ?_, ?_⟩
  · simp only [staged_write, List.length_append, hpl]
    split_ifs <;> simp <;> omega
  · simp only [staged_write, List.length_append, hpl]
    split_ifs <;> simp <;> omega
  · intro h
    simp only [staged_write, hpl, h, if_true]
  · intro h1 h2
    have h3 : ¬ A % 2 = 1 := by omega
    have h4 : ¬ (len + 1 + A % 2) % 2 = 1 := by omega
    refine ⟨by omega, ?_⟩
    simp only [staged_write, hpl, h3, h4, if_false, List.nil_append, List.append_nil]

/-- A run of C7: the three bytes 1, 2, 3 for the even address 0x1000. -/
theorem committed_write_even_witness :
    ∃ (address : Nat) (data : List Nat),
      (step sampleConfig blankFlash
        { World.start (List.replicate 258 0) [0, 0, 0x10, 0, 0x10, 2, 1, 2, 3, 2] () with
            state := 10 + 0x31 }).1 = Result.ok () ∧
      (step sampleConfig blankFlash
        { World.start (List.replicate 258 0) [0, 0, 0x10, 0, 0x10, 2, 1, 2, 3, 2] () with
            state := 10 + 0x31 }).2.calls = [] ++ [FlashCall.write address data] ∧
      address % 2 = 0 ∧ data.length % 2 = 0 ∧
      data.length = 2 + 1 + (0x10 * 256 + 0) % 2 + (2 + 1 + (0x10 * 256 + 0) % 2) % 2 ∧
      ((2 + 1 + (0x10 * 256 + 0) % 2) % 2 = 1 →
        data = (if (0x10 * 256 + 0) % 2 = 1 then [0xFF] else []) ++ [1, 2, 3] ++ [0xFF]) ∧
      ((0x10 * 256 + 0) % 2 = 0 → (2 + 1) % 2 = 0 →
        address = 0x10 * 256 + 0 ∧ data = [1, 2, 3]) :=
  committed_write_even sampleConfig blankFlash
    { World.start (List.replicate 258 0) [0, 0, 0x10, 0, 0x10, 2, 1, 2, 3, 2] () with
        state := 10 + 0x31 }
    0 0 0x10 0 0x10 2 2 [1, 2, 3] [] sampleConfig_wf rfl (by decide) (by decide) (by decide)
    (by decide) (by decide) rfl (List.length_replicate 258 0) rfl (by decide)

/-! ## C5: one corrupted byte -/

/-- C5, against the claim as stated: the data frame 0x01 0x05 0x05 0x01 of WRITE_MEMORY (two
bytes 5, 5 for address 0x1000) is accepted; with its first byte, the length, replaced by 0x00
the bytes 0x00 0x05 0x05 form an accepted frame for the single byte 5, so the handler does
not abort: it writes 5, 0xFF to the flash, sends a second ACK and returns to Idle. -/
theorem corrupted_length_accepted :
    [0, 5, 5, 1] = [1, 5, 5, 1].set 0 0 ∧
    (step sampleConfig blankFlash
      { World.start (List.replicate 258 0) [0, 0, 0x10, 0, 0x10, 1, 5, 5, 1] () with
          state := 10 + 0x31 }).2.calls = [FlashCall.write 0x1000 [5, 5]] ∧
    (step sampleConfig blankFlash
      { World.start (List.replicate 258 0) [0, 0, 0x10, 0, 0x10, 0, 5, 5, 1] () with
          state := 10 + 0x31 }).2.calls = [FlashCall.write 0x1000 [5, 0xFF]] ∧
    (step sampleConfig blankFlash
      { World.start (List.replicate 258 0) [0, 0, 0x10, 0, 0x10, 0, 5, 5, 1] () with
          state := 10 + 0x31 }).2.state = 0 ∧
    (step sampleConfig blankFlash
      { World.start (List.replicate 258 0) [0, 0, 0x10, 0, 0x10, 0, 5, 5, 1] () with
          state := 10 + 0x31 }).2.out
      = [sampleConfig.BOOTLOADER_RESPONSE_ACK, sampleConfig.BOOTLOADER_RESPONSE_ACK] ∧
    ¬ AbortsWithNack sampleConfig blankFlash
      { World.start (List.replicate 258 0) [0, 0, 0x10, 0, 0x10, 0, 5, 5, 1] () with
          state := 10 + 0x31 } := by
  have h1 := case_write_memory_eval sampleConfig blankFlash
    { World.start (List.replicate 258 0) [0, 0, 0x10, 0, 0x10, 1, 5, 5, 1] () with
        state := 10 + 0x31 }
    0 0 0x10 0 0x10 1 1 [5, 5] [] (by decide) (by decide) (by decide) (by decide) (by decide)
    rfl (List.length_replicate 258 0) rfl
  have h2 := case_write_memory_eval sampleConfig blankFlash
    { World.start (List.replicate 258 0) [0, 0, 0x10, 0, 0x10, 0, 5, 5, 1] () with
        state := 10 + 0x31 }
    0 0 0x10 0 0x10 0 5 [5] [1] (by decide) (by decide) (by decide) (by decide) (by decide)
    rfl (List.length_replicate 258 0) rfl
  rw [if_pos (by decide)] at h1 h2
  rw [← step_write_memory sampleConfig blankFlash _ sampleConfig_wf rfl] at h1 h2
  refine ⟨rfl, ?_, ?_, ?_, ?_, ?_⟩
  · rw [h1]; decide
  · rw [h2]; decide
  · rw [h2]; decide
  · rw [h2]; decide
  · rintro ⟨w1, hw1, hs, -⟩
    rw [h2] at hw1
    have h3 := congrArg (fun r => r.2.state) hw1
    dsimp only at h3
    rw [← h3] at hs
    revert hs
    decide

/-- C5, amended: one byte replaced by a different byte is detected when it is not the length
byte of a data frame.  The command ends in Abort (state 0xFF, then NACK and Idle) without a
call of the flash driver, whatever follows on the line, for an accepted 5-byte address frame
of READ_MEMORY, GO or WRITE_MEMORY with any one byte replaced by another byte, for an
accepted WRITE_MEMORY data frame or explicit ERASE frame (`len`, `len + 1` bytes, checksum)
with a payload byte or the checksum replaced, and for the READ_MEMORY pair `len`, `~len` with
either byte replaced. -/
theorem single_byte_corruption_detected {F : Type} (cfg : Config) (fl : FlashIface F)
    (w : World F) (i b : Nat) (rest : List Nat) (hwf : cfg.WF)
    (hbuf : w.buffer.length = 258) :
    (∀ b0 b1 hi lo ck : Nat, hi < 256 → lo < 256 → ck = b0 ^^^ b1 ^^^ hi ^^^ lo →
      hi * 256 + lo ≤ cfg.FLASH_SIZE → i < 5 → b < 256 →
      b ≠ [b0, b1, hi, lo, ck].getD i 0 →
      w.inp = [b0, b1, hi, lo, ck].set i b ++ rest →
      (w.state = 10 + cfg.BOOTLOADER_COMMAND_READ_MEMORY ∨
        w.state = 10 + cfg.BOOTLOADER_COMMAND_GO ∨
        w.state = 10 + cfg.BOOTLOADER_COMMAND_WRITE_MEMORY) →
      AbortsWithNack cfg fl w) ∧
    (∀ (b0 b1 hi lo ack len ck : Nat) (payload : List Nat), hi < 256 → lo < 256 →
      ack = b0 ^^^ b1 ^^^ hi ^^^ lo → hi * 256 + lo ≤ cfg.FLASH_SIZE →
      len < 256 → payload.length = len + 1 → ck = xor_fold len payload →
      1 ≤ i → i < len + 3 → b ≠ (len :: payload ++ [ck]).getD i 0 →
      w.state = 10 + cfg.BOOTLOADER_COMMAND_WRITE_MEMORY →
      w.inp = b0 :: b1 :: hi :: lo :: ack :: ((len :: payload ++ [ck]).set i b ++ rest) →
      AbortsWithNack cfg fl w) ∧
    (∀ (len ck : Nat) (payload : List Nat), len ≠ 0xFF →
      len < 256 → payload.length = len + 1 → ck = xor_fold len payload →
      1 ≤ i → i < len + 3 → b ≠ (len :: payload ++ [ck]).getD i 0 →
      w.state = 10 + cfg.BOOTLOADER_COMMAND_ERASE →
      w.inp = (len :: payload ++ [ck]).set i b ++ rest →
      AbortsWithNack cfg fl w) ∧
    (∀ b0 b1 hi lo ack len cks : Nat, hi < 256 → lo < 256 →
      ack = b0 ^^^ b1 ^^^ hi ^^^ lo → hi * 256 + lo ≤ cfg.FLASH_SIZE →
      len = cks ^^^ 0xFF → i < 2 → b ≠ [len, cks].getD i 0 →
      w.state = 10 + cfg.BOOTLOADER_COMMAND_READ_MEMORY →
      w.inp = b0 :: b1 :: hi :: lo :: ack :: ([len, cks].set i b ++ rest) →
      AbortsWithNack cfg fl w) := by
  refine ⟨?_, ?_, ?_, ?_⟩
  · intro b0 b1 hi lo ck hhi hlo hck _ hi5 hb256 hb hin hs
    obtain ⟨c0, c1, c2, c3, c4, hset, h2, h3, hne⟩ :=
      corrupt_address b0 b1 hi lo ck i b hck hhi hlo hb256 hi5 hb
    rw [hset] at hin
    have hd := decode_address_reject cfg w c0 c1 c2 c3 c4 rest h2 h3 hne hin
    rcases hs with hs | hs | hs
    · exact aborts_of_step cfg fl w _ hwf
        ((step_read_memory cfg fl w hwf hs).trans (case_read_memory_reject cfg fl w _ _ hd))
        rfl rfl rfl
    · exact aborts_of_step cfg fl w _ hwf
        ((step_go cfg fl w hwf hs).trans (case_go_reject cfg w _ _ hd)) rfl rfl rfl
    · exact aborts_of_step cfg fl w _ hwf
        ((step_write_memory cfg fl w hwf hs).trans
          (case_write_memory_reject cfg fl w _ _ hd))
        rfl rfl rfl
  · intro b0 b1 hi lo ack len ck payload hhi hlo hack haddr hlen hpl hck hi1 hi2 hb hs hin
    obtain ⟨payload2, ck2, hset, hl2, hne⟩ :=
      corrupt_frame len ck i b payload hck hi1 (by omega) hb
    rw [hset] at hin
    exact aborts_of_step cfg fl w _ hwf
      ((step_write_memory cfg fl w hwf hs).trans
        ((case_write_memory_eval cfg fl w b0 b1 hi lo ack len ck2 payload2 rest hhi hlo hack
          haddr hlen (by omega) hbuf (by simpa using hin)).trans (if_neg hne)))
      rfl rfl rfl
  · intro len ck payload hne hlen hpl hck hi1 hi2 hb hs hin
    obtain ⟨payload2, ck2, hset, hl2, hne2⟩ :=
      corrupt_frame len ck i b payload hck hi1 (by omega) hb
    rw [hset] at hin
    exact aborts_of_step cfg fl w _ hwf
      ((step_erase cfg fl w hwf hs).trans
        ((case_erase_list_eval cfg fl w len ck2 payload2 rest hne hlen (by omega) hbuf
          (by simpa using hin)).trans (if_neg hne2)))
      rfl rfl rfl
  · intro b0 b1 hi lo ack len cks hhi hlo hack haddr hcks hi2 hb hs hin
    have hpair : ∃ len2 cks2 : Nat, [len, cks].set i b = [len2, cks2] ∧
        len2 ≠ cks2 ^^^ 0xFF := by
      interval_cases i
      · exact ⟨b, cks, rfl, by simpa [hcks] using hb⟩
      · refine ⟨len, b, rfl, fun h => hb ?_⟩
        rw [hcks] at h
        simpa using (Nat.xor_left_inj.mp h).symm
    obtain ⟨len2, cks2, hset, hne⟩ := hpair
    rw [hset] at hin
    exact aborts_of_step cfg fl w _ hwf
      ((step_read_memory cfg fl w hwf hs).trans
        (case_read_memory_mismatch cfg fl w b0 b1 hi lo ack len2 cks2 rest hhi hlo hack haddr
          hne hin))
      rfl rfl rfl

/-- Runs of C5: the address frame 00 00 10 00 10 of READ_MEMORY with its third byte replaced
by 0x11; the data frame 01 05 06 02 with its payload byte 06 replaced by 07 (WRITE_MEMORY)
and with its checksum replaced by 09 (ERASE); the pair 03 FC with FC replaced by 00. -/
theorem single_byte_corruption_detected_witness :
    AbortsWithNack sampleConfig blankFlash
      { World.start (List.replicate 258 0) [0, 0, 0x11, 0, 0x10, 3, 0xFC] () with
          state := 10 + 0x11 } ∧
    AbortsWithNack sampleConfig blankFlash
      { World.start (List.replicate 258 0) [0, 0, 0x10, 0, 0x10, 1, 5, 7, 2, 8] () with
          state := 10 + 0x31 } ∧
    AbortsWithNack sampleConfig blankFlash
      { World.start (List.replicate 258 0) [1, 5, 6, 9, 8] () with state := 10 + 0x43 } ∧
    AbortsWithNack sampleConfig blankFlash
      { World.start (List.replicate 258 0) [0, 0, 0x10, 0, 0x10, 3, 0, 8] () with
          state := 10 + 0x11 } :=
  ⟨(single_byte_corruption_detected sampleConfig blankFlash
      { World.start (List.replicate 258 0) [0, 0, 0x11, 0, 0x10, 3, 0xFC] () with
          state := 10 + 0x11 }
      2 0x11 [3, 0xFC] sampleConfig_wf (List.length_replicate 258 0)).1
      0 0 0x10 0 0x10 (by decide) (by decide) (by decide) (by decide) (by decide) (by decide)
      (by decide) rfl (Or.inl rfl),
   (single_byte_corruption_detected sampleConfig blankFlash
      { World.start (List.replicate 258 0) [0, 0, 0x10, 0, 0x10, 1, 5, 7, 2, 8] () with
          state := 10 + 0x31 }
      2 7 [8] sampleConfig_wf (List.length_replicate 258 0)).2.1
      0 0 0x10 0 0x10 1 2 [5, 6] (by decide) (by decide) (by decide) (by decide) (by decide)
      rfl (by decide) (by decide) (by decide) (by decide) rfl rfl,
   (single_byte_corruption_detected sampleConfig blankFlash
      { World.start (List.replicate 258 0) [1, 5, 6, 9, 8] () with state := 10 + 0x43 }
      3 9 [8] sampleConfig_wf (List.length_replicate 258 0)).2.2.1
      1 2 [5, 6] (by decide) (by decide) rfl (by decide) (by decide) (by decide) (by decide)
      rfl rfl,
   (single_byte_corruption_detected sampleConfig blankFlash
      { World.start (List.replicate 258 0) [0, 0, 0x10, 0, 0x10, 3, 0, 8] () with
          state := 10 + 0x11 }
      1 0 [8] sampleConfig_wf (List.length_replicate 258 0)).2.2.2
      0 0 0x10 0 0x10 3 0xFC (by decide) (by decide) (by decide) (by decide) (by decide)
      (by decide) (by decide) rfl rfl⟩

/-! ## C8: write, then read back -/

/-- C8: over the ideal byte store, for an even address `A = hi * 256 + lo <= FLASH_SIZE` and a
payload of `len + 1` bytes (1 to 256), the command WRITE_MEMORY (command byte and complement,
address frame, `len`, payload, checksum) followed by the command READ_MEMORY for the same
address (command byte and complement, address frame, `len` and its complement) takes six
rounds of the loop from Idle; the bytes sent are six ACKs and then exactly the payload, and
the machine is back in Idle with both commands consumed.  The bytes sent come from the store:
the driver is called exactly twice, `flash_write_data` at `A` with the payload (followed by
one 0xFF when the count is odd) and then `flash_read` at `A` for `len + 1` bytes; the store
holds the payload at `A ..` afterwards; and the three rounds of READ_MEMORY send the same
bytes when the buffer is replaced by any other 258 bytes `buf` after the three rounds of
WRITE_MEMORY. -/
theorem write_read_round_trip (cfg : Config) (w : World (Nat → Nat))
    (b0 b1 c0 c1 hi lo len : Nat) (payload rest buf : List Nat) (hwf : cfg.WF)
    (hs : w.state = 0) (hbuf : w.buffer.length = 258) (hhi : hi < 256) (hlo : lo < 256)
    (haddr : hi * 256 + lo ≤ cfg.FLASH_SIZE) (heven : (hi * 256 + lo) % 2 = 0)
    (hlen : len < 256) (hpl : payload.length = len + 1) (hbuf2 : buf.length = 258)
    (hin : w.inp =
      cfg.BOOTLOADER_COMMAND_WRITE_MEMORY :: (cfg.BOOTLOADER_COMMAND_WRITE_MEMORY ^^^ 0xFF) ::
        b0 :: b1 :: hi :: lo :: (b0 ^^^ b1 ^^^ hi ^^^ lo) :: len ::
          (payload ++ xor_fold len payload ::
            cfg.BOOTLOADER_COMMAND_READ_MEMORY :: (cfg.BOOTLOADER_COMMAND_READ_MEMORY ^^^ 0xFF) ::
              c0 :: c1 :: hi :: lo :: (c0 ^^^ c1 ^^^ hi ^^^ lo) :: len :: (len ^^^ 0xFF) ::
                rest)) :
    (run cfg idealFlash 6 w).1 = Result.ok () ∧
    (run cfg idealFlash 6 w).2.out =
      w.out ++ List.replicate 6 cfg.BOOTLOADER_RESPONSE_ACK ++ payload ∧
    (run cfg idealFlash 6 w).2.state = 0 ∧
    (run cfg idealFlash 6 w).2.inp = rest ∧
    (run cfg idealFlash 6 w).2.calls =
      w.calls ++
        [FlashCall.write (hi * 256 + lo) (payload ++ if (len + 1) % 2 = 1 then [0xFF] else []),
          FlashCall.read (hi * 256 + lo) (len + 1)] ∧
    (run cfg idealFlash 6 w).2.flash =
      (idealFlash.flash_write_data w.flash (hi * 256 + lo)
        (payload ++ if (len + 1) % 2 = 1 then [0xFF] else [])).2 ∧
    (∀ i, i < len + 1 → (run cfg idealFlash 6 w).2.flash (hi * 256 + lo + i)
      = payload.getD i 0) ∧
    (run cfg idealFlash 3 w).1 = Result.ok () ∧
    (run cfg idealFlash 3 w).2.out = w.out ++ List.replicate 3 cfg.BOOTLOADER_RESPONSE_ACK ∧
    (run cfg idealFlash 3 w).2.state = 0 ∧
    (run cfg idealFlash 3 w).2.calls =
      w.calls ++
        [FlashCall.write (hi * 256 + lo)
          (payload ++ if (len + 1) % 2 = 1 then [0xFF] else [])] ∧
    (run cfg idealFlash 3 { (run cfg idealFlash 3 w).2 with buffer := buf }).1
      = Result.ok () ∧
    (run cfg idealFlash 3 { (run cfg idealFlash 3 w).2 with buffer := buf }).2.out =
      w.out ++ List.replicate 6 cfg.BOOTLOADER_RESPONSE_ACK ++ payload ∧
    (run cfg idealFlash 3 { (run cfg idealFlash 3 w).2 with buffer := buf }).2.calls =
      w.calls ++
        [FlashCall.write (hi * 256 + lo) (payload ++ if (len + 1) % 2 = 1 then [0xFF] else []),
          FlashCall.read (hi * 256 + lo) (len + 1)] := by
  have hsw : staged_write (hi * 256 + lo) payload
      = payload ++ (if (len + 1) % 2 = 1 then [0xFF] else []) := by
    simp [staged_write, heven, hpl]
  have hA : hi * 256 + lo - (hi * 256 + lo) % 2 = hi * 256 + lo := by omega
  have hb3 : (blit w.buffer 0 (staged_write (hi * 256 + lo) payload)).length = 258 := by
    rw [length_blit _ _ _ (by
      simp only [hsw, List.length_append, hpl]
      split_ifs <;> simp <;> omega)]
    exact hbuf
  -- rounds 1 to 3: the command WRITE_MEMORY
  have hw := fun n => run_write_command cfg idealFlash w b0 b1 hi lo len n payload
    (cfg.BOOTLOADER_COMMAND_READ_MEMORY :: (cfg.BOOTLOADER_COMMAND_READ_MEMORY ^^^ 0xFF) ::
      c0 :: c1 :: hi :: lo :: (c0 ^^^ c1 ^^^ hi ^^^ lo) :: len :: (len ^^^ 0xFF) :: rest)
    hwf hs hbuf hhi hlo haddr hlen hpl rfl hin
  -- rounds 4 to 6: the command READ_MEMORY, whatever the buffer holds
  have hr := fun (b : List Nat) (hb : b.length = 258) (n : Nat) =>
    run_read_command cfg idealFlash
      { w with
          state := 0, command := cfg.BOOTLOADER_COMMAND_WRITE_MEMORY,
          buffer := b,
          inp := cfg.BOOTLOADER_COMMAND_READ_MEMORY ::
            (cfg.BOOTLOADER_COMMAND_READ_MEMORY ^^^ 0xFF) ::
              c0 :: c1 :: hi :: lo :: (c0 ^^^ c1 ^^^ hi ^^^ lo) :: len :: (len ^^^ 0xFF) :: rest,
          out := w.out ++ [cfg.BOOTLOADER_RESPONSE_ACK, cfg.BOOTLOADER_RESPONSE_ACK,
            cfg.BOOTLOADER_RESPONSE_ACK],
          flash := (idealFlash.flash_write_data w.flash (hi * 256 + lo - (hi * 256 + lo) % 2)
            (staged_write (hi * 256 + lo) payload)).2,
          calls := w.calls ++ [FlashCall.write (hi * 256 + lo - (hi * 256 + lo) % 2)
            (staged_write (hi * 256 + lo) payload)] }
      c0 c1 hi lo len n rest hwf rfl hb hhi hlo haddr hlen (by simp [idealFlash]) rfl
  have e3 : run cfg idealFlash 3 w = _ := (hw 0).trans (run_zero _ _ _)
  have e6 : run cfg idealFlash 6 w = _ :=
    (hw 3).trans ((hr _ hb3 0).trans (run_zero _ _ _))
  have e33 : run cfg idealFlash 3 _ = _ := (hr buf hbuf2 0).trans (run_zero _ _ _)
  have hack : ∀ l : List Nat,
      w.out ++ [cfg.BOOTLOADER_RESPONSE_ACK, cfg.BOOTLOADER_RESPONSE_ACK,
          cfg.BOOTLOADER_RESPONSE_ACK] ++
        [cfg.BOOTLOADER_RESPONSE_ACK, cfg.BOOTLOADER_RESPONSE_ACK,
          cfg.BOOTLOADER_RESPONSE_ACK] ++ l
        = w.out ++ List.replicate 6 cfg.BOOTLOADER_RESPONSE_ACK ++ l := by
    intro l
    simp [List.replicate]
  rw [e6, e3]
  dsimp only
  rw [e33]
  dsimp only
  rw [hA, hsw, ideal_read_back _ _ _ _ _ hpl, hack]
  refine ⟨rfl, rfl, rfl, rfl, ?_, rfl, ?_, rfl, ?_, rfl, rfl, rfl, rfl, ?_⟩
  · simp
  · intro i hi2
    exact ideal_write_at _ _ _ _ _ (by omega)
  · simp [List.replicate]
  · simp

/-- A run of C8: the bytes 1, 2, 3 written to the address 0x1000 of an empty store and read
back, also with the buffer overwritten by 0xAA between the two commands. -/
theorem write_read_round_trip_witness :
    (run sampleConfig idealFlash 6
      (World.start (List.replicate 258 0)
        [0x31, 0xCE, 0, 0, 0x10, 0, 0x10, 2, 1, 2, 3, 2, 0x11, 0xEE, 0, 0, 0x10, 0, 0x10, 2, 0xFD]
        (fun _ => 0xFF))).1 = Result.ok () ∧
    (run sampleConfig idealFlash 6
      (World.start (List.replicate 258 0)
        [0x31, 0xCE, 0, 0, 0x10, 0, 0x10, 2, 1, 2, 3, 2, 0x11, 0xEE, 0, 0, 0x10, 0, 0x10, 2, 0xFD]
        (fun _ => 0xFF))).2.out =
      [] ++ List.replicate 6 sampleConfig.BOOTLOADER_RESPONSE_ACK ++ [1, 2, 3] ∧
    (run sampleConfig idealFlash 6
      (World.start (List.replicate 258 0)
        [0x31, 0xCE, 0, 0, 0x10, 0, 0x10, 2, 1, 2, 3, 2, 0x11, 0xEE, 0, 0, 0x10, 0, 0x10, 2, 0xFD]
        (fun _ => 0xFF))).2.state = 0 ∧
    (run sampleConfig idealFlash 6
      (World.start (List.replicate 258 0)
        [0x31, 0xCE, 0, 0, 0x10, 0, 0x10, 2, 1, 2, 3, 2, 0x11, 0xEE, 0, 0, 0x10, 0, 0x10, 2, 0xFD]
        (fun _ => 0xFF))).2.inp = [] ∧
    (run sampleConfig idealFlash 6
      (World.start (List.replicate 258 0)
        [0x31, 0xCE, 0, 0, 0x10, 0, 0x10, 2, 1, 2, 3, 2, 0x11, 0xEE, 0, 0, 0x10, 0, 0x10, 2, 0xFD]
        (fun _ => 0xFF))).2.calls =
      [] ++ [FlashCall.write (0x10 * 256 + 0) ([1, 2, 3] ++ if (2 + 1) % 2 = 1 then [0xFF] else []),
        FlashCall.read (0x10 * 256 + 0) (2 + 1)] ∧
    (run sampleConfig idealFlash 6
      (World.start (List.replicate 258 0)
        [0x31, 0xCE, 0, 0, 0x10, 0, 0x10, 2, 1, 2, 3, 2, 0x11, 0xEE, 0, 0, 0x10, 0, 0x10, 2, 0xFD]
        (fun _ => 0xFF))).2.flash =
      (idealFlash.flash_write_data (fun _ => 0xFF) (0x10 * 256 + 0)
        ([1, 2, 3] ++ if (2 + 1) % 2 = 1 then [0xFF] else [])).2 ∧
    (∀ i, i < 2 + 1 → (run sampleConfig idealFlash 6
      (World.start (List.replicate 258 0)
        [0x31, 0xCE, 0, 0, 0x10, 0, 0x10, 2, 1, 2, 3, 2, 0x11, 0xEE, 0, 0, 0x10, 0, 0x10, 2, 0xFD]
        (fun _ => 0xFF))).2.flash (0x10 * 256 + 0 + i)
      = [1, 2, 3].getD i 0) ∧
    (run sampleConfig idealFlash 3
      (World.start (List.replicate 258 0)
        [0x31, 0xCE, 0, 0, 0x10, 0, 0x10, 2, 1, 2, 3, 2, 0x11, 0xEE, 0, 0, 0x10, 0, 0x10, 2, 0xFD]
        (fun _ => 0xFF))).1 = Result.ok () ∧
    (run sampleConfig idealFlash 3
      (World.start (List.replicate 258 0)
        [0x31, 0xCE, 0, 0, 0x10, 0, 0x10, 2, 1, 2, 3, 2, 0x11, 0xEE, 0, 0, 0x10, 0, 0x10, 2, 0xFD]
        (fun _ => 0xFF))).2.out =
      [] ++ List.replicate 3 sampleConfig.BOOTLOADER_RESPONSE_ACK ∧
    (run sampleConfig idealFlash 3
      (World.start (List.replicate 258 0)
        [0x31, 0xCE, 0, 0, 0x10, 0, 0x10, 2, 1, 2, 3, 2, 0x11, 0xEE, 0, 0, 0x10, 0, 0x10, 2, 0xFD]
        (fun _ => 0xFF))).2.state = 0 ∧
    (run sampleConfig idealFlash 3
      (World.start (List.replicate 258 0)
        [0x31, 0xCE, 0, 0, 0x10, 0, 0x10, 2, 1, 2, 3, 2, 0x11, 0xEE, 0, 0, 0x10, 0, 0x10, 2, 0xFD]
        (fun _ => 0xFF))).2.calls =
      [] ++ [FlashCall.write (0x10 * 256 + 0)
        ([1, 2, 3] ++ if (2 + 1) % 2 = 1 then [0xFF] else [])] ∧
    (run sampleConfig idealFlash 3
      { (run sampleConfig idealFlash 3
      (World.start (List.replicate 258 0)
        [0x31, 0xCE, 0, 0, 0x10, 0, 0x10, 2, 1, 2, 3, 2, 0x11, 0xEE, 0, 0, 0x10, 0, 0x10, 2, 0xFD]
        (fun _ => 0xFF))).2 with
          buffer := List.replicate 258 0xAA }).1 = Result.ok () ∧
    (run sampleConfig idealFlash 3
      { (run sampleConfig idealFlash 3
      (World.start (List.replicate 258 0)
        [0x31, 0xCE, 0, 0, 0x10, 0, 0x10, 2, 1, 2, 3, 2, 0x11, 0xEE, 0, 0, 0x10, 0, 0x10, 2, 0xFD]
        (fun _ => 0xFF))).2 with
          buffer := List.replicate 258 0xAA }).2.out =
      [] ++ List.replicate 6 sampleConfig.BOOTLOADER_RESPONSE_ACK ++ [1, 2, 3] ∧
    (run sampleConfig idealFlash 3
      { (run sampleConfig idealFlash 3
      (World.start (List.replicate 258 0)
        [0x31, 0xCE, 0, 0, 0x10, 0, 0x10, 2, 1, 2, 3, 2, 0x11, 0xEE, 0, 0, 0x10, 0, 0x10, 2, 0xFD]
        (fun _ => 0xFF))).2 with
          buffer := List.replicate 258 0xAA }).2.calls =
      [] ++ [FlashCall.write (0x10 * 256 + 0) ([1, 2, 3] ++ if (2 + 1) % 2 = 1 then [0xFF] else []),
        FlashCall.read (0x10 * 256 + 0) (2 + 1)] :=
  write_read_round_trip sampleConfig
    (World.start (List.replicate 258 0)
        [0x31, 0xCE, 0, 0, 0x10, 0, 0x10, 2, 1, 2, 3, 2, 0x11, 0xEE, 0, 0, 0x10, 0, 0x10, 2, 0xFD]
        (fun _ => 0xFF))
    0 0 0 0 0x10 0 2 [1, 2, 3] [] (List.replicate 258 0xAA) sampleConfig_wf rfl
    (List.length_replicate 258 0) (by decide) (by decide) (by decide) (by decide) (by decide)
    rfl (List.length_replicate 258 0xAA) (by decide)

/-! ## C9 and C10: command byte and its complement -/

/-- C9, against the claim as stated: INIT has no handling state.  From Idle the bytes INIT and
its complement 0x80 leave the machine in state 1 (AwaitChecksum) with 0x80 as the pending
command, not in state `10 + INIT`; the one ACK answers the INIT byte alone. -/
theorem init_pair_not_confirmed :
    (run sampleConfig blankFlash 2 (World.start (List.replicate 258 0) [0x7F, 0x80] ())).1
      = Result.ok () ∧
    (run sampleConfig blankFlash 2 (World.start (List.replicate 258 0) [0x7F, 0x80] ())).2.state
      = 1 ∧
    (run sampleConfig blankFlash 2 (World.start (List.replicate 258 0) [0x7F, 0x80] ())).2.state
      ≠ 10 + sampleConfig.BOOTLOADER_COMMAND_INIT ∧
    (run sampleConfig blankFlash 2 (World.start (List.replicate 258 0) [0x7F, 0x80] ())).2.command
      = 0x80 ∧
    (run sampleConfig blankFlash 2 (World.start (List.replicate 258 0) [0x7F, 0x80] ())).2.out
      = [sampleConfig.BOOTLOADER_RESPONSE_ACK] := by
  decide

/-- C9, amended: for each of the seven commands GET, GET_VERSION, GET_ID, READ_MEMORY, GO,
WRITE_MEMORY and ERASE, the command byte `c` followed by `c ^ 0xFF`, received in Idle, takes two
rounds of the loop, which send exactly one ACK (a byte different from NACK), consume the two
bytes and end in state `10 + c`.  INIT is not confirmed by a second byte: received in Idle it
is answered by one ACK at once and the machine stays in Idle. -/
theorem command_confirmation {F : Type} (cfg : Config) (fl : FlashIface F) (w : World F)
    (c : Nat) (rest : List Nat) (hwf : cfg.WF) (hs : w.state = 0) :
    (c ∈ cfg.commands → w.inp = c :: (c ^^^ 0xFF) :: rest →
      run cfg fl 2 w =
        (Result.ok (), { w with inp := rest, command := c,
                                out := w.out ++ [cfg.BOOTLOADER_RESPONSE_ACK],
                                state := 10 + c }) ∧
      cfg.BOOTLOADER_RESPONSE_ACK ≠ cfg.BOOTLOADER_RESPONSE_NACK) ∧
    (w.inp = cfg.BOOTLOADER_COMMAND_INIT :: rest →
      step cfg fl w =
        (Result.ok (), { w with inp := rest, command := cfg.BOOTLOADER_COMMAND_INIT,
                                out := w.out ++ [cfg.BOOTLOADER_RESPONSE_ACK] })) := by
  constructor
  · intro hc hin
    refine ⟨?_, hwf.ack_ne⟩
    rw [run_confirm cfg fl w c 0 rest hwf hs hc hin, run_zero]
  · intro hin
    rw [step_idle cfg fl w hs, case_idle_eval cfg w _ _ hin, if_pos rfl]

/-- A run of C9: ERASE (0x43) and its complement 0xBC in front of one more byte. -/
theorem command_confirmation_witness :
    run sampleConfig blankFlash 2 (World.start (List.replicate 258 0) [0x43, 0xBC, 0xFF] ()) =
        (Result.ok (),
          { World.start (List.replicate 258 0) [0x43, 0xBC, 0xFF] () with
              inp := [0xFF], command := 0x43,
              out := [] ++ [sampleConfig.BOOTLOADER_RESPONSE_ACK],
              state := 10 + 0x43 }) ∧
      sampleConfig.BOOTLOADER_RESPONSE_ACK ≠ sampleConfig.BOOTLOADER_RESPONSE_NACK :=
  (command_confirmation sampleConfig blankFlash
      (World.start (List.replicate 258 0) [0x43, 0xBC, 0xFF] ())
      0x43 [0xFF] sampleConfig_wf rfl).1 (by decide) rfl

/-- C10: in state 1 (AwaitChecksum) with pending command `c`, a byte `rx` different from
`c ^ 0xFF` and from INIT is consumed without any output, the state stays 1 and `rx` becomes
the pending command; a byte `rx = INIT` different from `c ^ 0xFF` is answered by exactly one
ACK and the state becomes 0 (Idle). -/
theorem recandidate_step {F : Type} (cfg : Config) (fl : FlashIface F) (w : World F)
    (rx : Nat) (rest : List Nat) (hs : w.state = 1) (hin : w.inp = rx :: rest)
    (hne : rx ≠ w.command ^^^ 0xFF) :
    (rx ≠ cfg.BOOTLOADER_COMMAND_INIT →
      step cfg fl w = (Result.ok (), { w with inp := rest, command := rx }) ∧
      (step cfg fl w).2.out = w.out ∧ (step cfg fl w).2.state = 1 ∧
      (step cfg fl w).2.command = rx) ∧
    (rx = cfg.BOOTLOADER_COMMAND_INIT →
      step cfg fl w =
        (Result.ok (), { w with inp := rest, out := w.out ++ [cfg.BOOTLOADER_RESPONSE_ACK],
                                state := 0 }) ∧
      (step cfg fl w).2.out = w.out ++ [cfg.BOOTLOADER_RESPONSE_ACK] ∧
      (step cfg fl w).2.state = 0) := by
  have h := case_checksum_eval cfg w rx rest hin
  rw [if_neg hne] at h
  constructor
  · intro hi
    rw [if_neg hi] at h
    rw [step_checksum cfg fl w hs, h]
    exact ⟨rfl, rfl, hs, rfl⟩
  · intro hi
    rw [if_pos hi] at h
    rw [step_checksum cfg fl w hs, h]
    exact ⟨rfl, rfl, rfl⟩

/-- A run of C10: pending command 0x43, then 0x11 arrives instead of 0xBC. -/
theorem recandidate_step_witness :
    step sampleConfig blankFlash
        { World.start (List.replicate 258 0) [0x11, 0xEE] () with state := 1, command := 0x43 }
      = (Result.ok (),
          { ({ World.start (List.replicate 258 0) [0x11, 0xEE] () with
                state := 1, command := 0x43 } : World Unit) with
              inp := [0xEE], command := 0x11 }) ∧
    (step sampleConfig blankFlash
        { World.start (List.replicate 258 0) [0x11, 0xEE] () with
            state := 1, command := 0x43 }).2.out = [] ∧
    (step sampleConfig blankFlash
        { World.start (List.replicate 258 0) [0x11, 0xEE] () with
            state := 1, command := 0x43 }).2.state = 1 ∧
    (step sampleConfig blankFlash
        { World.start (List.replicate 258 0) [0x11, 0xEE] () with
            state := 1, command := 0x43 }).2.command = 0x11 :=
  (recandidate_step sampleConfig blankFlash
      { World.start (List.replicate 258 0) [0x11, 0xEE] () with state := 1, command := 0x43 }
      0x11 [0xEE] rfl rfl (by decide)).1 (by decide)

/-! ## C11, C13 and C14: unknown commands, the abort state, GET, the full-erase confirmation -/

/-- C11: for a byte `c` that is neither INIT nor one of the seven commands, `c` followed by
`c ^ 0xFF`, received in Idle, takes two rounds that send nothing and end in state 0xFF
(Abort); the third round sends exactly NACK and ends in state 0 (Idle), and no round calls
the flash driver.  Every round taken in state 0xFF sends exactly the byte NACK, reads no
input and sets state 0. -/
theorem unknown_command_nack {F : Type} (cfg : Config) (fl : FlashIface F) (w : World F)
    (hwf : cfg.WF) :
    (∀ (c : Nat) (rest : List Nat), w.state = 0 → c ≠ cfg.BOOTLOADER_COMMAND_INIT →
      c ∉ cfg.commands → w.inp = c :: (c ^^^ 0xFF) :: rest →
      run cfg fl 2 w = (Result.ok (), { w with inp := rest, command := c, state := 0xFF }) ∧
      run cfg fl 3 w =
        (Result.ok (),
          { w with inp := rest, command := c,
                   out := w.out ++ [cfg.BOOTLOADER_RESPONSE_NACK], state := 0 })) ∧
    (w.state = 0xFF →
      step cfg fl w =
        (Result.ok (), { w with out := w.out ++ [cfg.BOOTLOADER_RESPONSE_NACK],
                                state := 0 })) := by
  constructor
  · intro c rest hs hne hc hin
    have h1 : step cfg fl w
        = (Result.ok (), { w with inp := (c ^^^ 0xFF) :: rest, command := c, state := 1 }) := by
      rw [step_idle cfg fl w hs, case_idle_eval cfg w c _ hin, if_neg hne]
    have h2 : step cfg fl { w with inp := (c ^^^ 0xFF) :: rest, command := c, state := 1 }
        = (Result.ok (), { w with inp := rest, command := c, state := 0xFF }) := by
      rw [step_checksum cfg fl _ rfl, case_checksum_eval cfg _ (c ^^^ 0xFF) rest rfl]
      simp only [if_true, hc, if_false]
    have h3 : step cfg fl { w with inp := rest, command := c, state := 0xFF }
        = (Result.ok (),
            { w with inp := rest, command := c,
                     out := w.out ++ [cfg.BOOTLOADER_RESPONSE_NACK], state := 0 }) := by
      rw [step_abort cfg fl _ hwf rfl, case_abort_eval]
    constructor
    · rw [run_succ_ok h1, run_succ_ok h2, run_zero]
    · rw [run_succ_ok h1, run_succ_ok h2, run_succ_ok h3, run_zero]
  · intro hs
    rw [step_abort cfg fl w hwf hs, case_abort_eval]

/-- A run of C11: the unknown command 0x55 with its complement 0xAA. -/
theorem unknown_command_nack_witness :
    run sampleConfig blankFlash 2 (World.start (List.replicate 258 0) [0x55, 0xAA, 9] ()) =
      (Result.ok (),
        { World.start (List.replicate 258 0) [0x55, 0xAA, 9] () with
            inp := [9], command := 0x55, state := 0xFF }) ∧
    run sampleConfig blankFlash 3 (World.start (List.replicate 258 0) [0x55, 0xAA, 9] ()) =
      (Result.ok (),
        { World.start (List.replicate 258 0) [0x55, 0xAA, 9] () with
            inp := [9], command := 0x55,
            out := [] ++ [sampleConfig.BOOTLOADER_RESPONSE_NACK], state := 0 }) :=
  (unknown_command_nack sampleConfig blankFlash
    (World.start (List.replicate 258 0) [0x55, 0xAA, 9] ()) sampleConfig_wf).1
    0x55 [9] rfl (by decide) (by decide) rfl

/-- C13: a round taken in state `10 + GET` reads no input, sends exactly the ten bytes 7,
`BOOTLOADER_VERSION`, GET, GET_VERSION, GET_ID, READ_MEMORY, GO, WRITE_MEMORY, ERASE, ACK in
this order, and sets state 0 (Idle). -/
theorem get_response {F : Type} (cfg : Config) (fl : FlashIface F) (w : World F)
    (hs : w.state = 10 + cfg.BOOTLOADER_COMMAND_GET) :
    step cfg fl w =
      (Result.ok (),
        { w with out := w.out ++ [7, cfg.BOOTLOADER_VERSION, cfg.BOOTLOADER_COMMAND_GET,
                   cfg.BOOTLOADER_COMMAND_GET_VERSION, cfg.BOOTLOADER_COMMAND_GET_ID,
                   cfg.BOOTLOADER_COMMAND_READ_MEMORY, cfg.BOOTLOADER_COMMAND_GO,
                   cfg.BOOTLOADER_COMMAND_WRITE_MEMORY, cfg.BOOTLOADER_COMMAND_ERASE,
                   cfg.BOOTLOADER_RESPONSE_ACK],
                 state := 0 }) := by
  rw [step_get cfg fl w hs, case_get_eval]

/-- A run of C13 with the sample constants. -/
theorem get_response_witness :
    step sampleConfig blankFlash
        { World.start (List.replicate 258 0) [5] () with state := 10 + 0x00 } =
      (Result.ok (),
        { ({ World.start (List.replicate 258 0) [5] () with state := 10 + 0x00 } : World Unit)
            with out := [] ++ [7, 0x10, 0x00, 0x01, 0x02, 0x11, 0x21, 0x31, 0x43, 0x79],
                 state := 0 }) :=
  get_response sampleConfig blankFlash
    { World.start (List.replicate 258 0) [5] () with state := 10 + 0x00 } rfl

/-- C14: in state `10 + ERASE`, the count byte 0xFF followed by a confirmation byte other
than 0x00 makes the round return in state 0xFF (Abort) with exactly these two bytes consumed,
nothing sent and no call of the flash driver; the next round sends NACK and sets state 0. -/
theorem erase_all_needs_zero {F : Type} (cfg : Config) (fl : FlashIface F) (w : World F)
    (confirm : Nat) (rest : List Nat) (hwf : cfg.WF)
    (hs : w.state = 10 + cfg.BOOTLOADER_COMMAND_ERASE) (hc : confirm ≠ 0x00)
    (hin : w.inp = 0xFF :: confirm :: rest) :
    step cfg fl w = (Result.ok (), { w with inp := rest, state := 0xFF }) ∧
    (step cfg fl w).2.calls = w.calls ∧ (step cfg fl w).2.out = w.out ∧
    run cfg fl 2 w =
      (Result.ok (),
        { w with inp := rest, out := w.out ++ [cfg.BOOTLOADER_RESPONSE_NACK], state := 0 }) := by
  have h1 : step cfg fl w = (Result.ok (), { w with inp := rest, state := 0xFF }) := by
    rw [step_erase cfg fl w hwf hs, case_erase_all_reject cfg fl w confirm rest hc hin]
  have h2 : step cfg fl { w with inp := rest, state := 0xFF }
      = (Result.ok (),
          { w with inp := rest, out := w.out ++ [cfg.BOOTLOADER_RESPONSE_NACK],
                   state := 0 }) := by
    rw [step_abort cfg fl _ hwf rfl, case_abort_eval]
  refine ⟨h1, ?_, ?_, ?_⟩
  · rw [h1]
  · rw [h1]
  · rw [run_succ_ok h1, run_succ_ok h2, run_zero]

/-- A run of C14: 0xFF followed by 0x01. -/
theorem erase_all_needs_zero_witness :
    step sampleConfig blankFlash
        { World.start (List.replicate 258 0) [0xFF, 0x01, 9] () with state := 10 + 0x43 } =
      (Result.ok (),
        { ({ World.start (List.replicate 258 0) [0xFF, 0x01, 9] () with
              state := 10 + 0x43 } : World Unit) with inp := [9], state := 0xFF }) ∧
    (step sampleConfig blankFlash
        { World.start (List.replicate 258 0) [0xFF, 0x01, 9] () with
            state := 10 + 0x43 }).2.calls = [] ∧
    (step sampleConfig blankFlash
        { World.start (List.replicate 258 0) [0xFF, 0x01, 9] () with
            state := 10 + 0x43 }).2.out = [] ∧
    run sampleConfig blankFlash 2
        { World.start (List.replicate 258 0) [0xFF, 0x01, 9] () with state := 10 + 0x43 } =
      (Result.ok (),
        { ({ World.start (List.replicate 258 0) [0xFF, 0x01, 9] () with
              state := 10 + 0x43 } : World Unit) with
            inp := [9], out := [] ++ [sampleConfig.BOOTLOADER_RESPONSE_NACK], state := 0 }) :=
  erase_all_needs_zero sampleConfig blankFlash
    { World.start (List.replicate 258 0) [0xFF, 0x01, 9] () with state := 10 + 0x43 }
    0x01 [9] sampleConfig_wf rfl (by decide) rfl

/-! ## C12 and C17: READ_MEMORY and GO -/

/-- C12: in state `10 + READ_MEMORY`, an accepted address frame for the address `A`, a length
byte `len` and the confirmation byte `len ^ 0xFF` make the round send ACK, ACK and then the
bytes that `flash_read(A, len + 1)` delivers (`len + 1` of them), in order, after the one
driver call `flash_read`, and set state 0.  When the confirmation byte is another byte, or when the
address frame is rejected (checksum or `A > FLASH_SIZE`), the driver is not called and the
state is 0xFF. -/
theorem read_memory_response {F : Type} (cfg : Config) (fl : FlashIface F) (w : World F)
    (b0 b1 hi lo ck len cks : Nat) (rest : List Nat) (hwf : cfg.WF)
    (hs : w.state = 10 + cfg.BOOTLOADER_COMMAND_READ_MEMORY)
    (hhi : hi < 256) (hlo : lo < 256) (hlen : len < 256) (hbuf : w.buffer.length = 258) :
    (ck = b0 ^^^ b1 ^^^ hi ^^^ lo → hi * 256 + lo ≤ cfg.FLASH_SIZE → cks = len ^^^ 0xFF →
      (fl.flash_read w.flash (hi * 256 + lo) (len + 1)).length = len + 1 →
      w.inp = b0 :: b1 :: hi :: lo :: ck :: len :: cks :: rest →
      (step cfg fl w).1 = Result.ok () ∧
      (step cfg fl w).2.out =
        w.out ++ [cfg.BOOTLOADER_RESPONSE_ACK, cfg.BOOTLOADER_RESPONSE_ACK] ++
          fl.flash_read w.flash (hi * 256 + lo) (len + 1) ∧
      (step cfg fl w).2.calls = w.calls ++ [FlashCall.read (hi * 256 + lo) (len + 1)] ∧
      (step cfg fl w).2.state = 0 ∧ (step cfg fl w).2.inp = rest) ∧
    (ck = b0 ^^^ b1 ^^^ hi ^^^ lo → hi * 256 + lo ≤ cfg.FLASH_SIZE → cks ≠ len ^^^ 0xFF →
      w.inp = b0 :: b1 :: hi :: lo :: ck :: len :: cks :: rest →
      step cfg fl w =
        (Result.ok (), { w with inp := rest, out := w.out ++ [cfg.BOOTLOADER_RESPONSE_ACK],
                                state := 0xFF })) ∧
    ((ck ≠ b0 ^^^ b1 ^^^ hi ^^^ lo ∨ cfg.FLASH_SIZE < hi * 256 + lo) →
      w.inp = b0 :: b1 :: hi :: lo :: ck :: rest →
      step cfg fl w = (Result.ok (), { w with inp := rest, state := 0xFF })) := by
  refine ⟨?_, ?_, ?_⟩
  · intro hck haddr hcks hread hin
    have hc : len = cks ^^^ 0xFF := by rw [hcks, Nat.xor_cancel_right]
    rw [step_read_memory cfg fl w hwf hs, case_read_memory_eval cfg fl w b0 b1 hi lo ck len cks
      rest hhi hlo hck haddr hlen hc hbuf hin]
    refine ⟨rfl, ?_, rfl, rfl, rfl⟩
    dsimp only
    have h1 : List.take (len + 1) (fl.flash_read w.flash (hi * 256 + lo) (len + 1))
        = fl.flash_read w.flash (hi * 256 + lo) (len + 1) :=
      List.take_of_length_le (by omega)
    rw [h1]
    generalize fl.flash_read w.flash (hi * 256 + lo) (len + 1) = data at hread
    rw [← hread, List.take_left]
  · intro hck haddr hcks hin
    have hc : len ≠ cks ^^^ 0xFF := by
      intro h
      apply hcks
      rw [h, Nat.xor_cancel_right]
    rw [step_read_memory cfg fl w hwf hs, case_read_memory_mismatch cfg fl w b0 b1 hi lo ck len
      cks rest hhi hlo hck haddr hc hin]
  · intro hrej hin
    rw [step_read_memory cfg fl w hwf hs, case_read_memory_reject cfg fl w _ _
      (decode_address_rejected cfg w b0 b1 hi lo ck rest hhi hlo hrej hin)]

/-- A run of C12: address 0x0000, `len = 0`, confirmation 0xFF: ACK, ACK and one byte. -/
theorem read_memory_response_witness :
    (step sampleConfig blankFlash
        { World.start (List.replicate 258 0) [0, 0, 0, 0, 0, 0, 0xFF, 9] () with
            state := 10 + 0x11 }).1 = Result.ok () ∧
    (step sampleConfig blankFlash
        { World.start (List.replicate 258 0) [0, 0, 0, 0, 0, 0, 0xFF, 9] () with
            state := 10 + 0x11 }).2.out =
      [] ++ [sampleConfig.BOOTLOADER_RESPONSE_ACK, sampleConfig.BOOTLOADER_RESPONSE_ACK] ++
        blankFlash.flash_read () (0 * 256 + 0) (0 + 1) ∧
    (step sampleConfig blankFlash
        { World.start (List.replicate 258 0) [0, 0, 0, 0, 0, 0, 0xFF, 9] () with
            state := 10 + 0x11 }).2.calls = [] ++ [FlashCall.read (0 * 256 + 0) (0 + 1)] ∧
    (step sampleConfig blankFlash
        { World.start (List.replicate 258 0) [0, 0, 0, 0, 0, 0, 0xFF, 9] () with
            state := 10 + 0x11 }).2.state = 0 ∧
    (step sampleConfig blankFlash
        { World.start (List.replicate 258 0) [0, 0, 0, 0, 0, 0, 0xFF, 9] () with
            state := 10 + 0x11 }).2.inp = [9] :=
  (read_memory_response sampleConfig blankFlash
    { World.start (List.replicate 258 0) [0, 0, 0, 0, 0, 0, 0xFF, 9] () with
        state := 10 + 0x11 }
    0 0 0 0 0 0 0xFF [9] sampleConfig_wf rfl (by decide) (by decide) (by decide)
    (List.length_replicate 258 0)).1 (by decide) (by decide) (by decide) rfl rfl

/-- C17: in state `10 + GO`, a rejected address frame (checksum or `A > FLASH_SIZE`) makes
the round return in state 0xFF with nothing sent and no jump.  An accepted frame for the
address `A` makes it send exactly one ACK, clear `EA`, `IEN0`, `IEN1` and `IEN2`, and then
jump to `A`: the round ends with the jump, the ACK already sent. -/
theorem go_command {F : Type} (cfg : Config) (fl : FlashIface F) (w : World F)
    (b0 b1 hi lo ck : Nat) (rest : List Nat) (hwf : cfg.WF)
    (hs : w.state = 10 + cfg.BOOTLOADER_COMMAND_GO) (hhi : hi < 256) (hlo : lo < 256)
    (hin : w.inp = b0 :: b1 :: hi :: lo :: ck :: rest) :
    ((ck ≠ b0 ^^^ b1 ^^^ hi ^^^ lo ∨ cfg.FLASH_SIZE < hi * 256 + lo) →
      step cfg fl w = (Result.ok (), { w with inp := rest, state := 0xFF })) ∧
    (ck = b0 ^^^ b1 ^^^ hi ^^^ lo → hi * 256 + lo ≤ cfg.FLASH_SIZE →
      step cfg fl w =
        (Result.jumped (hi * 256 + lo),
          { w with inp := rest, out := w.out ++ [cfg.BOOTLOADER_RESPONSE_ACK],
                   EA := 0, IEN0 := 0, IEN1 := 0, IEN2 := 0 })) := by
  constructor
  · intro hrej
    rw [step_go cfg fl w hwf hs, case_go_reject cfg w _ _
      (decode_address_rejected cfg w b0 b1 hi lo ck rest hhi hlo hrej hin)]
  · intro hck haddr
    rw [step_go cfg fl w hwf hs, case_go_eval cfg w b0 b1 hi lo ck rest hhi hlo hck haddr hin]

/-- A run of C17: GO to the address 0x1000. -/
theorem go_command_witness :
    step sampleConfig blankFlash
        { World.start (List.replicate 258 0) [0, 0, 0x10, 0, 0x10, 9] () with
            state := 10 + 0x21 } =
      (Result.jumped (0x10 * 256 + 0),
        { ({ World.start (List.replicate 258 0) [0, 0, 0x10, 0, 0x10, 9] () with
              state := 10 + 0x21 } : World Unit) with
            inp := [9], out := [] ++ [sampleConfig.BOOTLOADER_RESPONSE_ACK],
            EA := 0, IEN0 := 0, IEN1 := 0, IEN2 := 0 }) :=
  (go_command sampleConfig blankFlash
    { World.start (List.replicate 258 0) [0, 0, 0x10, 0, 0x10, 9] () with state := 10 + 0x21 }
    0 0 0x10 0 0x10 [9] sampleConfig_wf rfl (by decide) (by decide) rfl).2
    (by decide) (by decide)

/-! ## C15: the explicit page list of ERASE -/

/-- C15: in state `10 + ERASE`, a count byte `len` other than 0xFF, `len + 1` page bytes and
the trailing byte `len ^ p[0] ^ ... ^ p[len]` make the round call `flash_erase_page` exactly
`len + 1` times, for `p[0]`, ..., `p[len]` in wire order, when each of these calls succeeds;
then exactly one ACK is sent and the state is 0 (Idle). -/
theorem explicit_erase {F : Type} (cfg : Config) (fl : FlashIface F) (w : World F)
    (len ck : Nat) (payload rest : List Nat) (hwf : cfg.WF)
    (hs : w.state = 10 + cfg.BOOTLOADER_COMMAND_ERASE) (hne : len ≠ 0xFF) (hlen : len < 256)
    (hpl : payload.length = len + 1) (hbuf : w.buffer.length = 258)
    (hin : w.inp = len :: (payload ++ ck :: rest)) (hck : ck = xor_fold len payload)
    (hrow : ∀ k, k < len + 1 →
      (fl.flash_erase_page (flash_after fl w.flash (payload.take k)) (payload.getD k 0)).1
        = true) :
    step cfg fl w =
      (Result.ok (),
        { w with inp := rest, buffer := blit w.buffer 0 payload,
                 flash := flash_after fl w.flash payload,
                 calls := w.calls ++ payload.map FlashCall.erase,
                 out := w.out ++ [cfg.BOOTLOADER_RESPONSE_ACK],
                 state := 0 }) := by
  obtain ⟨q, ps, rfl⟩ : ∃ q ps, payload = q :: ps := by
    cases payload with
    | nil => simp at hpl
    | cons q ps => exact ⟨q, ps, rfl⟩
  have hps : ps.length = len := by simpa using hpl
  have hfirst : (fl.flash_erase_page w.flash q).1 = true := hrow 0 (by omega)
  have hall := erase_pages_of_row fl (q :: ps) w.flash (fun k hk => hrow k (by
    rw [hpl] at hk
    exact hk))
  rw [step_erase cfg fl w hwf hs, case_erase_list_eval cfg fl w len ck (q :: ps) rest hne hlen
    hpl hbuf hin, if_pos hck, ← hps]
  rw [erase_commit_eval cfg fl _ q ps (w.buffer.drop (q :: ps).length)
    (by simp [blit_zero])]
  dsimp only
  rw [if_pos hfirst, hall]

/-- A run of C15: the pages 5 and 6 (frame 0x01 0x05 0x06 0x02). -/
theorem explicit_erase_witness :
    step sampleConfig blankFlash
        { World.start (List.replicate 258 0) [1, 5, 6, 2, 9] () with state := 10 + 0x43 } =
      (Result.ok (),
        { ({ World.start (List.replicate 258 0) [1, 5, 6, 2, 9] () with
              state := 10 + 0x43 } : World Unit) with
            inp := [9], buffer := blit (List.replicate 258 0) 0 [5, 6],
            flash := flash_after blankFlash () [5, 6],
            calls := [] ++ [5, 6].map FlashCall.erase,
            out := [] ++ [sampleConfig.BOOTLOADER_RESPONSE_ACK],
            state := 0 }) :=
  explicit_erase sampleConfig blankFlash
    { World.start (List.replicate 258 0) [1, 5, 6, 2, 9] () with state := 10 + 0x43 }
    1 2 [5, 6] [9] sampleConfig_wf rfl (by decide) (by decide) rfl
    (List.length_replicate 258 0) rfl (by decide) (fun _ _ => rfl)

/-! ## C16: the entry decision -/

/-- C16: the part of `bootloader_main` in front of the loop jumps to the application at
`BOOTLOADER_SIZE` exactly when `io_bootloader_enabled()` is false and the byte at
`BOOTLOADER_SIZE` is not 0xFF.  It jumps with `EA`, `IEN0`, `IEN1` and `IEN2` cleared, after
`io_init`, `led_init` and `delay_ms(25)` only (no `uart_init`, no `flash_init`), and with no
byte received or sent.  In every other case the hardware is started and the loop is entered
with `state = 0` (Idle). -/
theorem entry_decision {F : Type} (cfg : Config) (fl : FlashIface F)
    (io_bootloader_enabled : Bool) (xdata : Nat → Nat) (b : Board F) :
    ((bootloader_entry cfg io_bootloader_enabled xdata b).1 = Result.jumped cfg.BOOTLOADER_SIZE
      ↔ (io_bootloader_enabled = false ∧ xdata cfg.BOOTLOADER_SIZE ≠ 0xFF)) ∧
    (io_bootloader_enabled = false ∧ xdata cfg.BOOTLOADER_SIZE ≠ 0xFF →
      ∀ n, bootloader_main cfg fl io_bootloader_enabled xdata n b =
        (Result.jumped cfg.BOOTLOADER_SIZE,
          { world := { b.world with state := 0, command := 0,
                                    EA := 0, IEN0 := 0, IEN1 := 0, IEN2 := 0 },
            hw := b.hw ++ [HwCall.io_init, HwCall.led_init, HwCall.delay_ms 25] })) ∧
    (¬ (io_bootloader_enabled = false ∧ xdata cfg.BOOTLOADER_SIZE ≠ 0xFF) →
      bootloader_entry cfg io_bootloader_enabled xdata b =
        (Result.ok (),
          { world := { b.world with state := 0, command := 0 },
            hw := b.hw ++ [HwCall.io_init, HwCall.led_init, HwCall.delay_ms 25] ++
              [HwCall.bootloader_init, HwCall.uart_init, HwCall.flash_init,
               HwCall.led_green_on, HwCall.led_red_off] }) ∧
      ∀ n, bootloader_main cfg fl io_bootloader_enabled xdata n b =
        ((run cfg fl n { b.world with state := 0, command := 0 }).1,
          { world := (run cfg fl n { b.world with state := 0, command := 0 }).2,
            hw := b.hw ++ [HwCall.io_init, HwCall.led_init, HwCall.delay_ms 25] ++
              [HwCall.bootloader_init, HwCall.uart_init, HwCall.flash_init,
               HwCall.led_green_on, HwCall.led_red_off] })) := by
  by_cases hpin : io_bootloader_enabled = false
  · by_cases hbyte : xdata cfg.BOOTLOADER_SIZE ≠ 0xFF
    · have he : bootloader_entry cfg io_bootloader_enabled xdata b =
          (Result.jumped cfg.BOOTLOADER_SIZE,
            { world := { b.world with state := 0, command := 0,
                                      EA := 0, IEN0 := 0, IEN1 := 0, IEN2 := 0 },
              hw := b.hw ++ [HwCall.io_init, HwCall.led_init, HwCall.delay_ms 25] }) := by
        simp only [bootloader_entry, hpin, hbyte, if_true, ne_eq, not_false_eq_true,
          bootloader_jump_to_app_eval]
      refine ⟨⟨fun _ => ⟨hpin, hbyte⟩, fun _ => by rw [he]⟩, fun _ n => ?_,
        fun h => absurd ⟨hpin, hbyte⟩ h⟩
      simp only [bootloader_main, he]
    · have he : bootloader_entry cfg io_bootloader_enabled xdata b =
          (Result.ok (),
            { world := { b.world with state := 0, command := 0 },
              hw := b.hw ++ [HwCall.io_init, HwCall.led_init, HwCall.delay_ms 25] ++
                [HwCall.bootloader_init, HwCall.uart_init, HwCall.flash_init,
                 HwCall.led_green_on, HwCall.led_red_off] }) := by
        simp only [bootloader_entry, hpin, hbyte, if_true, if_false]
      refine ⟨⟨fun h => ?_, fun h => absurd h.2 hbyte⟩, fun h => absurd h.2 hbyte,
        fun _ => ⟨he, fun n => ?_⟩⟩
      · rw [he] at h
        cases h
      · simp only [bootloader_main, he]
  · have he : bootloader_entry cfg io_bootloader_enabled xdata b =
        (Result.ok (),
          { world := { b.world with state := 0, command := 0 },
            hw := b.hw ++ [HwCall.io_init, HwCall.led_init, HwCall.delay_ms 25] ++
              [HwCall.bootloader_init, HwCall.uart_init, HwCall.flash_init,
               HwCall.led_green_on, HwCall.led_red_off] }) := by
      have hpin2 : io_bootloader_enabled = true := by simpa using hpin
      subst hpin2
      rfl
    refine ⟨⟨fun h => ?_, fun h => absurd h.1 hpin⟩, fun h => absurd h.1 hpin,
      fun _ => ⟨he, fun n => ?_⟩⟩
    · rw [he] at h
      cases h
    · simp only [bootloader_main, he]

/-- A run of C16: the pin does not ask for the bootloader and the application starts with
the byte 0x02, so the application is started and nothing is read from the line. -/
theorem entry_decision_witness :
    ∀ n, bootloader_main sampleConfig blankFlash false (fun _ => 0x02) n
        { world := World.start (List.replicate 258 0) [0x7F] (), hw := [] } =
      (Result.jumped sampleConfig.BOOTLOADER_SIZE,
        { world := { World.start (List.replicate 258 0) [0x7F] () with
                       state := 0, command := 0, EA := 0, IEN0 := 0, IEN1 := 0, IEN2 := 0 },
          hw := [] ++ [HwCall.io_init, HwCall.led_init, HwCall.delay_ms 25] }) :=
  (entry_decision sampleConfig blankFlash false (fun _ => 0x02)
    { world := World.start (List.replicate 258 0) [0x7F] (), hw := [] }).2.1
    ⟨rfl, by decide⟩

/-! ## C18, C19 and C20: what every run keeps -/

/-- C18: in every run of the loop (any number of rounds, any received bytes, any flash
driver, started with an empty call log), every start address passed to `flash_read` or to
`flash_write_data` and every address GO jumps to is at most `FLASH_SIZE`.  For WRITE_MEMORY
with an odd validated address `A`, `A >= 1`, so that the 16-bit decrement gives `A - 1`
without wrapping, and the address passed to the driver is `A - 1 <= FLASH_SIZE`. -/
theorem address_bound {F : Type} (cfg : Config) (fl : FlashIface F) (w : World F) (n : Nat)
    (hbuf : w.buffer.length = 258) (hinp : ∀ b ∈ w.inp, b < 256) (hcalls : w.calls = []) :
    (∀ address count, FlashCall.read address count ∈ (run cfg fl n w).2.calls →
      address ≤ cfg.FLASH_SIZE) ∧
    (∀ address data, FlashCall.write address data ∈ (run cfg fl n w).2.calls →
      address ≤ cfg.FLASH_SIZE) ∧
    (∀ address, (run cfg fl n w).1 = Result.jumped address → address ≤ cfg.FLASH_SIZE) ∧
    (∀ (b0 b1 hi lo ack len ck : Nat) (payload rest : List Nat), cfg.WF →
      w.state = 10 + cfg.BOOTLOADER_COMMAND_WRITE_MEMORY → hi < 256 → lo < 256 →
      ack = b0 ^^^ b1 ^^^ hi ^^^ lo → hi * 256 + lo ≤ cfg.FLASH_SIZE →
      (hi * 256 + lo) % 2 = 1 → len < 256 → payload.length = len + 1 →
      ck = xor_fold len payload →
      w.inp = b0 :: b1 :: hi :: lo :: ack :: len :: (payload ++ ck :: rest) →
      1 ≤ hi * 256 + lo ∧ (hi * 256 + lo + 65535) % 65536 = hi * 256 + lo - 1 ∧
      hi * 256 + lo - 1 ≤ cfg.FLASH_SIZE ∧
      ∃ data, (step cfg fl w).2.calls = w.calls ++ [FlashCall.write (hi * 256 + lo - 1) data])
    := by
  have hr := run_base cfg fl n w (base_of_start cfg w hbuf hinp hcalls)
  refine ⟨fun a c h => (hr.1.2.2 _ h).1, fun a d h => (hr.1.2.2 _ h).1, hr.2.2, ?_⟩
  intro b0 b1 hi lo ack len ck payload rest hwf hs hhi hlo hack haddr hodd hlen hpl hck hin
  refine ⟨by omega, by omega, by omega, staged_write (hi * 256 + lo) payload, ?_⟩
  rw [step_write_memory cfg fl w hwf hs, case_write_memory_eval cfg fl w b0 b1 hi lo ack len
    ck payload rest hhi hlo hack haddr hlen hpl hbuf hin, if_pos hck, hodd]

/-- A run of C18: one round of WRITE_MEMORY for the odd address 0x1001. -/
theorem address_bound_witness :
    (∀ address count, FlashCall.read address count ∈
        (run sampleConfig blankFlash 1
          { World.start (List.replicate 258 0) [0, 0, 0x10, 1, 0x11, 2, 1, 2, 3, 2] () with
              state := 10 + 0x31 }).2.calls → address ≤ sampleConfig.FLASH_SIZE) ∧
    (∀ address data, FlashCall.write address data ∈
        (run sampleConfig blankFlash 1
          { World.start (List.replicate 258 0) [0, 0, 0x10, 1, 0x11, 2, 1, 2, 3, 2] () with
              state := 10 + 0x31 }).2.calls → address ≤ sampleConfig.FLASH_SIZE) ∧
    (∀ address,
        (run sampleConfig blankFlash 1
          { World.start (List.replicate 258 0) [0, 0, 0x10, 1, 0x11, 2, 1, 2, 3, 2] () with
              state := 10 + 0x31 }).1 = Result.jumped address →
        address ≤ sampleConfig.FLASH_SIZE) ∧
    (1 ≤ 0x10 * 256 + 1 ∧ (0x10 * 256 + 1 + 65535) % 65536 = 0x10 * 256 + 1 - 1 ∧
      0x10 * 256 + 1 - 1 ≤ sampleConfig.FLASH_SIZE ∧
      ∃ data,
        (step sampleConfig blankFlash
          { World.start (List.replicate 258 0) [0, 0, 0x10, 1, 0x11, 2, 1, 2, 3, 2] () with
              state := 10 + 0x31 }).2.calls =
          [] ++ [FlashCall.write (0x10 * 256 + 1 - 1) data]) :=
  have h := address_bound sampleConfig blankFlash
    { World.start (List.replicate 258 0) [0, 0, 0x10, 1, 0x11, 2, 1, 2, 3, 2] () with
        state := 10 + 0x31 } 1 (List.length_replicate 258 0) (by decide) rfl
  ⟨h.1, h.2.1, h.2.2.1,
    h.2.2.2 0 0 0x10 1 0x11 2 2 [1, 2, 3] [] sampleConfig_wf rfl (by decide) (by decide)
      (by decide) (by decide) (by decide) (by decide) rfl (by decide) rfl⟩

/-- C19: in every run of the loop over a 258-byte buffer and received bytes, no round ends in
a fault, that is no store to or load from `buffer` is outside the array, and the buffer keeps
its 258 bytes; every `flash_read` asks for at most 256 bytes and every `flash_write_data`
gets at most 258.  For an accepted WRITE_MEMORY frame the count is at most 258, and it is 258
exactly for an odd address and `len = 255`.  An explicit ERASE list stores `len + 1 <= 255`
page bytes at the start of the buffer and leaves the rest as it was. -/
theorem staging_in_range {F : Type} (cfg : Config) (fl : FlashIface F) (w : World F) (n : Nat)
    (hbuf : w.buffer.length = 258) (hinp : ∀ b ∈ w.inp, b < 256) (hcalls : w.calls = []) :
    (run cfg fl n w).1 ≠ Result.fault ∧ (run cfg fl n w).2.buffer.length = 258 ∧
    (∀ address count, FlashCall.read address count ∈ (run cfg fl n w).2.calls →
      count ≤ 256) ∧
    (∀ address data, FlashCall.write address data ∈ (run cfg fl n w).2.calls →
      data.length ≤ 258) ∧
    (∀ (b0 b1 hi lo ack len ck : Nat) (payload rest : List Nat), cfg.WF →
      w.state = 10 + cfg.BOOTLOADER_COMMAND_WRITE_MEMORY → hi < 256 → lo < 256 →
      ack = b0 ^^^ b1 ^^^ hi ^^^ lo → hi * 256 + lo ≤ cfg.FLASH_SIZE →
      len < 256 → payload.length = len + 1 → ck = xor_fold len payload →
      w.inp = b0 :: b1 :: hi :: lo :: ack :: len :: (payload ++ ck :: rest) →
      ∃ address data, (step cfg fl w).2.calls = w.calls ++ [FlashCall.write address data] ∧
        data.length ≤ 258 ∧ (data.length = 258 ↔ (hi * 256 + lo) % 2 = 1 ∧ len = 255)) ∧
    (∀ (len ck : Nat) (payload rest : List Nat), cfg.WF →
      w.state = 10 + cfg.BOOTLOADER_COMMAND_ERASE → len ≠ 0xFF → len < 256 →
      payload.length = len + 1 → w.inp = len :: (payload ++ ck :: rest) →
      payload.length ≤ 255 ∧
      (step cfg fl w).2.buffer = payload ++ w.buffer.drop payload.length) := by
  have hr := run_base cfg fl n w (base_of_start cfg w hbuf hinp hcalls)
  refine ⟨hr.2.1, hr.1.1, fun a c h => (hr.1.2.2 _ h).2, fun a d h => (hr.1.2.2 _ h).2, ?_, ?_⟩
  · intro b0 b1 hi lo ack len ck payload rest hwf hs hhi hlo hack haddr hlen hpl hck hin
    refine ⟨hi * 256 + lo - (hi * 256 + lo) % 2, staged_write (hi * 256 + lo) payload, ?_, ?_, ?_⟩
    · rw [step_write_memory cfg fl w hwf hs, case_write_memory_eval cfg fl w b0 b1 hi lo ack
        len ck payload rest hhi hlo hack haddr hlen hpl hbuf hin, if_pos hck]
    · simp only [staged_write, List.length_append, hpl]
      split_ifs <;> simp <;> omega
    · simp only [staged_write, List.length_append, hpl]
      split_ifs <;> simp <;> omega
  · intro len ck payload rest hwf hs hne hlen hpl hin
    refine ⟨by omega, ?_⟩
    obtain ⟨q, ps, rfl⟩ : ∃ q ps, payload = q :: ps := by
      cases payload with
      | nil => simp at hpl
      | cons q ps => exact ⟨q, ps, rfl⟩
    have hps : ps.length = len := by simpa using hpl
    rw [step_erase cfg fl w hwf hs, case_erase_list_eval cfg fl w len ck (q :: ps) rest hne
      hlen hpl hbuf hin]
    split_ifs
    · rw [← hps, erase_commit_eval cfg fl _ q ps (w.buffer.drop (q :: ps).length)
        (by simp [blit_zero])]
      split_ifs <;> simp [blit_zero]
    · simp [blit_zero]

/-- A run of C19: one round of WRITE_MEMORY with three bytes for the odd address 0x1001. -/
theorem staging_in_range_witness :
    (run sampleConfig blankFlash 1
      { World.start (List.replicate 258 0) [0, 0, 0x10, 1, 0x11, 2, 1, 2, 3, 2] () with
          state := 10 + 0x31 }).1 ≠ Result.fault ∧
    (run sampleConfig blankFlash 1
      { World.start (List.replicate 258 0) [0, 0, 0x10, 1, 0x11, 2, 1, 2, 3, 2] () with
          state := 10 + 0x31 }).2.buffer.length = 258 ∧
    (∃ address data,
      (step sampleConfig blankFlash
        { World.start (List.replicate 258 0) [0, 0, 0x10, 1, 0x11, 2, 1, 2, 3, 2] () with
            state := 10 + 0x31 }).2.calls = [] ++ [FlashCall.write address data] ∧
      data.length ≤ 258 ∧ (data.length = 258 ↔ (0x10 * 256 + 1) % 2 = 1 ∧ 2 = 255)) :=
  have h := staging_in_range sampleConfig blankFlash
    { World.start (List.replicate 258 0) [0, 0, 0x10, 1, 0x11, 2, 1, 2, 3, 2] () with
        state := 10 + 0x31 } 1 (List.length_replicate 258 0) (by decide) rfl
  ⟨h.1, h.2.1,
    h.2.2.2.2.1 0 0 0x10 1 0x11 2 2 [1, 2, 3] [] sampleConfig_wf rfl (by decide) (by decide)
      (by decide) (by decide) (by decide) rfl (by decide) rfl⟩

/-- C20: started in state 0 (Idle), after any number of rounds of the loop, for any received
bytes and any flash driver, `state` is 0, 1, 0xFF or `10 + c` for one of the seven commands
GET, GET_VERSION, GET_ID, READ_MEMORY, GO, WRITE_MEMORY, ERASE, and whenever it is 1 the
pending `command` is not INIT. -/
theorem reachable_states {F : Type} (cfg : Config) (fl : FlashIface F) (w : World F) (n : Nat)
    (hwf : cfg.WF) (hs : w.state = 0) (hbuf : w.buffer.length = 258)
    (hinp : ∀ b ∈ w.inp, b < 256) (hcalls : w.calls = []) :
    ((run cfg fl n w).2.state = 0 ∨ (run cfg fl n w).2.state = 1 ∨
      (run cfg fl n w).2.state = 0xFF ∨
      ∃ c ∈ cfg.commands, (run cfg fl n w).2.state = 10 + c) ∧
    ((run cfg fl n w).2.state = 1 →
      (run cfg fl n w).2.command ≠ cfg.BOOTLOADER_COMMAND_INIT) := by
  have hl := hwf.small
  have hr := run_state cfg fl hwf n w (base_of_start cfg w hbuf hinp hcalls) (Or.inl hs)
  rcases hr with h | h | h | ⟨c, hc1, hc2⟩
  · exact ⟨Or.inl h, fun h1 => by omega⟩
  · exact ⟨Or.inr (Or.inl h.1), fun _ => h.2⟩
  · exact ⟨Or.inr (Or.inr (Or.inl h)), fun h1 => by omega⟩
  · exact ⟨Or.inr (Or.inr (Or.inr ⟨c, hc1, hc2⟩)), fun h1 => by omega⟩

/-- A run of C20: four rounds over the bytes 0x43, 0x11, 0xEE, 0x00. -/
theorem reachable_states_witness :
    ((run sampleConfig blankFlash 4
        (World.start (List.replicate 258 0) [0x43, 0x11, 0xEE, 0x00] ())).2.state = 0 ∨
      (run sampleConfig blankFlash 4
        (World.start (List.replicate 258 0) [0x43, 0x11, 0xEE, 0x00] ())).2.state = 1 ∨
      (run sampleConfig blankFlash 4
        (World.start (List.replicate 258 0) [0x43, 0x11, 0xEE, 0x00] ())).2.state = 0xFF ∨
      ∃ c ∈ sampleConfig.commands,
        (run sampleConfig blankFlash 4
          (World.start (List.replicate 258 0) [0x43, 0x11, 0xEE, 0x00] ())).2.state = 10 + c) ∧
    ((run sampleConfig blankFlash 4
        (World.start (List.replicate 258 0) [0x43, 0x11, 0xEE, 0x00] ())).2.state = 1 →
      (run sampleConfig blankFlash 4
        (World.start (List.replicate 258 0) [0x43, 0x11, 0xEE, 0x00] ())).2.command
        ≠ sampleConfig.BOOTLOADER_COMMAND_INIT) :=
  reachable_states sampleConfig blankFlash
    (World.start (List.replicate 258 0) [0x43, 0x11, 0xEE, 0x00] ()) 4 sampleConfig_wf rfl
    (List.length_replicate 258 0) (by decide) rfl

end OpenSkyBL
